import Mathlib

/-!
Verification development for the reqifio library: a shallow embedding of its
data model (model.py), markup codec (reqif_parser.py / reqif_writer.py),
tabular codec (csv_adapter.py), relational codec (sqlite_adapter.py) and
command engine (command.py), together with theorems settling the spec claims.

Python exceptions are modelled by an error enumeration; fallible code returns
Except.  Machine-level details that no claim touches (file encodings, byte
order) are not modelled; everything a claim inspects is translated from the
source.
-/

/-- Python exception kinds raised by the code under verification. -/
inductive PyErr where
  | valueError
  | typeError
  | attributeError
  | keyError
  | indexError
  | expatError
  | duplicateIdentifier
  | notFound
  | emptyHistory
deriving DecidableEq, Repr

/-- Numeric value of a list of decimal digit characters. -/
def digitsToNat (cs : List Char) : Nat :=
  cs.foldl (fun a c => a * 10 + (c.toNat - ('0').toNat)) 0

/-- Interpret a character list as a nonempty all-digit decimal number. -/
def natOfDigits (cs : List Char) : Except PyErr Nat :=
  if cs ≠ [] ∧ cs.all Char.isDigit then Except.ok (digitsToNat cs)
  else Except.error PyErr.valueError

/-- Zero-padded decimal rendering, as Python percent-formatting with width w. -/
def padNum (w n : Nat) : String :=
  let s := toString n
  if s.length < w then String.mk (List.replicate (w - s.length) '0') ++ s else s

/-- A Python datetime value: calendar fields plus an optional fixed UTC offset
in microseconds (Python timezone objects allow sub-minute offsets). -/
structure PyDateTime where
  year : Nat
  month : Nat
  day : Nat
  hour : Nat
  minute : Nat
  second : Nat
  microsecond : Nat
  tzOffsetUs : Option Int
deriving DecidableEq, Repr

/-- Leap-year rule of the proleptic Gregorian calendar used by datetime. -/
def isLeapYear (y : Nat) : Bool :=
  (y % 4 == 0 && y % 100 != 0) || (y % 400 == 0)

/-- Length of a month, as datetime validates day-of-month. -/
def daysInMonth (y m : Nat) : Nat :=
  if m == 2 then (if isLeapYear y then 29 else 28)
  else if m == 4 || m == 6 || m == 9 || m == 11 then 30
  else 31

/-- The strict 24-hour bound that the timezone constructor puts on offsets. -/
def tzOffsetOk : Option Int → Bool
  | none => true
  | some off => -86400000000 < off && off < 86400000000

/-- Range validation performed by the datetime constructor, including the
strict 24-hour bound that the timezone constructor puts on UTC offsets. -/
def mkPyDateTime (y m d h mi s us : Nat) (tz : Option Int) :
    Except PyErr PyDateTime :=
  if 1 ≤ y ∧ y ≤ 9999 ∧ 1 ≤ m ∧ m ≤ 12 ∧ 1 ≤ d ∧ d ≤ daysInMonth y m ∧
      h ≤ 23 ∧ mi ≤ 59 ∧ s ≤ 59 ∧ us ≤ 999999 ∧ tzOffsetOk tz = true then
    Except.ok ⟨y, m, d, h, mi, s, us, tz⟩
  else Except.error PyErr.valueError

/-- Two leading decimal digits of a character list, with the remainder. -/
def take2Digits (cs : List Char) : Except PyErr (Nat × List Char) :=
  match cs with
  | a :: b :: r =>
      if a.isDigit && b.isDigit then
        Except.ok (digitsToNat [a, b], r)
      else Except.error PyErr.valueError
  | _ => Except.error PyErr.valueError

/-- Models CPython's parse of hh[:mm[:ss[.fff[fff]]]] used both for the time
component and for UTC offsets (the strict pre-3.11 fromisoformat grammar):
two-digit components separated by colons, then an optional fraction of
exactly three or six digits. -/
def parseHhMmSsFf (cs : List Char) : Except PyErr (Nat × Nat × Nat × Nat) := do
  let (hh, r1) ← take2Digits cs
  match r1 with
  | [] => Except.ok (hh, 0, 0, 0)
  | c1 :: r1' =>
    if c1 ≠ ':' then Except.error PyErr.valueError else do
    let (mm, r2) ← take2Digits r1'
    match r2 with
    | [] => Except.ok (hh, mm, 0, 0)
    | c2 :: r2' =>
      if c2 ≠ ':' then Except.error PyErr.valueError else do
      let (ss, r3) ← take2Digits r2'
      match r3 with
      | [] => Except.ok (hh, mm, ss, 0)
      | c3 :: frac =>
        if c3 ≠ '.' then Except.error PyErr.valueError else
        if frac.length == 3 ∧ frac.all Char.isDigit then
          Except.ok (hh, mm, ss, digitsToNat frac * 1000)
        else if frac.length == 6 ∧ frac.all Char.isDigit then
          Except.ok (hh, mm, ss, digitsToNat frac)
        else Except.error PyErr.valueError

/-- First index of a character in a list, if any. -/
def findCharIdx (cs : List Char) (c : Char) : Option Nat :=
  match cs with
  | [] => none
  | a :: r => if a = c then some 0 else (findCharIdx r c).map (· + 1)

/-- Models the time-and-offset part of fromisoformat: the offset starts at the
first minus sign of the string, or else at the first plus sign, and the
offset text must be exactly hh:mm, hh:mm:ss or hh:mm:ss.ffffff long. -/
def parseIsoTime (cs : List Char) :
    Except PyErr (Nat × Nat × Nat × Nat × Option Int) := do
  if cs.length < 2 then Except.error PyErr.valueError else
  let tzIdx : Option Nat :=
    match findCharIdx cs '-' with
    | some i => some i
    | none => findCharIdx cs '+'
  match tzIdx with
  | none => do
      let (h, mi, s, us) ← parseHhMmSsFf cs
      Except.ok (h, mi, s, us, none)
  | some i => do
      let timecs := cs.take i
      let tzcs := cs.drop (i + 1)
      let (h, mi, s, us) ← parseHhMmSsFf timecs
      if tzcs.length = 5 ∨ tzcs.length = 8 ∨ tzcs.length = 15 then do
        let (th, tm, ts, tus) ← parseHhMmSsFf tzcs
        let mag : Int := ((th * 60 + tm) * 60 + ts) * 1000000 + tus
        let off : Int := if cs.get? i = some '-' then -mag else mag
        Except.ok (h, mi, s, us, some off)
      else Except.error PyErr.valueError

/-- Models datetime.fromisoformat as specified for CPython up to 3.10: the
strict inverse of isoformat.  The first ten characters must be YYYY-MM-DD;
an arbitrary single separator character may follow; the rest is parsed by
parseIsoTime; all fields are then range-checked by the constructor. -/
def fromisoformat (s : String) : Except PyErr PyDateTime := do
  let cs := s.data
  if cs.length < 10 then Except.error PyErr.valueError else
  let ycs := cs.take 4
  let mcs := (cs.drop 5).take 2
  let dcs := (cs.drop 8).take 2
  if cs.get? 4 ≠ some '-' ∨ cs.get? 7 ≠ some '-' then
    Except.error PyErr.valueError
  else do
    let y ← natOfDigits ycs
    let m ← natOfDigits mcs
    let d ← natOfDigits dcs
    let rest := cs.drop 10
    match rest with
    | [] => mkPyDateTime y m d 0 0 0 0 none
    | _sep :: tcs => do
        let (h, mi, sec, us, tz) ← parseIsoTime tcs
        mkPyDateTime y m d h mi sec us tz

/-- Renders a UTC offset the way datetime.isoformat does: sign, hours and
minutes, then seconds and microseconds only when nonzero. -/
def offsetStr (off : Int) : String :=
  let sign := if off < 0 then "-" else "+"
  let a := off.natAbs
  let hh := a / 3600000000
  let r1 := a % 3600000000
  let mm := r1 / 60000000
  let r2 := r1 % 60000000
  let ss := r2 / 1000000
  let us := r2 % 1000000
  sign ++ padNum 2 hh ++ ":" ++ padNum 2 mm ++
    (if ss ≠ 0 ∨ us ≠ 0 then
      ":" ++ padNum 2 ss ++ (if us ≠ 0 then "." ++ padNum 6 us else "")
    else "")

/-- The date-and-time core of isoformat, without fraction or offset. -/
def isoBase (t : PyDateTime) : String :=
  padNum 4 t.year ++ "-" ++ padNum 2 t.month ++ "-" ++ padNum 2 t.day ++ "T" ++
    padNum 2 t.hour ++ ":" ++ padNum 2 t.minute ++ ":" ++ padNum 2 t.second

/-- datetime.isoformat() with the default timespec: the fraction is printed
(six digits) only when the microsecond field is nonzero. -/
def isoformatAuto (t : PyDateTime) : String :=
  isoBase t ++ (if t.microsecond ≠ 0 then "." ++ padNum 6 t.microsecond else "")
    ++ (match t.tzOffsetUs with
        | some off => offsetStr off
        | none => "")

/-- datetime.isoformat(timespec="milliseconds"): always three fraction
digits, truncating microseconds. -/
def isoformatMs (t : PyDateTime) : String :=
  isoBase t ++ "." ++ padNum 3 (t.microsecond / 1000)
    ++ (match t.tzOffsetUs with
        | some off => offsetStr off
        | none => "")

/-- Models model.parse_datetime: the source's offset-normalization lines are
commented out, so the string is handed to datetime.fromisoformat unchanged. -/
def parse_datetime (s : String) : Except PyErr PyDateTime :=
  fromisoformat s

/-- Models ReqIFWriter.format_datetime: isoformat with millisecond timespec;
when the value is timezone-aware and the rendered string is long enough yet
lacks a colon third-from-last, a colon is inserted before the final two
characters. -/
def format_datetime (t : PyDateTime) : String :=
  match t.tzOffsetUs with
  | some _ =>
      let s := isoformatMs t
      let cs := s.data
      if cs.length ≥ 26 ∧ cs.get? (cs.length - 3) ≠ some ':' then
        String.mk (cs.take (cs.length - 2)) ++ ":" ++
          String.mk (cs.drop (cs.length - 2))
      else s
  | none => isoformatMs t

/-- ReqIF header record (model.ReqIFHeader).  The dataclass fields are
untyped at runtime; the markup parser always fills the text fields with
strings (findtext with an empty-string default) but the relational reader
can hand the fields NULL, so the embedding uses Option for them. -/
structure ReqIFHeader where
  identifier : Option String
  creation_time : PyDateTime
  repository_id : Option String
  reqif_tool_id : Option String
  reqif_version : Option String
  source_tool_id : Option String
  title : Option String
deriving DecidableEq, Repr

/-- model.DataTypeDefinitionXHTML; attribute lookups may yield None. -/
structure DataTypeDefinitionXHTML where
  identifier : Option String
  last_change : Option PyDateTime
  long_name : Option String
deriving DecidableEq, Repr

/-- model.EmbeddedValue. -/
structure EmbeddedValue where
  key : Option String
  other_content : Option String
deriving DecidableEq, Repr

/-- model.EnumValue. -/
structure EnumValue where
  identifier : Option String
  last_change : Option PyDateTime
  long_name : Option String
  embedded_value : EmbeddedValue
deriving DecidableEq, Repr

/-- model.DataTypeDefinitionEnumeration. -/
structure DataTypeDefinitionEnumeration where
  identifier : Option String
  last_change : Option PyDateTime
  long_name : Option String
  enum_values : List EnumValue
deriving DecidableEq, Repr

/-- model.DataTypeDefinitionBoolean. -/
structure DataTypeDefinitionBoolean where
  identifier : Option String
  long_name : Option String
deriving DecidableEq, Repr

/-- model.DataTypeDefinitionDate. -/
structure DataTypeDefinitionDate where
  identifier : Option String
  long_name : Option String
deriving DecidableEq, Repr

/-- model.DataTypeDefinitionInteger. -/
structure DataTypeDefinitionInteger where
  identifier : Option String
  long_name : Option String
deriving DecidableEq, Repr

/-- model.DataTypeDefinitionReal. -/
structure DataTypeDefinitionReal where
  identifier : Option String
  long_name : Option String
deriving DecidableEq, Repr

/-- model.DataTypeDefinitionString. -/
structure DataTypeDefinitionString where
  identifier : Option String
  long_name : Option String
deriving DecidableEq, Repr

/-- model.DataTypes: at most one definition per variant. -/
structure DataTypes where
  xhtml : Option DataTypeDefinitionXHTML := none
  enumeration : Option DataTypeDefinitionEnumeration := none
  boolean : Option DataTypeDefinitionBoolean := none
  date : Option DataTypeDefinitionDate := none
  integer : Option DataTypeDefinitionInteger := none
  real : Option DataTypeDefinitionReal := none
  string : Option DataTypeDefinitionString := none
deriving DecidableEq, Repr

/-- model.AttributeValue; the markup parser can produce None for both
fields, hence Option. -/
structure AttributeValue where
  definition_ref : Option String
  value : Option String
deriving DecidableEq, Repr

/-- model.SpecObject. -/
structure SpecObject where
  identifier : Option String
  last_change : Option PyDateTime
  long_name : Option String
  attributes : List AttributeValue
  type_ref : Option String
deriving DecidableEq, Repr

/-- model.SpecHierarchy of the typed model: a flat record with no children
field. -/
structure SpecHierarchy where
  identifier : Option String
  last_change : Option PyDateTime
  long_name : Option String
  is_editable : Bool
  object_ref : Option String
deriving DecidableEq, Repr

/-- model.Specification. -/
structure Specification where
  identifier : Option String
  last_change : Option PyDateTime
  long_name : Option String
  type_ref : Option String
  spec_hierarchies : List SpecHierarchy
deriving DecidableEq, Repr

/-- model.ReqIFContent.  The spec_object_types and specification_types lists
of the dataclass are omitted: the parser, writer and both adapters never
read or write them, and no claim mentions them. -/
structure ReqIFContent where
  data_types : DataTypes
  spec_objects : List SpecObject
  specifications : List Specification
deriving DecidableEq, Repr

/-- model.CoreContent. -/
structure CoreContent where
  reqif_content : ReqIFContent
deriving DecidableEq, Repr

/-- model.ReqIF: the root aggregate of the typed model. -/
structure ReqIF where
  header : ReqIFHeader
  core_content : CoreContent
  tool_extensions : Option String := none
deriving DecidableEq, Repr

/-- An ElementTree element as obtained from parsing a file: tag (with the
namespace URI expanded into it), attribute list, text, children. -/
inductive XML where
  | elem (tag : String) (attrs : List (String × String)) (text : Option String)
      (children : List XML)
deriving Repr

/-- Tag of an element. -/
def XML.tag : XML → String
  | .elem t _ _ _ => t

/-- Attribute list of an element. -/
def XML.attrs : XML → List (String × String)
  | .elem _ a _ _ => a

/-- Text of an element (None when absent). -/
def XML.text : XML → Option String
  | .elem _ _ t _ => t

/-- Children of an element. -/
def XML.children : XML → List XML
  | .elem _ _ _ c => c

/-- Models Element.attrib.get. -/
def XML.getAttr (x : XML) (k : String) : Option String :=
  (x.attrs.find? (fun p => p.1 = k)).map (fun p => p.2)

/-- Models Element.find with a single tag: first child with that tag. -/
def findChild (x : XML) (t : String) : Option XML :=
  x.children.find? (fun c => c.tag = t)

/-- Models Element.findall with a single tag. -/
def findAll (x : XML) (t : String) : List XML :=
  (x.children).filter (fun c => c.tag = t)

/-- Models Element.find with a two-step path "a/b": the first b grandchild
scanning every a child in order. -/
def findPath2 (x : XML) (t1 t2 : String) : Option XML :=
  ((findAll x t1).filterMap (fun y => findChild y t2)).head?

/-- Models Element.findtext: the fallback if no element matches, the
element's text if present, otherwise the empty string. -/
def findtext (x : XML) (t fallback : String) : String :=
  match findChild x t with
  | some e => (e.text).getD ""
  | none => fallback

/-- The ReqIF schema namespace URI. -/
def nsReqif : String := "http://www.omg.org/spec/ReqIF/20110401/reqif.xsd"

/-- The XHTML namespace URI used for rich-text payloads. -/
def nsXhtml : String := "http://www.w3.org/1999/xhtml"

/-- Fully-qualified tag as ElementTree renders it after namespace
expansion. -/
def qn (ns n : String) : String := "\x7b" ++ ns ++ "\x7d" ++ n

/-- Tag in the ReqIF namespace. -/
def rq (n : String) : String := qn nsReqif n

/-- Tag in the XHTML namespace. -/
def xh (n : String) : String := qn nsXhtml n

/-- Models ReqIFParser.strip_ns: everything after the first closing brace. -/
def stripNs (tag : String) : String :=
  match findCharIdx tag.data '\x7d' with
  | some i => String.mk (tag.data.drop (i + 1))
  | none => tag

mutual
/-- Renders an element back to markup text.  Models
ET.tostring(element, encoding="unicode") up to namespace-prefix choice and
self-closing of empty elements, neither of which any claim inspects: the
result only carries the opaque tool-extensions fragment. -/
def etTostring : XML → String
  | .elem t as tx cs =>
      "<" ++ t ++
        String.join (as.map (fun p => " " ++ p.1 ++ "=\"" ++ p.2 ++ "\"")) ++
        ">" ++ (tx.getD "") ++ etTostringList cs ++ "</" ++ t ++ ">"

/-- Renders a list of elements in order. -/
def etTostringList : List XML → String
  | [] => ""
  | x :: xs => etTostring x ++ etTostringList xs
end

/-- Parse of an optional LAST-CHANGE attribute, as the parser writes it:
absent attribute gives None, a present one is fed to parse_datetime. -/
def lastChangeAttr (x : XML) : Except PyErr (Option PyDateTime) :=
  match x.getAttr "LAST-CHANGE" with
  | some s => (parse_datetime s).map some
  | none => Except.ok none

namespace ReqIFParser

/-- Models ReqIFParser.parse_header. -/
def parse_header (h : XML) : Except PyErr ReqIFHeader := do
  let creation_time ← parse_datetime (findtext h (rq "CREATION-TIME") "")
  Except.ok
    { identifier := h.getAttr "IDENTIFIER"
      creation_time
      repository_id := some (findtext h (rq "REPOSITORY-ID") "")
      reqif_tool_id := some (findtext h (rq "REQ-IF-TOOL-ID") "")
      reqif_version := some (findtext h (rq "REQ-IF-VERSION") "")
      source_tool_id := some (findtext h (rq "SOURCE-TOOL-ID") "")
      title := some (findtext h (rq "TITLE") "") }

/-- Models the ENUM-VALUE loop of ReqIFParser.parse_data_types; a missing
PROPERTIES/EMBEDDED-VALUE element raises AttributeError, after the
LAST-CHANGE attribute has been parsed. -/
def parse_enum_value (enumElem : XML) : Except PyErr EnumValue := do
  let lc ← lastChangeAttr enumElem
  match findPath2 enumElem (rq "PROPERTIES") (rq "EMBEDDED-VALUE") with
  | none => Except.error PyErr.attributeError
  | some emb =>
      Except.ok
        { identifier := enumElem.getAttr "IDENTIFIER"
          last_change := lc
          long_name := enumElem.getAttr "LONG-NAME"
          embedded_value :=
            { key := emb.getAttr "KEY"
              other_content := emb.getAttr "OTHER-CONTENT" } }

/-- Models ReqIFParser.parse_data_types: a fold over the DATATYPES children
dispatching on the namespace-stripped tag; later elements of the same
variant overwrite earlier ones. -/
def parse_data_types (o : Option XML) : Except PyErr DataTypes := do
  match o with
  | none => Except.ok {}
  | some dte =>
      List.foldlM
        (fun (acc : DataTypes) child => do
          let tag := stripNs child.tag
          if tag = "DATATYPE-DEFINITION-XHTML" then do
            let lc ← lastChangeAttr child
            let dt : DataTypeDefinitionXHTML :=
              { identifier := child.getAttr "IDENTIFIER"
                last_change := lc
                long_name := child.getAttr "LONG-NAME" }
            Except.ok { acc with xhtml := some dt }
          else if tag = "DATATYPE-DEFINITION-ENUMERATION" then do
            let lc ← lastChangeAttr child
            let evs ←
              match findChild child (rq "SPECIFIED-VALUES") with
              | none => Except.ok []
              | some sv => (findAll sv (rq "ENUM-VALUE")).mapM parse_enum_value
            let dt : DataTypeDefinitionEnumeration :=
              { identifier := child.getAttr "IDENTIFIER"
                last_change := lc
                long_name := child.getAttr "LONG-NAME"
                enum_values := evs }
            Except.ok { acc with enumeration := some dt }
          else if tag = "DATATYPE-DEFINITION-BOOLEAN" then
            let dt : DataTypeDefinitionBoolean :=
              { identifier := child.getAttr "IDENTIFIER"
                long_name := child.getAttr "LONG-NAME" }
            Except.ok { acc with boolean := some dt }
          else if tag = "DATATYPE-DEFINITION-DATE" then
            let dt : DataTypeDefinitionDate :=
              { identifier := child.getAttr "IDENTIFIER"
                long_name := child.getAttr "LONG-NAME" }
            Except.ok { acc with date := some dt }
          else if tag = "DATATYPE-DEFINITION-INTEGER" then
            let dt : DataTypeDefinitionInteger :=
              { identifier := child.getAttr "IDENTIFIER"
                long_name := child.getAttr "LONG-NAME" }
            Except.ok { acc with integer := some dt }
          else if tag = "DATATYPE-DEFINITION-REAL" then
            let dt : DataTypeDefinitionReal :=
              { identifier := child.getAttr "IDENTIFIER"
                long_name := child.getAttr "LONG-NAME" }
            Except.ok { acc with real := some dt }
          else if tag = "DATATYPE-DEFINITION-STRING" then
            let dt : DataTypeDefinitionString :=
              { identifier := child.getAttr "IDENTIFIER"
                long_name := child.getAttr "LONG-NAME" }
            Except.ok { acc with string := some dt }
          else Except.ok acc)
        {} dte.children

/-- Models the per-attribute extraction inside
ReqIFParser.parse_spec_objects: the definition ref is the text of the
DEFINITION/ATTRIBUTE-DEFINITION-XHTML-REF element when that element exists
(None when it has no text) and the empty string when it is absent; the value
starts as the empty string and becomes the text of the first child of
THE-VALUE when THE-VALUE exists and has children (None when that child has
no text). -/
def parse_attribute_value (attrElem : XML) : AttributeValue :=
  let def_ref : Option String :=
    match findPath2 attrElem (rq "DEFINITION")
        (rq "ATTRIBUTE-DEFINITION-XHTML-REF") with
    | some e => e.text
    | none => some ""
  let value : Option String :=
    match findChild attrElem (rq "THE-VALUE") with
    | some tv =>
        match tv.children with
        | [] => some ""
        | c :: _ => c.text
    | none => some ""
  { definition_ref := def_ref, value := value }

/-- Models ReqIFParser.parse_spec_objects. -/
def parse_spec_objects (o : Option XML) : Except PyErr (List SpecObject) := do
  match o with
  | none => Except.ok []
  | some soe =>
      (findAll soe (rq "SPEC-OBJECT")).mapM fun objElem => do
        let last_change ← lastChangeAttr objElem
        let type_ref : Option String :=
          match findPath2 objElem (rq "TYPE") (rq "SPEC-OBJECT-TYPE-REF") with
          | some e => e.text
          | none => some ""
        let attrs :=
          match findChild objElem (rq "VALUES") with
          | none => []
          | some ve => ve.children.map parse_attribute_value
        Except.ok
          { identifier := objElem.getAttr "IDENTIFIER"
            last_change
            long_name := objElem.getAttr "LONG-NAME"
            attributes := attrs
            type_ref }

/-- Models ReqIFParser.parse_specifications. -/
def parse_specifications (o : Option XML) :
    Except PyErr (List Specification) := do
  match o with
  | none => Except.ok []
  | some se =>
      (findAll se (rq "SPECIFICATION")).mapM fun spec => do
        let last_change ← lastChangeAttr spec
        let type_ref : Option String :=
          match findPath2 spec (rq "TYPE") (rq "SPECIFICATION-TYPE-REF") with
          | some e => e.text
          | none => some ""
        let hiers ←
          match findChild spec (rq "CHILDREN") with
          | none => Except.ok []
          | some ch =>
              (findAll ch (rq "SPEC-HIERARCHY")).mapM fun hier => do
                let object_ref : Option String :=
                  match findPath2 hier (rq "OBJECT") (rq "SPEC-OBJECT-REF") with
                  | some e => e.text
                  | none => some ""
                let is_editable :=
                  ((hier.getAttr "IS-EDITABLE").getD "false").toLower == "true"
                let lc ← lastChangeAttr hier
                Except.ok
                  ({ identifier := hier.getAttr "IDENTIFIER"
                     last_change := lc
                     long_name := hier.getAttr "LONG-NAME"
                     is_editable
                     object_ref } : SpecHierarchy)
        Except.ok
          { identifier := spec.getAttr "IDENTIFIER"
            last_change
            long_name := spec.getAttr "LONG-NAME"
            type_ref
            spec_hierarchies := hiers }

/-- Models ReqIFParser.parse_reqif_content. -/
def parse_reqif_content (rce : XML) : Except PyErr ReqIFContent := do
  let data_types ← parse_data_types (findChild rce (rq "DATATYPES"))
  let spec_objects ← parse_spec_objects (findChild rce (rq "SPEC-OBJECTS"))
  let specifications ←
    parse_specifications (findChild rce (rq "SPECIFICATIONS"))
  Except.ok { data_types, spec_objects, specifications }

/-- Models ReqIFParser.parse_core_content; a missing REQ-IF-CONTENT element
makes the next find call dereference None. -/
def parse_core_content (ce : XML) : Except PyErr CoreContent := do
  match findChild ce (rq "REQ-IF-CONTENT") with
  | none => Except.error PyErr.attributeError
  | some rce => (parse_reqif_content rce).map (fun c => { reqif_content := c })

/-- Models ReqIFParser.parse: header, core content and the verbatim
tool-extensions fragment. -/
def parse (root : XML) : Except PyErr ReqIF := do
  let header ←
    match findPath2 root (rq "THE-HEADER") (rq "REQ-IF-HEADER") with
    | none => Except.error PyErr.attributeError
    | some h => parse_header h
  let content ←
    match findChild root (rq "CORE-CONTENT") with
    | none => Except.error PyErr.attributeError
    | some ce => parse_core_content ce
  let toolElem := findChild root (rq "TOOL-EXTENSIONS")
  Except.ok
    { header
      core_content := content
      tool_extensions := toolElem.map etTostring }

end ReqIFParser

/-- An ElementTree element as built by the writer, before serialization:
attribute values may be None (Python allows building such elements and only
fails when serializing them). -/
inductive XTree where
  | node (tag : String) (attrs : List (String × Option String))
      (text : Option String) (children : List XTree)
deriving Repr

/-- Models ReqIFWriter.create_sub_element: a child with text content. -/
def create_sub_element (tag : String) (t : Option String) : XTree :=
  XTree.node tag [] t []

/-- The LAST-CHANGE attribute string the writer emits: the formatted
datetime when present, the empty string otherwise. -/
def lastChangeStr : Option PyDateTime → String
  | some d => format_datetime d
  | none => ""

namespace ReqIFWriter

/-- The THE-HEADER block of ReqIFWriter.write. -/
def buildHeader (h : ReqIFHeader) : XTree :=
  XTree.node "THE-HEADER" [] none
    [XTree.node "REQ-IF-HEADER" [("IDENTIFIER", h.identifier)] none
      [create_sub_element "CREATION-TIME" (some (format_datetime h.creation_time)),
       create_sub_element "REPOSITORY-ID" h.repository_id,
       create_sub_element "REQ-IF-TOOL-ID" h.reqif_tool_id,
       create_sub_element "REQ-IF-VERSION" h.reqif_version,
       create_sub_element "SOURCE-TOOL-ID" h.source_tool_id,
       create_sub_element "TITLE" h.title]]

/-- One ENUM-VALUE element of the DATATYPES block. -/
def buildEnumValue (ev : EnumValue) : XTree :=
  XTree.node "ENUM-VALUE"
    [("IDENTIFIER", ev.identifier),
     ("LAST-CHANGE", some (lastChangeStr ev.last_change)),
     ("LONG-NAME", ev.long_name)] none
    [XTree.node "PROPERTIES" [] none
      [XTree.node "EMBEDDED-VALUE"
        [("KEY", ev.embedded_value.key),
         ("OTHER-CONTENT", ev.embedded_value.other_content)] none []]]

/-- The DATATYPES block of ReqIFWriter.write: only the XHTML and the
Enumeration definitions are emitted; the Boolean, Date, Integer, Real and
String definitions are dropped (the source only carries a comment where
they would be written). -/
def buildDataTypes (dt : DataTypes) : XTree :=
  let xhtmlElems : List XTree :=
    match dt.xhtml with
    | some x =>
        [XTree.node "DATATYPE-DEFINITION-XHTML"
          [("IDENTIFIER", x.identifier),
           ("LAST-CHANGE", some (lastChangeStr x.last_change)),
           ("LONG-NAME", x.long_name)] none []]
    | none => []
  let enumElems : List XTree :=
    match dt.enumeration with
    | some e =>
        [XTree.node "DATATYPE-DEFINITION-ENUMERATION"
          [("IDENTIFIER", e.identifier),
           ("LAST-CHANGE", some (lastChangeStr e.last_change)),
           ("LONG-NAME", e.long_name)] none
          [XTree.node "SPECIFIED-VALUES" [] none
            (e.enum_values.map buildEnumValue)]]
    | none => []
  XTree.node "DATATYPES" [] none (xhtmlElems ++ enumElems)

/-- One attribute wrapper of the SPEC-OBJECT VALUES block: every attribute
is written as XHTML-typed, with the value inside an xhtml div. -/
def buildAttributeValue (a : AttributeValue) : XTree :=
  XTree.node "ATTRIBUTE-VALUE-XHTML" [] none
    [XTree.node "DEFINITION" [] none
      [create_sub_element "ATTRIBUTE-DEFINITION-XHTML-REF" a.definition_ref],
     XTree.node "THE-VALUE" [] none
      [XTree.node (xh "div") [] a.value []]]

/-- One SPEC-OBJECT element. -/
def buildSpecObject (o : SpecObject) : XTree :=
  XTree.node "SPEC-OBJECT"
    [("IDENTIFIER", o.identifier),
     ("LAST-CHANGE", some (lastChangeStr o.last_change)),
     ("LONG-NAME", o.long_name)] none
    [XTree.node "VALUES" [] none (o.attributes.map buildAttributeValue),
     XTree.node "TYPE" [] none
      [create_sub_element "SPEC-OBJECT-TYPE-REF" o.type_ref]]

/-- One SPEC-HIERARCHY element. -/
def buildSpecHierarchy (hier : SpecHierarchy) : XTree :=
  XTree.node "SPEC-HIERARCHY"
    [("IDENTIFIER", hier.identifier),
     ("LAST-CHANGE", some (lastChangeStr hier.last_change)),
     ("LONG-NAME", hier.long_name),
     ("IS-EDITABLE", some (if hier.is_editable then "true" else "false"))] none
    [XTree.node "OBJECT" [] none
      [create_sub_element "SPEC-OBJECT-REF" hier.object_ref]]

/-- One SPECIFICATION element (with its always-empty VALUES container). -/
def buildSpecification (sp : Specification) : XTree :=
  XTree.node "SPECIFICATION"
    [("IDENTIFIER", sp.identifier),
     ("LAST-CHANGE", some (lastChangeStr sp.last_change)),
     ("LONG-NAME", sp.long_name)] none
    [XTree.node "VALUES" [] none [],
     XTree.node "TYPE" [] none
      [create_sub_element "SPECIFICATION-TYPE-REF" sp.type_ref],
     XTree.node "CHILDREN" [] none
      (sp.spec_hierarchies.map buildSpecHierarchy)]

/-- The element tree ReqIFWriter.write builds before serializing.  The
namespace map is passed to ET.Element as the attribute dictionary of the
root, so the root carries an attribute whose name is the empty string; the
DataTypes dataclass is always truthy, so DATATYPES is always emitted; the
TOOL-EXTENSIONS element is left empty regardless of the document. -/
def buildReqif (r : ReqIF) : XTree :=
  XTree.node "REQ-IF"
    [("", some nsReqif), ("xhtml", some nsXhtml), ("reqif-xhtml", some nsXhtml)]
    none
    [buildHeader r.header,
     XTree.node "CORE-CONTENT" [] none
      [XTree.node "REQ-IF-CONTENT" [] none
        [buildDataTypes r.core_content.reqif_content.data_types,
         XTree.node "SPEC-OBJECTS" [] none
          (r.core_content.reqif_content.spec_objects.map buildSpecObject),
         XTree.node "SPECIFICATIONS" [] none
          (r.core_content.reqif_content.specifications.map buildSpecification)]],
     XTree.node "TOOL-EXTENSIONS" [] none []]

end ReqIFWriter

mutual
/-- True when any attribute in the tree has value None; ET.tostring raises
TypeError on the first such attribute. -/
def hasNoneAttrVal : XTree → Bool
  | .node _ as _ cs => as.any (fun p => p.2.isNone) || hasNoneAttrValList cs

/-- List version of hasNoneAttrVal. -/
def hasNoneAttrValList : List XTree → Bool
  | [] => false
  | x :: xs => hasNoneAttrVal x || hasNoneAttrValList xs
end

mutual
/-- True when any attribute in the tree has an empty name; ET.tostring
emits such an attribute as the malformed text `="value"`, which
minidom.parseString rejects with ExpatError. -/
def hasEmptyAttrName : XTree → Bool
  | .node _ as _ cs => as.any (fun p => p.1 = "") || hasEmptyAttrNameList cs

/-- List version of hasEmptyAttrName. -/
def hasEmptyAttrNameList : List XTree → Bool
  | [] => false
  | x :: xs => hasEmptyAttrName x || hasEmptyAttrNameList xs
end

mutual
/-- The element tree obtained by serializing a built tree and reparsing its
pretty-printed form, assuming serialization succeeded: a leaf's empty text
is not serialized and reads back as None; the text position of an element
with children holds pretty-printer indentation, which the parser never
reads and which is abstracted to a newline. -/
def reparsePretty : XTree → XML
  | .node t as tx cs =>
      XML.elem t (as.map (fun p => (p.1, p.2.getD "")))
        (match cs with
         | [] =>
             match tx with
             | some s => if s = "" then none else some s
             | none => none
         | _ :: _ => some "\n")
        (reparsePrettyList cs)

/-- List version of reparsePretty. -/
def reparsePrettyList : List XTree → List XML
  | [] => []
  | x :: xs => reparsePretty x :: reparsePrettyList xs
end

/-- Models ReqIFWriter.write up to the reparsed element tree (no claim
inspects the final pretty-printed text itself): build the tree, serialize
with ET.tostring — which raises TypeError if some attribute value is None —
then reparse with minidom.parseString, which raises ExpatError on the
malformed output produced for an attribute with an empty name.  The root's
attribute dictionary is the namespace map, whose first key is the empty
string. -/
def write (r : ReqIF) : Except PyErr XML :=
  let t := ReqIFWriter.buildReqif r
  if hasNoneAttrVal t then Except.error PyErr.typeError
  else if hasEmptyAttrName t then Except.error PyErr.expatError
  else Except.ok (reparsePretty t)

/-- The sample ReqIF source of tests/test_reqif.py, as the element tree that
ET.parse produces from it (namespaces expanded into tags; container
indentation text omitted, the parser never reads it). -/
def sampleReqifXml : XML :=
  XML.elem (rq "REQ-IF") [] none
    [XML.elem (rq "THE-HEADER") [] none
      [XML.elem (rq "REQ-IF-HEADER") [("IDENTIFIER", "_header-id")] none
        [XML.elem (rq "CREATION-TIME") [] (some "2017-04-25T15:44:26+02:00") [],
         XML.elem (rq "REPOSITORY-ID") [] (some "repo-1234") [],
         XML.elem (rq "REQ-IF-TOOL-ID") [] (some "TestTool") [],
         XML.elem (rq "REQ-IF-VERSION") [] (some "1.0") [],
         XML.elem (rq "SOURCE-TOOL-ID") [] (some "TestSource") [],
         XML.elem (rq "TITLE") [] (some "Test ReqIF") []]],
     XML.elem (rq "CORE-CONTENT") [] none
      [XML.elem (rq "REQ-IF-CONTENT") [] none
        [XML.elem (rq "DATATYPES") [] none
          [XML.elem (rq "DATATYPE-DEFINITION-XHTML")
            [("IDENTIFIER", "_dt_xhtml"),
             ("LAST-CHANGE", "2017-11-14T15:44:26.000+02:00"),
             ("LONG-NAME", "XHTMLString")] none []],
         XML.elem (rq "SPEC-OBJECTS") [] none
          [XML.elem (rq "SPEC-OBJECT")
            [("IDENTIFIER", "_obj1"),
             ("LAST-CHANGE", "2017-11-14T15:44:26.000+02:00"),
             ("LONG-NAME", "Requirement-1")] none
            [XML.elem (rq "VALUES") [] none
              [XML.elem (rq "ATTRIBUTE-VALUE-XHTML") [] none
                [XML.elem (rq "DEFINITION") [] none
                  [XML.elem (rq "ATTRIBUTE-DEFINITION-XHTML-REF") []
                    (some "_attr1") []],
                 XML.elem (rq "THE-VALUE") [] none
                  [XML.elem (xh "div") [] (some "Test Requirement") []]]],
             XML.elem (rq "TYPE") [] none
              [XML.elem (rq "SPEC-OBJECT-TYPE-REF") [] (some "_obj-type") []]]],
         XML.elem (rq "SPECIFICATIONS") [] none
          [XML.elem (rq "SPECIFICATION")
            [("IDENTIFIER", "_spec1"),
             ("LAST-CHANGE", "2017-11-14T15:44:26+02:00"),
             ("LONG-NAME", "Module-1")] none
            [XML.elem (rq "VALUES") [] none [],
             XML.elem (rq "TYPE") [] none
              [XML.elem (rq "SPECIFICATION-TYPE-REF") [] (some "_spec-type") []],
             XML.elem (rq "CHILDREN") [] none
              [XML.elem (rq "SPEC-HIERARCHY")
                [("IDENTIFIER", "_hier1"),
                 ("LAST-CHANGE", "2017-11-14T15:44:26+02:00"),
                 ("LONG-NAME", "Requirement-1"),
                 ("IS-EDITABLE", "true")] none
                [XML.elem (rq "OBJECT") [] none
                  [XML.elem (rq "SPEC-OBJECT-REF") [] (some "_obj1") []]]]]],
         XML.elem (rq "SPEC-RELATION-GROUPS") [] none []]],
     XML.elem (rq "TOOL-EXTENSIONS") [] none []]

/-- One row of a CSV file: cells keyed by column name, in column order. -/
abbrev CsvRow := List (String × String)

/-- A written CSV file: its ordered header and its data rows.  The csv
module's DictWriter/DictReader pair round-trips cell strings exactly (with
quoting); the embedding therefore keeps rows structured. -/
structure CsvFile where
  fieldnames : List String
  rows : List CsvRow
deriving DecidableEq, Repr

/-- The folder of CSV files, keyed by file name. -/
abbrev CsvFolder := List (String × CsvFile)

/-- File lookup in a folder. -/
def csvGetFile (fs : CsvFolder) (name : String) : Option CsvFile :=
  (fs.find? (fun p => p.1 = name)).map (fun p => p.2)

/-- Cell lookup in a row; a missing column raises KeyError. -/
def rowGet (r : CsvRow) (k : String) : Except PyErr String :=
  match r.find? (fun p => p.1 = k) with
  | some p => Except.ok p.2
  | none => Except.error PyErr.keyError

/-- A None value written into a CSV cell becomes the empty string. -/
def optCell (o : Option String) : String := o.getD ""

/-- The last-change CSV cell: isoformat when present, empty otherwise. -/
def lastChangeCell : Option PyDateTime → String
  | some d => isoformatAuto d
  | none => ""

/-- Reading a last-change style cell back: empty (falsy) means None,
anything else is handed to fromisoformat. -/
def parseOptDate (s : String) : Except PyErr (Option PyDateTime) :=
  if s = "" then Except.ok none else (fromisoformat s).map some

namespace CSVAdapter

/-- The single header.csv row. -/
def headerRow (h : ReqIFHeader) : CsvRow :=
  [("identifier", optCell h.identifier),
   ("creation_time", isoformatAuto h.creation_time),
   ("repository_id", optCell h.repository_id),
   ("reqif_tool_id", optCell h.reqif_tool_id),
   ("reqif_version", optCell h.reqif_version),
   ("source_tool_id", optCell h.source_tool_id),
   ("title", optCell h.title)]

/-- One enum_value.csv row. -/
def enumValueRow (enumId : Option String) (ev : EnumValue) : CsvRow :=
  [("identifier", optCell ev.identifier),
   ("enumeration_id", optCell enumId),
   ("last_change", lastChangeCell ev.last_change),
   ("long_name", optCell ev.long_name),
   ("embedded_key", optCell ev.embedded_value.key),
   ("embedded_other_content", optCell ev.embedded_value.other_content)]

/-- One spec_object.csv row. -/
def specObjectRow (o : SpecObject) : CsvRow :=
  [("identifier", optCell o.identifier),
   ("last_change", lastChangeCell o.last_change),
   ("long_name", optCell o.long_name),
   ("type_ref", optCell o.type_ref)]

/-- One spec_object_attribute.csv row. -/
def specObjectAttrRow (objId : Option String) (a : AttributeValue) : CsvRow :=
  [("spec_object_id", optCell objId),
   ("definition_ref", optCell a.definition_ref),
   ("value", optCell a.value)]

/-- One specification.csv row. -/
def specificationRow (sp : Specification) : CsvRow :=
  [("identifier", optCell sp.identifier),
   ("last_change", lastChangeCell sp.last_change),
   ("long_name", optCell sp.long_name),
   ("type_ref", optCell sp.type_ref)]

/-- One spec_hierarchy.csv row: node id, owning specification id, metadata
and the referenced object — there is no parent-node column. -/
def specHierarchyRow (specId : Option String) (hier : SpecHierarchy) : CsvRow :=
  [("identifier", optCell hier.identifier),
   ("specification_id", optCell specId),
   ("last_change", lastChangeCell hier.last_change),
   ("long_name", optCell hier.long_name),
   ("is_editable", if hier.is_editable then "1" else "0"),
   ("object_ref", optCell hier.object_ref)]

/-- The fixed column set of spec_hierarchy.csv. -/
def specHierarchyFieldnames : List String :=
  ["identifier", "specification_id", "last_change", "long_name",
   "is_editable", "object_ref"]

/-- The header.csv file of a write. -/
def headerFiles (r : ReqIF) : CsvFolder :=
  [("header.csv",
    { fieldnames := ["identifier", "creation_time", "repository_id",
        "reqif_tool_id", "reqif_version", "source_tool_id", "title"]
      rows := [headerRow r.header] })]

/-- The datatype_xhtml.csv file, written only when the variant exists. -/
def xhtmlFiles (dt : DataTypes) : CsvFolder :=
  match dt.xhtml with
  | some x =>
      [("datatype_xhtml.csv",
        { fieldnames := ["identifier", "last_change", "long_name"]
          rows := [[("identifier", optCell x.identifier),
                    ("last_change", lastChangeCell x.last_change),
                    ("long_name", optCell x.long_name)]] })]
  | none => []

/-- The enumeration datatype and enum-value files, written together only
when the enumeration variant exists. -/
def enumFiles (dt : DataTypes) : CsvFolder :=
  match dt.enumeration with
  | some e =>
      [("datatype_enumeration.csv",
        { fieldnames := ["identifier", "last_change", "long_name"]
          rows := [[("identifier", optCell e.identifier),
                    ("last_change", lastChangeCell e.last_change),
                    ("long_name", optCell e.long_name)]] }),
       ("enum_value.csv",
        { fieldnames := ["identifier", "enumeration_id", "last_change",
            "long_name", "embedded_key", "embedded_other_content"]
          rows := e.enum_values.map (enumValueRow e.identifier) })]
  | none => []

/-- A two-column datatype file for one optional variant. -/
def dt2Files (name : String) (o : Option (Option String × Option String)) :
    CsvFolder :=
  match o with
  | some b =>
      [(name,
        { fieldnames := ["identifier", "long_name"]
          rows := [[("identifier", optCell b.1),
                    ("long_name", optCell b.2)]] })]
  | none => []

/-- The unconditional entity files of a write: spec objects with their
attribute rows, specifications with their hierarchy rows, and the
tool-extensions row. -/
def mainFiles (r : ReqIF) : CsvFolder :=
  let objs := r.core_content.reqif_content.spec_objects
  let specs := r.core_content.reqif_content.specifications
  [("spec_object.csv",
    { fieldnames := ["identifier", "last_change", "long_name", "type_ref"]
      rows := objs.map specObjectRow }),
   ("spec_object_attribute.csv",
    { fieldnames := ["spec_object_id", "definition_ref", "value"]
      rows := objs.flatMap
        (fun o => o.attributes.map (specObjectAttrRow o.identifier)) }),
   ("specification.csv",
    { fieldnames := ["identifier", "last_change", "long_name", "type_ref"]
      rows := specs.map specificationRow }),
   ("spec_hierarchy.csv",
    { fieldnames := specHierarchyFieldnames
      rows := specs.flatMap
        (fun sp => sp.spec_hierarchies.map (specHierarchyRow sp.identifier)) }),
   ("tool_extensions.csv",
    { fieldnames := ["id", "content"]
      rows := [[("id", "1"), ("content", optCell r.tool_extensions)]] })]

/-- Models CSVAdapter.write into a fresh folder: one file per entity kind,
the per-variant datatype files written only when the variant is present,
tool extensions always written as a single row (empty content for None). -/
def write (r : ReqIF) : CsvFolder :=
  let dt := r.core_content.reqif_content.data_types
  headerFiles r ++ xhtmlFiles dt ++ enumFiles dt ++
    dt2Files "datatype_boolean.csv"
      (dt.boolean.map (fun b => (b.identifier, b.long_name))) ++
    dt2Files "datatype_date.csv"
      (dt.date.map (fun b => (b.identifier, b.long_name))) ++
    dt2Files "datatype_integer.csv"
      (dt.integer.map (fun b => (b.identifier, b.long_name))) ++
    dt2Files "datatype_real.csv"
      (dt.real.map (fun b => (b.identifier, b.long_name))) ++
    dt2Files "datatype_string.csv"
      (dt.string.map (fun b => (b.identifier, b.long_name))) ++
    mainFiles r

/-- Models CSVAdapter.read_csv: the row list, empty if the file is absent. -/
def read_csv (fs : CsvFolder) (name : String) : List CsvRow :=
  match csvGetFile fs name with
  | some f => f.rows
  | none => []

/-- One step of the enum-value reconstruction loop of CSVAdapter.read. -/
def enumValueStep (enumId : String) (acc : List EnumValue) (erow : CsvRow) :
    Except PyErr (List EnumValue) := do
  let eid ← rowGet erow "enumeration_id"
  if eid = enumId then do
    let i ← rowGet erow "identifier"
    let lc ← parseOptDate (← rowGet erow "last_change")
    let ln ← rowGet erow "long_name"
    let k ← rowGet erow "embedded_key"
    let oc ← rowGet erow "embedded_other_content"
    let ev : EnumValue :=
      { identifier := some i
        last_change := lc
        long_name := some ln
        embedded_value := { key := some k, other_content := some oc } }
    Except.ok (acc ++ [ev])
  else Except.ok acc

/-- The enum-value reconstruction loop of CSVAdapter.read: keep the rows
whose enumeration_id cell matches, in row order. -/
def readEnumValues (rows : List CsvRow) (enumId : String) :
    Except PyErr (List EnumValue) :=
  List.foldlM (enumValueStep enumId) [] rows

/-- One step of the attribute reconstruction loop of CSVAdapter.read. -/
def objAttrStep (objId : String) (acc : List AttributeValue) (arow : CsvRow) :
    Except PyErr (List AttributeValue) := do
  let aid ← rowGet arow "spec_object_id"
  if aid = objId then do
    let dref ← rowGet arow "definition_ref"
    let v ← rowGet arow "value"
    Except.ok (acc ++ [({ definition_ref := some dref, value := some v }
      : AttributeValue)])
  else Except.ok acc

/-- The attribute reconstruction loop of CSVAdapter.read: keep the rows
whose spec_object_id cell matches, in row order. -/
def readObjAttrs (rows : List CsvRow) (objId : String) :
    Except PyErr (List AttributeValue) :=
  List.foldlM (objAttrStep objId) [] rows

/-- One step of the hierarchy reconstruction loop of CSVAdapter.read. -/
def specHierStep (specId : String) (acc : List SpecHierarchy) (hrow : CsvRow) :
    Except PyErr (List SpecHierarchy) := do
  let hid ← rowGet hrow "specification_id"
  if hid = specId then do
    let i ← rowGet hrow "identifier"
    let lc ← parseOptDate (← rowGet hrow "last_change")
    let ln ← rowGet hrow "long_name"
    let ed ← rowGet hrow "is_editable"
    let oref ← rowGet hrow "object_ref"
    let h : SpecHierarchy :=
      { identifier := some i
        last_change := lc
        long_name := some ln
        is_editable := ed == "1"
        object_ref := some oref }
    Except.ok (acc ++ [h])
  else Except.ok acc

/-- The hierarchy reconstruction loop of CSVAdapter.read: keep the rows
whose specification_id cell matches, in row order; each row becomes a flat
SpecHierarchy record attached directly to the specification. -/
def readSpecHiers (rows : List CsvRow) (specId : String) :
    Except PyErr (List SpecHierarchy) :=
  List.foldlM (specHierStep specId) [] rows

/-- The per-row spec-object reconstruction of CSVAdapter.read. -/
def buildSpecObject (attrRows : List CsvRow) (srow : CsvRow) :
    Except PyErr SpecObject := do
  let sid ← rowGet srow "identifier"
  let attrs ← readObjAttrs attrRows sid
  let lc ← parseOptDate (← rowGet srow "last_change")
  let ln ← rowGet srow "long_name"
  let tr ← rowGet srow "type_ref"
  Except.ok
    ({ identifier := some sid
       last_change := lc
       long_name := some ln
       attributes := attrs
       type_ref := some tr } : SpecObject)

/-- The per-row specification reconstruction of CSVAdapter.read. -/
def buildSpecification (hierRows : List CsvRow) (srow : CsvRow) :
    Except PyErr Specification := do
  let sid ← rowGet srow "identifier"
  let hiers ← readSpecHiers hierRows sid
  let lc ← parseOptDate (← rowGet srow "last_change")
  let ln ← rowGet srow "long_name"
  let tr ← rowGet srow "type_ref"
  Except.ok
    ({ identifier := some sid
       last_change := lc
       long_name := some ln
       type_ref := some tr
       spec_hierarchies := hiers } : Specification)

/-- The xhtml-variant stage of the datatype reconstruction chain of
CSVAdapter.read: the variant from the first row of its optional file. -/
def dtXhtmlStep (fs : CsvFolder) (dt : DataTypes) : Except PyErr DataTypes :=
  match read_csv fs "datatype_xhtml.csv" with
  | [] => Except.ok dt
  | row :: _ => do
      let i ← rowGet row "identifier"
      let lc ← parseOptDate (← rowGet row "last_change")
      let ln ← rowGet row "long_name"
      let x : DataTypeDefinitionXHTML :=
        { identifier := some i, last_change := lc, long_name := some ln }
      Except.ok { dt with xhtml := some x }

/-- The enumeration-variant stage, pulling its enum values from
enum_value.csv by enumeration id. -/
def dtEnumStep (fs : CsvFolder) (dt : DataTypes) : Except PyErr DataTypes :=
  match read_csv fs "datatype_enumeration.csv" with
  | [] => Except.ok dt
  | row :: _ => do
      let i ← rowGet row "identifier"
      let lc ← parseOptDate (← rowGet row "last_change")
      let ln ← rowGet row "long_name"
      let evs ← readEnumValues (read_csv fs "enum_value.csv") i
      let e : DataTypeDefinitionEnumeration :=
        { identifier := some i
          last_change := lc
          long_name := some ln
          enum_values := evs }
      Except.ok { dt with enumeration := some e }

/-- The boolean-variant stage of the datatype chain. -/
def dtBooleanStep (fs : CsvFolder) (dt : DataTypes) : Except PyErr DataTypes :=
  match read_csv fs "datatype_boolean.csv" with
  | [] => Except.ok dt
  | row :: _ => do
      let i ← rowGet row "identifier"
      let ln ← rowGet row "long_name"
      let v : DataTypeDefinitionBoolean :=
        { identifier := some i, long_name := some ln }
      Except.ok { dt with boolean := some v }

/-- The date-variant stage of the datatype chain. -/
def dtDateStep (fs : CsvFolder) (dt : DataTypes) : Except PyErr DataTypes :=
  match read_csv fs "datatype_date.csv" with
  | [] => Except.ok dt
  | row :: _ => do
      let i ← rowGet row "identifier"
      let ln ← rowGet row "long_name"
      let v : DataTypeDefinitionDate :=
        { identifier := some i, long_name := some ln }
      Except.ok { dt with date := some v }

/-- The integer-variant stage of the datatype chain. -/
def dtIntegerStep (fs : CsvFolder) (dt : DataTypes) : Except PyErr DataTypes :=
  match read_csv fs "datatype_integer.csv" with
  | [] => Except.ok dt
  | row :: _ => do
      let i ← rowGet row "identifier"
      let ln ← rowGet row "long_name"
      let v : DataTypeDefinitionInteger :=
        { identifier := some i, long_name := some ln }
      Except.ok { dt with integer := some v }

/-- The real-variant stage of the datatype chain. -/
def dtRealStep (fs : CsvFolder) (dt : DataTypes) : Except PyErr DataTypes :=
  match read_csv fs "datatype_real.csv" with
  | [] => Except.ok dt
  | row :: _ => do
      let i ← rowGet row "identifier"
      let ln ← rowGet row "long_name"
      let v : DataTypeDefinitionReal :=
        { identifier := some i, long_name := some ln }
      Except.ok { dt with real := some v }

/-- The string-variant stage of the datatype chain. -/
def dtStringStep (fs : CsvFolder) (dt : DataTypes) : Except PyErr DataTypes :=
  match read_csv fs "datatype_string.csv" with
  | [] => Except.ok dt
  | row :: _ => do
      let i ← rowGet row "identifier"
      let ln ← rowGet row "long_name"
      let v : DataTypeDefinitionString :=
        { identifier := some i, long_name := some ln }
      Except.ok { dt with string := some v }

/-- The datatype reconstruction chain of CSVAdapter.read: each variant
from the first row of its own optional file, applied in source order. -/
def readDataTypes (fs : CsvFolder) : Except PyErr DataTypes := do
  let dt1 ← dtXhtmlStep fs {}
  let dt2 ← dtEnumStep fs dt1
  let dt3 ← dtBooleanStep fs dt2
  let dt4 ← dtDateStep fs dt3
  let dt5 ← dtIntegerStep fs dt4
  let dt6 ← dtRealStep fs dt5
  let dt7 ← dtStringStep fs dt6
  Except.ok dt7

/-- Models CSVAdapter.read: header (the first header.csv row must exist),
each datatype variant from its own optional file, spec objects with their
attribute rows matched by spec_object_id, specifications with their
hierarchy rows matched by specification_id, and the tool-extensions row. -/
def read (fs : CsvFolder) : Except PyErr ReqIF := do
  match read_csv fs "header.csv" with
  | [] => Except.error PyErr.indexError
  | hrow :: _ => do
    let ident ← rowGet hrow "identifier"
    let ct ← fromisoformat (← rowGet hrow "creation_time")
    let repo ← rowGet hrow "repository_id"
    let toolId ← rowGet hrow "reqif_tool_id"
    let ver ← rowGet hrow "reqif_version"
    let srcTool ← rowGet hrow "source_tool_id"
    let title ← rowGet hrow "title"
    let header : ReqIFHeader :=
      { identifier := some ident
        creation_time := ct
        repository_id := some repo
        reqif_tool_id := some toolId
        reqif_version := some ver
        source_tool_id := some srcTool
        title := some title }
    let dt7 ← readDataTypes fs
    let attrRows := read_csv fs "spec_object_attribute.csv"
    let spec_objects ← (read_csv fs "spec_object.csv").mapM
      (buildSpecObject attrRows)
    let hierRows := read_csv fs "spec_hierarchy.csv"
    let specifications ← (read_csv fs "specification.csv").mapM
      (buildSpecification hierRows)
    let tool ←
      match read_csv fs "tool_extensions.csv" with
      | [] => Except.ok none
      | trow :: _ => (rowGet trow "content").map some
    Except.ok
      { header
        core_content :=
          { reqif_content :=
              { data_types := dt7, spec_objects, specifications } }
        tool_extensions := tool }

end CSVAdapter

deriving instance DecidableEq for Except

/-- A reqif_header table row: the bound parameters of the INSERT. -/
structure HdrRow where
  identifier : Option String
  creation_time : Option String
  repository_id : Option String
  reqif_tool_id : Option String
  reqif_version : Option String
  source_tool_id : Option String
  title : Option String
deriving DecidableEq, Repr

/-- A row of the three-column datatype tables (xhtml, enumeration). -/
structure Dt3Row where
  identifier : Option String
  last_change : Option String
  long_name : Option String
deriving DecidableEq, Repr

/-- A row of the two-column datatype tables. -/
structure Dt2Row where
  identifier : Option String
  long_name : Option String
deriving DecidableEq, Repr

/-- An enum_value table row. -/
structure EnumRow where
  identifier : Option String
  enumeration_id : Option String
  last_change : Option String
  long_name : Option String
  embedded_key : Option String
  embedded_other_content : Option String
deriving DecidableEq, Repr

/-- A spec_object table row. -/
structure ObjRow where
  identifier : Option String
  last_change : Option String
  long_name : Option String
  type_ref : Option String
deriving DecidableEq, Repr

/-- A spec_object_attribute table row (the table has no primary key). -/
structure AttrRow where
  spec_object_id : Option String
  definition_ref : Option String
  value : Option String
deriving DecidableEq, Repr

/-- A specification table row. -/
structure SpecRow where
  identifier : Option String
  last_change : Option String
  long_name : Option String
  type_ref : Option String
deriving DecidableEq, Repr

/-- A spec_hierarchy table row. -/
structure HierRow where
  identifier : Option String
  specification_id : Option String
  last_change : Option String
  long_name : Option String
  is_editable : Option Int
  object_ref : Option String
deriving DecidableEq, Repr

/-- A tool_extensions table row. -/
structure ToolRow where
  id : Int
  content : Option String
deriving DecidableEq, Repr

/-- The SQLite store: one row list per table, in rowid (insertion) order,
which is the order SELECT * returns. -/
structure Db where
  reqif_header : List HdrRow := []
  datatype_xhtml : List Dt3Row := []
  datatype_enumeration : List Dt3Row := []
  enum_value : List EnumRow := []
  datatype_boolean : List Dt2Row := []
  datatype_date : List Dt2Row := []
  datatype_integer : List Dt2Row := []
  datatype_real : List Dt2Row := []
  datatype_string : List Dt2Row := []
  spec_object : List ObjRow := []
  spec_object_attribute : List AttrRow := []
  specification : List SpecRow := []
  spec_hierarchy : List HierRow := []
  tool_extensions : List ToolRow := []
deriving DecidableEq, Repr

/-- The store right after create_schema on a fresh database: empty tables. -/
def emptyDb : Db := {}

/-- SQL equality on two nullable text values: NULL compares equal to
nothing, including another NULL. -/
def sqlEq : Option String → Option String → Bool
  | some a, some b => a = b
  | _, _ => false

/-- INSERT OR REPLACE: delete every row in conflict with the new one (same
non-NULL primary key), then insert the new row at the end (a fresh rowid,
so SELECT * returns it last). -/
def insRepBy {α : Type} (conflict : α → α → Bool) (tbl : List α) (r : α) :
    List α :=
  tbl.filter (fun x => !(conflict x r)) ++ [r]

/-- The isoformat string bound for an optional last-change value. -/
def lastChangeSql : Option PyDateTime → Option String :=
  Option.map isoformatAuto

/-- The single-row table an optional variant contributes. -/
def optRow {α β : Type} (f : α → β) : Option α → List β
  | some x => [f x]
  | none => []

/-- A predicate holding of an optional value when present. -/
def optAll {α : Type} (p : α → Bool) : Option α → Bool
  | some x => p x
  | none => true

/-- The multi-row table an optional variant contributes. -/
def optTable {α β : Type} (f : α → List β) : Option α → List β
  | some x => f x
  | none => []

namespace SQLiteAdapter

/-- Conflict on the identifier primary key of Dt3Row tables. -/
def dt3Conflict (a b : Dt3Row) : Bool := sqlEq a.identifier b.identifier

/-- Conflict on the identifier primary key of Dt2Row tables. -/
def dt2Conflict (a b : Dt2Row) : Bool := sqlEq a.identifier b.identifier

/-- Conflict on the identifier primary key of enum_value. -/
def enumConflict (a b : EnumRow) : Bool := sqlEq a.identifier b.identifier

/-- Conflict on the identifier primary key of reqif_header. -/
def hdrConflict (a b : HdrRow) : Bool := sqlEq a.identifier b.identifier

/-- Conflict on the identifier primary key of spec_object. -/
def objConflict (a b : ObjRow) : Bool := sqlEq a.identifier b.identifier

/-- Conflict on the identifier primary key of specification. -/
def specConflict (a b : SpecRow) : Bool := sqlEq a.identifier b.identifier

/-- Conflict on the identifier primary key of spec_hierarchy. -/
def hierConflict (a b : HierRow) : Bool := sqlEq a.identifier b.identifier

/-- Conflict on the integer primary key of tool_extensions. -/
def toolConflict (a b : ToolRow) : Bool := a.id == b.id

/-- The reqif_header row bound by write. -/
def hdrRowOf (h : ReqIFHeader) : HdrRow :=
  { identifier := h.identifier
    creation_time := some (isoformatAuto h.creation_time)
    repository_id := h.repository_id
    reqif_tool_id := h.reqif_tool_id
    reqif_version := h.reqif_version
    source_tool_id := h.source_tool_id
    title := h.title }

/-- The spec_object row bound by write. -/
def objRowOf (o : SpecObject) : ObjRow :=
  { identifier := o.identifier
    last_change := lastChangeSql o.last_change
    long_name := o.long_name
    type_ref := o.type_ref }

/-- The spec_object_attribute row bound by write (plain INSERT). -/
def attrRowOf (objId : Option String) (a : AttributeValue) : AttrRow :=
  { spec_object_id := objId
    definition_ref := a.definition_ref
    value := a.value }

/-- The specification row bound by write. -/
def specRowOf (sp : Specification) : SpecRow :=
  { identifier := sp.identifier
    last_change := lastChangeSql sp.last_change
    long_name := sp.long_name
    type_ref := sp.type_ref }

/-- The spec_hierarchy row bound by write. -/
def hierRowOf (specId : Option String) (h : SpecHierarchy) : HierRow :=
  { identifier := h.identifier
    specification_id := specId
    last_change := lastChangeSql h.last_change
    long_name := h.long_name
    is_editable := some (if h.is_editable then 1 else 0)
    object_ref := h.object_ref }

/-- The enum_value row bound by write. -/
def enumRowOf (enumId : Option String) (ev : EnumValue) : EnumRow :=
  { identifier := ev.identifier
    enumeration_id := enumId
    last_change := lastChangeSql ev.last_change
    long_name := ev.long_name
    embedded_key := ev.embedded_value.key
    embedded_other_content := ev.embedded_value.other_content }

/-- All spec_object_attribute rows a document contributes, in insert
order. -/
def allAttrRows (r : ReqIF) : List AttrRow :=
  r.core_content.reqif_content.spec_objects.flatMap
    (fun o => o.attributes.map (attrRowOf o.identifier))

/-- One enum-value insert step of write. -/
def enumStep (enumId : Option String) (db : Db) (ev : EnumValue) : Db :=
  { db with enum_value :=
      insRepBy enumConflict db.enum_value (enumRowOf enumId ev) }

/-- One attribute insert step of write (plain INSERT: always appended). -/
def attrStep (objId : Option String) (db : Db) (a : AttributeValue) : Db :=
  { db with spec_object_attribute :=
      db.spec_object_attribute ++ [attrRowOf objId a] }

/-- One spec-object step of write: replace the object row, then append its
attribute rows. -/
def objStep (db : Db) (o : SpecObject) : Db :=
  let db :=
    { db with spec_object := insRepBy objConflict db.spec_object (objRowOf o) }
  o.attributes.foldl (attrStep o.identifier) db

/-- One hierarchy insert step of write. -/
def hierStep (specId : Option String) (db : Db) (h : SpecHierarchy) : Db :=
  { db with spec_hierarchy :=
      insRepBy hierConflict db.spec_hierarchy (hierRowOf specId h) }

/-- One specification step of write: replace the specification row, then
replace its hierarchy rows. -/
def specStep (db : Db) (sp : Specification) : Db :=
  let db :=
    { db with specification :=
        insRepBy specConflict db.specification (specRowOf sp) }
  sp.spec_hierarchies.foldl (hierStep sp.identifier) db

/-- Models SQLiteAdapter.write: INSERT OR REPLACE for every table that has
a primary key, in source order; spec_object_attribute rows are written with
a plain INSERT and therefore always appended; tool extensions are written
only when the value is truthy (neither None nor empty). -/
def write (r : ReqIF) (db : Db) : Db :=
  let dt := r.core_content.reqif_content.data_types
  let db :=
    { db with reqif_header :=
        insRepBy hdrConflict db.reqif_header (hdrRowOf r.header) }
  let db :=
    match dt.xhtml with
    | some x =>
        let row : Dt3Row :=
          ⟨x.identifier, lastChangeSql x.last_change, x.long_name⟩
        { db with datatype_xhtml :=
            insRepBy dt3Conflict db.datatype_xhtml row }
    | none => db
  let db :=
    match dt.enumeration with
    | some e =>
        let db :=
          let row : Dt3Row :=
            ⟨e.identifier, lastChangeSql e.last_change, e.long_name⟩
          { db with datatype_enumeration :=
              insRepBy dt3Conflict db.datatype_enumeration row }
        e.enum_values.foldl (enumStep e.identifier) db
    | none => db
  let db :=
    match dt.boolean with
    | some b =>
        { db with datatype_boolean :=
            insRepBy dt2Conflict db.datatype_boolean ⟨b.identifier, b.long_name⟩ }
    | none => db
  let db :=
    match dt.date with
    | some b =>
        { db with datatype_date :=
            insRepBy dt2Conflict db.datatype_date ⟨b.identifier, b.long_name⟩ }
    | none => db
  let db :=
    match dt.integer with
    | some b =>
        { db with datatype_integer :=
            insRepBy dt2Conflict db.datatype_integer ⟨b.identifier, b.long_name⟩ }
    | none => db
  let db :=
    match dt.real with
    | some b =>
        { db with datatype_real :=
            insRepBy dt2Conflict db.datatype_real ⟨b.identifier, b.long_name⟩ }
    | none => db
  let db :=
    match dt.string with
    | some b =>
        { db with datatype_string :=
            insRepBy dt2Conflict db.datatype_string ⟨b.identifier, b.long_name⟩ }
    | none => db
  let db :=
    r.core_content.reqif_content.spec_objects.foldl objStep db
  let db :=
    r.core_content.reqif_content.specifications.foldl specStep db
  match r.tool_extensions with
  | some s =>
      if s = "" then db
      else
        { db with tool_extensions :=
            insRepBy toolConflict db.tool_extensions ⟨1, some s⟩ }
  | none => db

/-- Reading a NULL-able isoformat column back, as read does: a falsy value
(NULL or the empty string) yields None, otherwise fromisoformat. -/
def readOptDate : Option String → Except PyErr (Option PyDateTime)
  | none => Except.ok none
  | some s => if s = "" then Except.ok none else (fromisoformat s).map some

/-- The per-row enum-value reconstruction of SQLiteAdapter.read. -/
def buildEnumValue (erow : EnumRow) : Except PyErr EnumValue := do
  let elc ← readOptDate erow.last_change
  Except.ok
    ({ identifier := erow.identifier
       last_change := elc
       long_name := erow.long_name
       embedded_value :=
         { key := erow.embedded_key
           other_content := erow.embedded_other_content } } : EnumValue)

/-- The xhtml stage of read's datatype reconstruction: the variant from the
first row of its table. -/
def sqlDtXhtml (db : Db) (dt : DataTypes) : Except PyErr DataTypes :=
  match db.datatype_xhtml.head? with
  | none => Except.ok dt
  | some row => do
      let lc ← readOptDate row.last_change
      let x : DataTypeDefinitionXHTML :=
        { identifier := row.identifier
          last_change := lc
          long_name := row.long_name }
      Except.ok { dt with xhtml := some x }

/-- The enumeration stage of read's datatype reconstruction, selecting its
enum-value rows by SQL equality on the enumeration id. -/
def sqlDtEnum (db : Db) (dt : DataTypes) : Except PyErr DataTypes :=
  match db.datatype_enumeration.head? with
  | none => Except.ok dt
  | some row => do
      let lc ← readOptDate row.last_change
      let evs ←
        (db.enum_value.filter
          (fun e => sqlEq e.enumeration_id row.identifier)).mapM
          buildEnumValue
      let e : DataTypeDefinitionEnumeration :=
        { identifier := row.identifier
          last_change := lc
          long_name := row.long_name
          enum_values := evs }
      Except.ok { dt with enumeration := some e }

/-- The boolean stage of read's datatype reconstruction. -/
def sqlDtBoolean (db : Db) (dt : DataTypes) : DataTypes :=
  match db.datatype_boolean.head? with
  | none => dt
  | some row => { dt with boolean := some ⟨row.identifier, row.long_name⟩ }

/-- The date stage of read's datatype reconstruction. -/
def sqlDtDate (db : Db) (dt : DataTypes) : DataTypes :=
  match db.datatype_date.head? with
  | none => dt
  | some row => { dt with date := some ⟨row.identifier, row.long_name⟩ }

/-- The integer stage of read's datatype reconstruction. -/
def sqlDtInteger (db : Db) (dt : DataTypes) : DataTypes :=
  match db.datatype_integer.head? with
  | none => dt
  | some row => { dt with integer := some ⟨row.identifier, row.long_name⟩ }

/-- The real stage of read's datatype reconstruction. -/
def sqlDtReal (db : Db) (dt : DataTypes) : DataTypes :=
  match db.datatype_real.head? with
  | none => dt
  | some row => { dt with real := some ⟨row.identifier, row.long_name⟩ }

/-- The string stage of read's datatype reconstruction. -/
def sqlDtString (db : Db) (dt : DataTypes) : DataTypes :=
  match db.datatype_string.head? with
  | none => dt
  | some row => { dt with string := some ⟨row.identifier, row.long_name⟩ }

/-- The per-row spec-object reconstruction of SQLiteAdapter.read, pulling
attribute rows by SQL equality on the owning object id. -/
def buildSpecObjectRow (db : Db) (row : ObjRow) : Except PyErr SpecObject := do
  let attrs :=
    (db.spec_object_attribute.filter
      (fun a => sqlEq a.spec_object_id row.identifier)).map
      (fun a =>
        ({ definition_ref := a.definition_ref, value := a.value }
          : AttributeValue))
  let lc ← readOptDate row.last_change
  Except.ok
    ({ identifier := row.identifier
       last_change := lc
       long_name := row.long_name
       attributes := attrs
       type_ref := row.type_ref } : SpecObject)

/-- The per-row hierarchy reconstruction of SQLiteAdapter.read; bool() maps
NULL and 0 to False. -/
def buildHierRow (h : HierRow) : Except PyErr SpecHierarchy := do
  let hlc ← readOptDate h.last_change
  Except.ok
    ({ identifier := h.identifier
       last_change := hlc
       long_name := h.long_name
       is_editable :=
         match h.is_editable with
         | some n => n ≠ 0
         | none => false
       object_ref := h.object_ref } : SpecHierarchy)

/-- The per-row specification reconstruction of SQLiteAdapter.read, pulling
hierarchy rows by SQL equality on the owning specification id. -/
def buildSpecificationRow (db : Db) (row : SpecRow) :
    Except PyErr Specification := do
  let hiers ←
    (db.spec_hierarchy.filter
      (fun h => sqlEq h.specification_id row.identifier)).mapM
      buildHierRow
  let lc ← readOptDate row.last_change
  Except.ok
    ({ identifier := row.identifier
       last_change := lc
       long_name := row.long_name
       type_ref := row.type_ref
       spec_hierarchies := hiers } : Specification)

/-- Models SQLiteAdapter.read.  The header fetch dereferences the first row
(TypeError if the table is empty, or if its creation_time column is NULL,
since fromisoformat needs a string); each datatype table contributes its
first row; attribute and hierarchy rows are selected by SQL equality on the
owning id. -/
def read (db : Db) : Except PyErr ReqIF := do
  match db.reqif_header.head? with
  | none => Except.error PyErr.typeError
  | some hrow => do
    let ct ←
      match hrow.creation_time with
      | none => Except.error PyErr.typeError
      | some s => fromisoformat s
    let header : ReqIFHeader :=
      { identifier := hrow.identifier
        creation_time := ct
        repository_id := hrow.repository_id
        reqif_tool_id := hrow.reqif_tool_id
        reqif_version := hrow.reqif_version
        source_tool_id := hrow.source_tool_id
        title := hrow.title }
    let dt1 ← sqlDtXhtml db {}
    let dt2 ← sqlDtEnum db dt1
    let dt3 := sqlDtBoolean db dt2
    let dt4 := sqlDtDate db dt3
    let dt5 := sqlDtInteger db dt4
    let dt6 := sqlDtReal db dt5
    let dt7 := sqlDtString db dt6
    let spec_objects ← db.spec_object.mapM (buildSpecObjectRow db)
    let specifications ← db.specification.mapM (buildSpecificationRow db)
    let tool :=
      match (db.tool_extensions.filter (fun t => t.id == 1)).head? with
      | some t => t.content
      | none => none
    Except.ok
      { header
        core_content :=
          { reqif_content :=
              { data_types := dt7, spec_objects, specifications } }
        tool_extensions := tool }

end SQLiteAdapter

/-- Modelled from the spec: the simplified flat model's Requirement class
(model.Requirement), which command.py and the tests import but which is
missing from the model module in src; per the spec it is a record with an
identifier, a title and a description. -/
structure Requirement where
  req_id : String
  title : String
  description : String
deriving DecidableEq, Repr

/-- The simplified model's SpecHierarchy as command.py uses it: a node with
an identifier, a referenced object id, and an owned list of children
(named SpecHierarchyNode here because the typed model's flat SpecHierarchy
record already carries the source name). -/
inductive SpecHierarchyNode where
  | mk (hier_id : String) (object_id : String) (children : List SpecHierarchyNode)

mutual
/-- Decidable equality on hierarchy nodes (the derive handler does not
support this nested inductive). -/
def shnDecEq : (a b : SpecHierarchyNode) → Decidable (a = b)
  | .mk i o cs, .mk i' o' cs' =>
      match String.decEq i i' with
      | Decidable.isFalse h =>
          Decidable.isFalse (by intro he; cases he; exact h rfl)
      | Decidable.isTrue h1 =>
        match String.decEq o o' with
        | Decidable.isFalse h =>
            Decidable.isFalse (by intro he; cases he; exact h rfl)
        | Decidable.isTrue h2 =>
          match shnDecEqList cs cs' with
          | Decidable.isTrue h3 => Decidable.isTrue (by rw [h1, h2, h3])
          | Decidable.isFalse h =>
              Decidable.isFalse (by intro he; cases he; exact h rfl)

/-- Decidable equality on lists of hierarchy nodes. -/
def shnDecEqList : (a b : List SpecHierarchyNode) → Decidable (a = b)
  | [], [] => Decidable.isTrue rfl
  | [], _ :: _ => Decidable.isFalse (by intro h; cases h)
  | _ :: _, [] => Decidable.isFalse (by intro h; cases h)
  | a :: as, b :: bs =>
      match shnDecEq a b, shnDecEqList as bs with
      | Decidable.isTrue h1, Decidable.isTrue h2 =>
          Decidable.isTrue (by rw [h1, h2])
      | Decidable.isFalse h, _ =>
          Decidable.isFalse (by intro he; injection he; contradiction)
      | _, Decidable.isFalse h =>
          Decidable.isFalse (by intro he; injection he; contradiction)
end

instance : DecidableEq SpecHierarchyNode := shnDecEq

instance : Repr SpecHierarchyNode where
  reprPrec _ _ := Std.Format.text "SpecHierarchyNode"

/-- Identifier of a hierarchy node. -/
def SpecHierarchyNode.hier_id : SpecHierarchyNode → String
  | .mk i _ _ => i

/-- Referenced object id of a hierarchy node. -/
def SpecHierarchyNode.object_id : SpecHierarchyNode → String
  | .mk _ o _ => o

/-- Children of a hierarchy node. -/
def SpecHierarchyNode.children : SpecHierarchyNode → List SpecHierarchyNode
  | .mk _ _ c => c

/-- The simplified model's SpecRelation as command.py and the tests use it:
a directed typed edge with a property map. -/
structure SpecRelation where
  relation_id : String
  source_id : String
  target_id : String
  relation_type : String
  properties : List (String × String)
deriving DecidableEq, Repr

/-- Modelled from the spec: the simplified flat document class
(model.ReqIFDocument) that command.py operates on, missing from the model
module in src; it owns the requirement list, the hierarchy forest and the
relation list (the header mapping is omitted: no command touches it). -/
structure ReqIFDocument where
  requirements : List Requirement := []
  spec_hierarchies : List SpecHierarchyNode := []
  spec_relations : List SpecRelation := []
deriving DecidableEq, Repr

/-- Modelled from the spec: ReqIFDocument.add_requirement appends the
entity and fails with DuplicateIdentifier when the identifier exists. -/
def ReqIFDocument.add_requirement (d : ReqIFDocument) (r : Requirement) :
    Except PyErr ReqIFDocument :=
  if d.requirements.any (fun x => x.req_id = r.req_id) then
    Except.error PyErr.duplicateIdentifier
  else Except.ok { d with requirements := d.requirements ++ [r] }

/-- Modelled from the spec: ReqIFDocument.get_requirement returns the
requirement with the identifier and fails with NotFound when absent. -/
def ReqIFDocument.get_requirement (d : ReqIFDocument) (rid : String) :
    Except PyErr Requirement :=
  match d.requirements.find? (fun x => x.req_id = rid) with
  | some r => Except.ok r
  | none => Except.error PyErr.notFound

/-- Modelled from the spec: ReqIFDocument.remove_requirement removes the
requirement with the identifier and fails with NotFound when absent. -/
def ReqIFDocument.remove_requirement (d : ReqIFDocument) (rid : String) :
    Except PyErr ReqIFDocument :=
  if d.requirements.any (fun x => x.req_id = rid) then
    Except.ok
      { d with requirements :=
          d.requirements.filter (fun x => ¬ x.req_id = rid) }
  else Except.error PyErr.notFound

/-- Models command.search_hierarchy: depth-first preorder search for a node
by identifier, returning the node and its parent (None for a root). -/
def search_hierarchy : List SpecHierarchyNode → String →
    Option SpecHierarchyNode →
    Option (SpecHierarchyNode × Option SpecHierarchyNode)
  | [], _, _ => none
  | SpecHierarchyNode.mk i o cs :: rest, nid, parent =>
      if i = nid then some (SpecHierarchyNode.mk i o cs, parent)
      else
        match search_hierarchy cs nid (some (SpecHierarchyNode.mk i o cs)) with
        | some r => some r
        | none => search_hierarchy rest nid parent
termination_by l _ _ => sizeOf l
decreasing_by
  all_goals simp_wf
  all_goals omega

/-- Applies a children-list transformation to the first node (depth-first
preorder) with the given identifier, returning the new forest and whether a
node was found.  This models Python's in-place mutation of the object that
search_hierarchy returned: under unique identifiers the first preorder
match is that object. -/
def updForest : List SpecHierarchyNode → String →
    (List SpecHierarchyNode → List SpecHierarchyNode) →
    List SpecHierarchyNode × Bool
  | [], _, _ => ([], false)
  | SpecHierarchyNode.mk i o cs :: rest, k, f =>
      if i = k then (SpecHierarchyNode.mk i o (f cs) :: rest, true)
      else
        let inner := updForest cs k f
        if inner.2 then (SpecHierarchyNode.mk i o inner.1 :: rest, true)
        else
          let outer := updForest rest k f
          (SpecHierarchyNode.mk i o cs :: outer.1, outer.2)
termination_by l _ _ => sizeOf l
decreasing_by
  all_goals simp_wf
  all_goals omega

/-- Python truthiness of an optional string: None and the empty string are
falsy. -/
def optTruthy : Option String → Bool
  | some s => s ≠ ""
  | none => false

/-- A command object with its captured undo state, as a closed variant set:
add/remove/update requirement, move hierarchy node, add/remove
relationship. -/
inductive Cmd where
  | addReq (r : Requirement)
  | removeReq (rid : String) (removed : Option Requirement)
  | updateReq (rid : String) (newTitle newDesc : Option String)
      (old : Option Requirement)
  | moveNode (nid : String) (newParent : Option String)
      (node : Option SpecHierarchyNode) (oldParent : Option (Option String))
  | addRel (rel : SpecRelation) (executed : Bool)
  | removeRel (rid : String) (removed : Option SpecRelation)
deriving DecidableEq, Repr

/-- Applies UpdateRequirementCommand's field assignments. -/
def applyUpd (newTitle newDesc : Option String) (r : Requirement) :
    Requirement :=
  let r1 :=
    match newTitle with
    | some t => { r with title := t }
    | none => r
  match newDesc with
  | some ds => { r1 with description := ds }
  | none => r1

/-- Replaces the first requirement with the identifier in place, as the
in-place mutation of the object returned by get_requirement does. -/
def updateFirstReq (l : List Requirement) (rid : String)
    (f : Requirement → Requirement) : List Requirement :=
  match l with
  | [] => []
  | r :: rest =>
      if r.req_id = rid then f r :: rest
      else r :: updateFirstReq rest rid f

/-- Models Command.execute for every command variant: the result is the
raised exception if any, the command object with its captured state, and
the document as the call leaves it (exceptions can leave it mutated, as
MoveNodeCommand does when the new parent is missing: the node has already
been detached). -/
def execCmd (c : Cmd) (d : ReqIFDocument) :
    Option PyErr × Cmd × ReqIFDocument :=
  match c with
  | .addReq r =>
      match d.add_requirement r with
      | .ok d' => (none, .addReq r, d')
      | .error e => (some e, .addReq r, d)
  | .removeReq rid _ =>
      match d.get_requirement rid with
      | .error _ => (some PyErr.notFound, .removeReq rid none, d)
      | .ok r0 =>
          match d.remove_requirement rid with
          | .ok d' => (none, .removeReq rid (some r0), d')
          | .error _ => (some PyErr.notFound, .removeReq rid (some r0), d)
  | .updateReq rid nt nd _ =>
      match d.get_requirement rid with
      | .error _ => (some PyErr.notFound, .updateReq rid nt nd none, d)
      | .ok r0 =>
          (none, .updateReq rid nt nd (some r0),
            { d with requirements :=
                updateFirstReq d.requirements rid (applyUpd nt nd) })
  | .moveNode nid pid _ _ =>
      match search_hierarchy d.spec_hierarchies nid none with
      | none => (some PyErr.valueError, .moveNode nid pid none (some none), d)
      | some (n, par) =>
          let parId := par.map (fun p => p.hier_id)
          let st := Cmd.moveNode nid pid (some n) (some parId)
          let forest1 :=
            match par with
            | some p =>
                (updForest d.spec_hierarchies p.hier_id
                  (fun cs => cs.filter (fun ch => ¬ ch.hier_id = nid))).1
            | none =>
                d.spec_hierarchies.filter (fun ch => ¬ ch.hier_id = nid)
          let d1 := { d with spec_hierarchies := forest1 }
          if optTruthy pid then
            match search_hierarchy d1.spec_hierarchies (pid.getD "") none with
            | none => (some PyErr.valueError, st, d1)
            | some (q, _) =>
                (none, st,
                  { d1 with spec_hierarchies :=
                      (updForest d1.spec_hierarchies q.hier_id
                        (fun cs => cs ++ [n])).1 })
          else
            (none, st,
              { d1 with spec_hierarchies := d1.spec_hierarchies ++ [n] })
  | .addRel rel _ =>
      (none, .addRel rel true,
        { d with spec_relations := d.spec_relations ++ [rel] })
  | .removeRel rid _ =>
      match d.spec_relations.find? (fun r => r.relation_id = rid) with
      | none => (some PyErr.valueError, .removeRel rid none, d)
      | some r0 =>
          (none, .removeRel rid (some r0),
            { d with spec_relations :=
                d.spec_relations.filter (fun r => ¬ r.relation_id = rid) })

/-- Models Command.undo for every command variant.  MoveNodeCommand.undo
first detaches the node from its current holder (the new parent when a
truthy new-parent id was given, else the root list), then appends the
captured node to the captured old parent's children, or to the root list;
when the command never executed successfully the captured node is absent
and the reattachment step is skipped (Python would append None). -/
def undoCmd (c : Cmd) (d : ReqIFDocument) : Option PyErr × ReqIFDocument :=
  match c with
  | .addReq r =>
      match d.remove_requirement r.req_id with
      | .ok d' => (none, d')
      | .error e => (some e, d)
  | .removeReq _ removed =>
      match removed with
      | some r0 =>
          match d.add_requirement r0 with
          | .ok d' => (none, d')
          | .error e => (some e, d)
      | none => (none, d)
  | .updateReq rid _ _ old =>
      match old with
      | some r0 =>
          match d.remove_requirement rid with
          | .error e => (some e, d)
          | .ok d1 =>
              match d1.add_requirement r0 with
              | .ok d2 => (none, d2)
              | .error e => (some e, d1)
      | none => (none, d)
  | .moveNode nid pid node oldParent =>
      let d1 :=
        if optTruthy pid then
          match search_hierarchy d.spec_hierarchies (pid.getD "") none with
          | some (q, _) =>
              { d with spec_hierarchies :=
                  (updForest d.spec_hierarchies q.hier_id
                    (fun cs => cs.filter (fun ch => ¬ ch.hier_id = nid))).1 }
          | none => d
        else
          { d with spec_hierarchies :=
              d.spec_hierarchies.filter (fun ch => ¬ ch.hier_id = nid) }
      match node with
      | none => (none, d1)
      | some n =>
          match oldParent with
          | some (some pId) =>
              (none,
                { d1 with spec_hierarchies :=
                    (updForest d1.spec_hierarchies pId
                      (fun cs => cs ++ [n])).1 })
          | _ =>
              (none,
                { d1 with spec_hierarchies := d1.spec_hierarchies ++ [n] })
  | .addRel rel executed =>
      if executed then
        let kept :=
          d.spec_relations.filter (fun r => ¬ r.relation_id = rel.relation_id)
        (none, { d with spec_relations := kept })
      else (none, d)
  | .removeRel _ removed =>
      match removed with
      | some r0 =>
          (none, { d with spec_relations := d.spec_relations ++ [r0] })
      | none => (none, d)

/-- The command manager's two stacks; the top of each stack is the last
element of its list, matching Python list append/pop. -/
structure CommandManager where
  undo_stack : List Cmd := []
  redo_stack : List Cmd := []
deriving DecidableEq, Repr

/-- Models CommandManager.execute_command: run execute, and only on success
push the command and clear the redo stack; an exception propagates, leaving
the stacks untouched (the document keeps whatever execute did to it). -/
def execute_command (m : CommandManager) (d : ReqIFDocument) (c : Cmd) :
    Option PyErr × CommandManager × ReqIFDocument :=
  match execCmd c d with
  | (none, c', d') => (none, ⟨m.undo_stack ++ [c'], []⟩, d')
  | (some e, _, d') => (some e, m, d')

/-- Models CommandManager.undo: pop the undo stack (EmptyHistory when
empty), run undo, push onto the redo stack; if undo raises, the command has
already been popped and is pushed nowhere. -/
def managerUndo (m : CommandManager) (d : ReqIFDocument) :
    Option PyErr × CommandManager × ReqIFDocument :=
  match m.undo_stack.getLast? with
  | none => (some PyErr.emptyHistory, m, d)
  | some c =>
      let rest := m.undo_stack.dropLast
      match undoCmd c d with
      | (none, d') => (none, ⟨rest, m.redo_stack ++ [c]⟩, d')
      | (some e, d') => (some e, ⟨rest, m.redo_stack⟩, d')

/-- Models CommandManager.redo: pop the redo stack (EmptyHistory when
empty), run execute again, push back onto the undo stack; if execute
raises, the command has already been popped and is pushed nowhere. -/
def managerRedo (m : CommandManager) (d : ReqIFDocument) :
    Option PyErr × CommandManager × ReqIFDocument :=
  match m.redo_stack.getLast? with
  | none => (some PyErr.emptyHistory, m, d)
  | some c =>
      let rest := m.redo_stack.dropLast
      match execCmd c d with
      | (none, c', d') => (none, ⟨m.undo_stack ++ [c'], rest⟩, d')
      | (some e, _, d') => (some e, ⟨m.undo_stack, rest⟩, d')

/-- The datetime value survives isoformat (default timespec) followed by
fromisoformat; rounds below one millisecond or out-of-grammar offsets can
break this, so the adapter round-trip theorems carry it as a hypothesis. -/
def dtRT (t : PyDateTime) : Bool :=
  decide (fromisoformat (isoformatAuto t) = Except.ok t)

/-- Round-trip condition for an optional last-change value. -/
def lcOk : Option PyDateTime → Bool
  | none => true
  | some t => dtRT t

/-- Readiness of an enum value for the tabular/relational round trip: all
its text fields present and its timestamp round-tripping. -/
def evReady (ev : EnumValue) : Bool :=
  ev.identifier.isSome && ev.long_name.isSome &&
    ev.embedded_value.key.isSome && ev.embedded_value.other_content.isSome &&
    lcOk ev.last_change

/-- Readiness of an attribute value: both fields present. -/
def attrReady (a : AttributeValue) : Bool :=
  a.definition_ref.isSome && a.value.isSome

/-- Readiness of a spec object. -/
def objReady (o : SpecObject) : Bool :=
  o.identifier.isSome && o.long_name.isSome && o.type_ref.isSome &&
    lcOk o.last_change && o.attributes.all attrReady

/-- Readiness of a hierarchy record. -/
def hierReady (h : SpecHierarchy) : Bool :=
  h.identifier.isSome && h.long_name.isSome && h.object_ref.isSome &&
    lcOk h.last_change

/-- Readiness of a specification. -/
def specReady (sp : Specification) : Bool :=
  sp.identifier.isSome && sp.long_name.isSome && sp.type_ref.isSome &&
    lcOk sp.last_change && sp.spec_hierarchies.all hierReady

/-- Readiness of the datatype catalog. -/
def dtReady (dt : DataTypes) : Bool :=
  (match dt.xhtml with
   | some x => x.identifier.isSome && x.long_name.isSome && lcOk x.last_change
   | none => true) &&
  (match dt.enumeration with
   | some e => e.identifier.isSome && e.long_name.isSome &&
       lcOk e.last_change && e.enum_values.all evReady
   | none => true) &&
  (match dt.boolean with
   | some b => b.identifier.isSome && b.long_name.isSome
   | none => true) &&
  (match dt.date with
   | some b => b.identifier.isSome && b.long_name.isSome
   | none => true) &&
  (match dt.integer with
   | some b => b.identifier.isSome && b.long_name.isSome
   | none => true) &&
  (match dt.real with
   | some b => b.identifier.isSome && b.long_name.isSome
   | none => true) &&
  (match dt.string with
   | some b => b.identifier.isSome && b.long_name.isSome
   | none => true)

/-- Readiness of a whole document for the tabular/relational round trip:
every persisted text field present, every timestamp round-tripping, and the
spec-object and specification identifier cells free of duplicates (the
readers re-attach child rows by those cells). -/
def CodecReady (r : ReqIF) : Bool :=
  r.header.identifier.isSome && r.header.repository_id.isSome &&
    r.header.reqif_tool_id.isSome && r.header.reqif_version.isSome &&
    r.header.source_tool_id.isSome && r.header.title.isSome &&
    dtRT r.header.creation_time &&
    dtReady r.core_content.reqif_content.data_types &&
    r.core_content.reqif_content.spec_objects.all objReady &&
    r.core_content.reqif_content.specifications.all specReady &&
    decide (r.core_content.reqif_content.spec_objects.map
      (fun o => optCell o.identifier)).Nodup &&
    decide (r.core_content.reqif_content.specifications.map
      (fun sp => optCell sp.identifier)).Nodup

/-- Presence of the primary-key identifiers the relational writer binds;
with a NULL primary key INSERT OR REPLACE never conflicts, so rows with
absent identifiers would accumulate. -/
def WriteKeysPresent (r : ReqIF) : Bool :=
  r.header.identifier.isSome &&
  (match r.core_content.reqif_content.data_types.xhtml with
   | some x => x.identifier.isSome
   | none => true) &&
  (match r.core_content.reqif_content.data_types.enumeration with
   | some e => e.identifier.isSome && e.enum_values.all
       (fun ev => ev.identifier.isSome)
   | none => true) &&
  (match r.core_content.reqif_content.data_types.boolean with
   | some b => b.identifier.isSome
   | none => true) &&
  (match r.core_content.reqif_content.data_types.date with
   | some b => b.identifier.isSome
   | none => true) &&
  (match r.core_content.reqif_content.data_types.integer with
   | some b => b.identifier.isSome
   | none => true) &&
  (match r.core_content.reqif_content.data_types.real with
   | some b => b.identifier.isSome
   | none => true) &&
  (match r.core_content.reqif_content.data_types.string with
   | some b => b.identifier.isSome
   | none => true) &&
  r.core_content.reqif_content.spec_objects.all
    (fun o => o.identifier.isSome) &&
  r.core_content.reqif_content.specifications.all
    (fun sp => sp.identifier.isSome &&
      sp.spec_hierarchies.all (fun h => h.identifier.isSome))

/-- How the relational store hands tool extensions back: a truthy value
survives, None and the empty string come back as None (the writer skips
falsy values). -/
def sqliteToolNorm : Option String → Option String
  | some s => if s = "" then none else some s
  | none => none

/-- Readiness of a whole document for the relational round trip: codec
readiness plus distinctness of the remaining relational primary keys — the
enum-value identifiers and the hierarchy identifiers across all
specifications (INSERT OR REPLACE folds rows with a repeated key into
one). -/
def SqliteReady (r : ReqIF) : Bool :=
  CodecReady r &&
  (match r.core_content.reqif_content.data_types.enumeration with
   | some e =>
       decide ((e.enum_values.map (fun ev => optCell ev.identifier)).Nodup)
   | none => true) &&
  decide (((r.core_content.reqif_content.specifications.flatMap
    (fun sp => sp.spec_hierarchies)).map
      (fun h => optCell h.identifier)).Nodup)

/-- A concrete timestamp used by the example documents. -/
def exDt : PyDateTime := ⟨2020, 1, 2, 3, 4, 5, 0, none⟩

/-- A concrete codec-ready document with tool extensions set, used as the
explicit input of several counterexamples and witnesses. -/
def exampleDoc : ReqIF :=
  { header :=
      ⟨some "h1", exDt, some "repo", some "tool", some "1.0", some "src",
        some "Doc"⟩
    core_content :=
      { reqif_content :=
          { data_types := { xhtml := some ⟨some "dx", some exDt, some "X"⟩ }
            spec_objects :=
              [⟨some "o1", some exDt, some "Obj",
                 [⟨some "a1", some "v1"⟩], some "t1"⟩]
            specifications :=
              [⟨some "s1", none, some "Spec", some "st1",
                 [⟨some "hh1", none, some "H1", true, some "o1"⟩,
                  ⟨some "hh2", none, some "H2", false, some "o1"⟩]⟩] } }
    tool_extensions := some "<EXT>x</EXT>" }

/-- A SPEC-OBJECTS element whose single object carries one attribute whose
THE-VALUE payload is a present but empty div: the code's empty-payload
edge case. -/
def c8SpecObjectsElem : XML :=
  let divElem := XML.elem (xh "div") [] none []
  let theValue := XML.elem (rq "THE-VALUE") [] none [divElem]
  let defRef :=
    XML.elem (rq "ATTRIBUTE-DEFINITION-XHTML-REF") [] (some "_a") []
  let defElem := XML.elem (rq "DEFINITION") [] none [defRef]
  let attrElem :=
    XML.elem (rq "ATTRIBUTE-VALUE-XHTML") [] none [defElem, theValue]
  let valuesElem := XML.elem (rq "VALUES") [] none [attrElem]
  let typeRef := XML.elem (rq "SPEC-OBJECT-TYPE-REF") [] (some "_t") []
  let typeElem := XML.elem (rq "TYPE") [] none [typeRef]
  let objElem :=
    XML.elem (rq "SPEC-OBJECT") [("IDENTIFIER", "_o"), ("LONG-NAME", "N")]
      none [valuesElem, typeElem]
  XML.elem (rq "SPEC-OBJECTS") [] none [objElem]

/-- All identifiers of a hierarchy forest in depth-first preorder. -/
def forestIds : List SpecHierarchyNode → List String
  | [] => []
  | SpecHierarchyNode.mk i _ cs :: rest => i :: (forestIds cs ++ forestIds rest)
termination_by l => sizeOf l
decreasing_by
  all_goals simp_wf
  all_goals omega

/-- All nodes of a hierarchy forest in depth-first preorder. -/
def forestNodes : List SpecHierarchyNode → List SpecHierarchyNode
  | [] => []
  | SpecHierarchyNode.mk i o cs :: rest =>
      SpecHierarchyNode.mk i o cs :: (forestNodes cs ++ forestNodes rest)
termination_by l => sizeOf l
decreasing_by
  all_goals simp_wf
  all_goals omega

/-- A concrete one-node document used by the move-failure counterexample. -/
def d5doc : ReqIFDocument :=
  { spec_hierarchies := [SpecHierarchyNode.mk "H1" "O1" []] }

/-- A concrete two-requirement document used by the undo-redo
counterexample. -/
def c6Doc : ReqIFDocument :=
  { requirements := [⟨"A", "tA", "dA"⟩, ⟨"B", "tB", "dB"⟩] }

/-- The update-command run of the undo-redo counterexample. -/
def c6Step1 : Option PyErr × CommandManager × ReqIFDocument :=
  execute_command ⟨[], []⟩ c6Doc (.updateReq "A" (some "T2") none none)

/-- Its manager undo. -/
def c6Step2 : Option PyErr × CommandManager × ReqIFDocument :=
  managerUndo c6Step1.2.1 c6Step1.2.2

/-- Its manager redo. -/
def c6Step3 : Option PyErr × CommandManager × ReqIFDocument :=
  managerRedo c6Step2.2.1 c6Step2.2.2

/-- Per-table characterization of SQLiteAdapter.write, proven equal to it
below: each table's new content as a function of only that table's old
content and the document, with every keyed table receiving a pass of
INSERT OR REPLACE steps and the attribute table receiving plain appends. -/
def SQLiteAdapter.writeChar (r : ReqIF) (db : Db) : Db :=
  let dt := r.core_content.reqif_content.data_types
  let objs := r.core_content.reqif_content.spec_objects
  let specs := r.core_content.reqif_content.specifications
  { reqif_header :=
      insRepBy SQLiteAdapter.hdrConflict db.reqif_header
        (SQLiteAdapter.hdrRowOf r.header)
    datatype_xhtml :=
      match dt.xhtml with
      | some x =>
          insRepBy SQLiteAdapter.dt3Conflict db.datatype_xhtml
            ⟨x.identifier, lastChangeSql x.last_change, x.long_name⟩
      | none => db.datatype_xhtml
    datatype_enumeration :=
      match dt.enumeration with
      | some e =>
          insRepBy SQLiteAdapter.dt3Conflict db.datatype_enumeration
            ⟨e.identifier, lastChangeSql e.last_change, e.long_name⟩
      | none => db.datatype_enumeration
    enum_value :=
      match dt.enumeration with
      | some e =>
          (e.enum_values.map (SQLiteAdapter.enumRowOf e.identifier)).foldl
            (insRepBy SQLiteAdapter.enumConflict) db.enum_value
      | none => db.enum_value
    datatype_boolean :=
      match dt.boolean with
      | some b =>
          insRepBy SQLiteAdapter.dt2Conflict db.datatype_boolean
            ⟨b.identifier, b.long_name⟩
      | none => db.datatype_boolean
    datatype_date :=
      match dt.date with
      | some b =>
          insRepBy SQLiteAdapter.dt2Conflict db.datatype_date
            ⟨b.identifier, b.long_name⟩
      | none => db.datatype_date
    datatype_integer :=
      match dt.integer with
      | some b =>
          insRepBy SQLiteAdapter.dt2Conflict db.datatype_integer
            ⟨b.identifier, b.long_name⟩
      | none => db.datatype_integer
    datatype_real :=
      match dt.real with
      | some b =>
          insRepBy SQLiteAdapter.dt2Conflict db.datatype_real
            ⟨b.identifier, b.long_name⟩
      | none => db.datatype_real
    datatype_string :=
      match dt.string with
      | some b =>
          insRepBy SQLiteAdapter.dt2Conflict db.datatype_string
            ⟨b.identifier, b.long_name⟩
      | none => db.datatype_string
    spec_object :=
      (objs.map SQLiteAdapter.objRowOf).foldl
        (insRepBy SQLiteAdapter.objConflict) db.spec_object
    spec_object_attribute :=
      db.spec_object_attribute ++ SQLiteAdapter.allAttrRows r
    specification :=
      (specs.map SQLiteAdapter.specRowOf).foldl
        (insRepBy SQLiteAdapter.specConflict) db.specification
    spec_hierarchy :=
      (specs.flatMap
        (fun sp => sp.spec_hierarchies.map
          (SQLiteAdapter.hierRowOf sp.identifier))).foldl
        (insRepBy SQLiteAdapter.hierConflict) db.spec_hierarchy
    tool_extensions :=
      match r.tool_extensions with
      | some s =>
          if s = "" then db.tool_extensions
          else
            insRepBy SQLiteAdapter.toolConflict db.tool_extensions ⟨1, some s⟩
      | none => db.tool_extensions }

/-! Theorems.  Helper lemmas come first; each claim's theorem carries the
claim id in its doc comment. -/

/-- The writer can never produce a parseable output: the namespace map is
passed as the root element's attribute dictionary, so the root always has
an attribute with an empty name, and minidom.parseString rejects the
malformed serialization (ET.tostring may raise TypeError first when some
attribute value is None); either way write raises. -/
theorem write_never_ok (d : ReqIF) : (write d).isOk = false := by
  have h : hasEmptyAttrName (ReqIFWriter.buildReqif d) = true := by
    unfold ReqIFWriter.buildReqif hasEmptyAttrName
    simp
  simp only [write]
  rw [h]
  by_cases hn : hasNoneAttrVal (ReqIFWriter.buildReqif d) = true
  · simp only [hn, if_true]
    rfl
  · simp only [Bool.not_eq_true] at hn
    simp only [hn]
    rfl

/-- C1: the spec's markup round-trip contract parse(write(parse(x))) =
parse(x) is unachievable: parse accepts the repository's own sample source,
but write raises for every document (the namespace map is passed as the
root's attribute dict, producing an attribute named "", whose serialized
form minidom cannot reparse), so the round trip never completes. -/
theorem c1_markup_roundtrip_write_crashes :
    (ReqIFParser.parse sampleReqifXml).isOk = true ∧
      ∀ d : ReqIF, (write d).isOk = false := by
  constructor
  · decide
  · exact write_never_ok

/-- C7 counterexample: a timestamp whose UTC offset lacks a colon is not
normalized and the parse fails (parse_datetime hands the string unchanged
to the strict fromisoformat, which requires hh:mm offsets). -/
theorem c7_no_colon_offset_rejected :
    parse_datetime "2017-04-25T15:44:26.000+0200" =
      Except.error PyErr.valueError := by decide

/-- C7 amended: parse_datetime accepts ISO-8601-with-milliseconds
timestamps with colon-separated offsets, and performs no normalization at
all — it is fromisoformat applied to the unchanged input, so a no-colon
offset form is rejected rather than normalized. -/
theorem c7_timestamp_parsing_amended :
    (∀ s, parse_datetime s = fromisoformat s) ∧
      parse_datetime "2017-04-25T15:44:26.000+02:00" =
        Except.ok ⟨2017, 4, 25, 15, 44, 26, 0, some 7200000000⟩ ∧
      parse_datetime "2017-04-25T15:44:26.000+0200" =
        Except.error PyErr.valueError :=
  ⟨fun _ => rfl, by decide, by decide⟩

/-- C8 counterexample: an attribute whose THE-VALUE payload element is
present but empty parses to a None value, not the empty string: the claim
that the value is never null fails on this input. -/
theorem c8_empty_div_gives_none :
    (ReqIFParser.parse_spec_objects (some c8SpecObjectsElem)).map
        (fun l => l.map fun o => o.attributes.map (fun a => a.value)) =
      Except.ok [[none]] ∧ (none : Option String) ≠ some "" :=
  ⟨by decide, by decide⟩

/-- C8 amended: the markup codec yields the empty string when THE-VALUE is
absent or has no child, and the payload element's text — which is None for
an empty element — when a payload child is present; no error is raised in
any of these cases. -/
theorem c8_empty_payload_amended :
    (∀ ae : XML, findChild ae (rq "THE-VALUE") = none →
        (ReqIFParser.parse_attribute_value ae).value = some "") ∧
    (∀ ae tv : XML, findChild ae (rq "THE-VALUE") = some tv →
        tv.children = [] →
        (ReqIFParser.parse_attribute_value ae).value = some "") ∧
    (∀ (ae tv c : XML) (cs : List XML),
        findChild ae (rq "THE-VALUE") = some tv → tv.children = c :: cs →
        (ReqIFParser.parse_attribute_value ae).value = c.text) := by
  refine ⟨fun ae h => ?_, fun ae tv h1 h2 => ?_, fun ae tv c cs h1 h2 => ?_⟩
  · simp [ReqIFParser.parse_attribute_value, h]
  · simp [ReqIFParser.parse_attribute_value, h1, h2]
  · simp [ReqIFParser.parse_attribute_value, h1, h2]

/-- Witness for the amended C8 theorem at concrete elements. -/
theorem c8_empty_payload_amended_witness :
    (ReqIFParser.parse_attribute_value (XML.elem "a" [] none [])).value =
        some "" ∧
    (ReqIFParser.parse_attribute_value
        (XML.elem "a" [] none
          [XML.elem (rq "THE-VALUE") [] none []])).value = some "" ∧
    (ReqIFParser.parse_attribute_value
        (XML.elem "a" [] none
          [XML.elem (rq "THE-VALUE") [] none
            [XML.elem (xh "div") [] (some "v") []]])).value = some "v" :=
  ⟨c8_empty_payload_amended.1 (XML.elem "a" [] none []) rfl,
   c8_empty_payload_amended.2.1
     (XML.elem "a" [] none [XML.elem (rq "THE-VALUE") [] none []])
     (XML.elem (rq "THE-VALUE") [] none []) rfl rfl,
   (c8_empty_payload_amended.2.2
     (XML.elem "a" [] none
       [XML.elem (rq "THE-VALUE") [] none
         [XML.elem (xh "div") [] (some "v") []]])
     (XML.elem (rq "THE-VALUE") [] none
       [XML.elem (xh "div") [] (some "v") []])
     (XML.elem (xh "div") [] (some "v") []) [] rfl rfl).trans rfl⟩

/-- C9: adding a relation whose identifier already exists succeeds and
appends a duplicate (no check is performed), and the subsequent undo
removes every relation with that identifier, the pre-existing one
included. -/
theorem c9_duplicate_relation_add_undo (d : ReqIFDocument)
    (rel r0 : SpecRelation) (hmem : r0 ∈ d.spec_relations)
    (hid : r0.relation_id = rel.relation_id) :
    (execCmd (.addRel rel false) d).1 = none ∧
    (execCmd (.addRel rel false) d).2.2.spec_relations =
      d.spec_relations ++ [rel] ∧
    1 ≤ (d.spec_relations.filter
      (fun r => r.relation_id = rel.relation_id)).length ∧
    (undoCmd (execCmd (.addRel rel false) d).2.1
        (execCmd (.addRel rel false) d).2.2).2.spec_relations =
      d.spec_relations.filter (fun r => ¬ r.relation_id = rel.relation_id) ∧
    ∀ r' ∈ (undoCmd (execCmd (.addRel rel false) d).2.1
        (execCmd (.addRel rel false) d).2.2).2.spec_relations,
      ¬ r'.relation_id = rel.relation_id := by
  refine ⟨rfl, rfl, ?_, ?_, ?_⟩
  · have hmem2 : r0 ∈ d.spec_relations.filter
        (fun r => r.relation_id = rel.relation_id) := by
      simp [List.mem_filter, hmem, hid]
    exact List.length_pos_of_mem hmem2
  · simp [execCmd, undoCmd, List.filter_append]
  · intro r' hr'
    have hr2 : r' ∈ (d.spec_relations ++ [rel]).filter
        (fun r => ¬ r.relation_id = rel.relation_id) := by
      simpa [execCmd, undoCmd] using hr'
    have h2 := List.mem_filter.mp hr2
    simpa using h2.2

/-- Witness for C9 at a concrete document. -/
theorem c9_duplicate_relation_add_undo_witness :
    ⟨"R1", "a", "b", "refines", []⟩ ∈
        ({ spec_relations := [⟨"R1", "a", "b", "refines", []⟩] }
          : ReqIFDocument).spec_relations ∧
    (execCmd (.addRel ⟨"R1", "c", "d", "satisfies", []⟩ false)
        { spec_relations := [⟨"R1", "a", "b", "refines", []⟩] }).1 = none :=
  ⟨by decide,
   (c9_duplicate_relation_add_undo
     { spec_relations := [⟨"R1", "a", "b", "refines", []⟩] }
     ⟨"R1", "c", "d", "satisfies", []⟩ ⟨"R1", "a", "b", "refines", []⟩
     (by decide) (by decide)).1⟩

/-- INSERT OR REPLACE distributes over a decomposed table. -/
theorem insRepBy_filter_append {α : Type} (conflict : α → α → Bool)
    (a b : List α) (e : α) :
    insRepBy conflict (a ++ b) e =
      a.filter (fun x => !(conflict x e)) ++ insRepBy conflict b e := by
  simp [insRepBy, List.filter_append, List.append_assoc]

/-- A pass of INSERT OR REPLACE steps over a decomposed table: the prefix
keeps exactly its conflict-free rows, the suffix gets the full pass. -/
theorem foldl_insRepBy_append {α : Type} (conflict : α → α → Bool)
    (es : List α) (a b : List α) :
    es.foldl (insRepBy conflict) (a ++ b) =
      a.filter (fun x => es.all (fun e => !(conflict x e))) ++
        es.foldl (insRepBy conflict) b := by
  induction es generalizing a b with
  | nil => simp
  | cons e es ih =>
      simp only [List.foldl_cons]
      rw [insRepBy_filter_append, ih, List.filter_filter]
      congr 1
      apply List.filter_congr
      intro x _
      simp [List.all_cons, Bool.and_comm]

/-- Every row an INSERT OR REPLACE pass leaves in an initially empty table
is one of the pass's rows. -/
theorem foldl_insRepBy_nil_subset {α : Type} (conflict : α → α → Bool)
    (es : List α) : ∀ x ∈ es.foldl (insRepBy conflict) [], x ∈ es := by
  induction es with
  | nil => simp
  | cons e es ih =>
      intro x hx
      simp only [List.foldl_cons] at hx
      rw [show insRepBy conflict [] e = [e] ++ [] from by simp [insRepBy],
        foldl_insRepBy_append] at hx
      rcases List.mem_append.mp hx with h | h
      · have hm := List.mem_filter.mp h
        simp only [List.mem_singleton] at hm
        exact hm.1 ▸ List.mem_cons_self e es
      · exact List.mem_cons_of_mem e (ih x h)

/-- A second identical pass of INSERT OR REPLACE steps changes nothing,
provided every inserted row conflicts with itself (its key is not NULL). -/
theorem foldl_insRepBy_idem {α : Type} (conflict : α → α → Bool)
    (es : List α) (t : List α) (h : ∀ e ∈ es, conflict e e = true) :
    es.foldl (insRepBy conflict) (es.foldl (insRepBy conflict) t) =
      es.foldl (insRepBy conflict) t := by
  have hchar : ∀ u : List α, es.foldl (insRepBy conflict) u =
      u.filter (fun x => es.all (fun e => !(conflict x e))) ++
        es.foldl (insRepBy conflict) [] := by
    intro u
    simpa using foldl_insRepBy_append conflict es u []
  rw [hchar t, hchar]
  rw [List.filter_append, List.filter_filter]
  have h0 : (es.foldl (insRepBy conflict) []).filter
      (fun x => es.all (fun e => !(conflict x e))) = [] := by
    rw [List.filter_eq_nil_iff]
    intro x hx
    have hxe := foldl_insRepBy_nil_subset conflict es x hx
    simp only [List.all_eq_true, Bool.not_eq_true']
    intro hall
    have := hall x hxe
    rw [h x hxe] at this
    cases this
  rw [h0, List.append_nil]
  congr 1
  apply List.filter_congr
  intro x _
  simp

/-- A single INSERT OR REPLACE of a self-conflicting row is idempotent. -/
theorem insRepBy_idem {α : Type} (conflict : α → α → Bool) (t : List α)
    (r : α) (h : conflict r r = true) :
    insRepBy conflict (insRepBy conflict t r) r = insRepBy conflict t r := by
  have := foldl_insRepBy_idem conflict [r] t (by simpa using h)
  simpa using this

/-- The attribute inner fold of SQLiteAdapter.write only appends rows. -/
theorem attrStep_fold_char (attrs : List AttributeValue) (oid : Option String)
    (db : Db) :
    attrs.foldl (SQLiteAdapter.attrStep oid) db =
      { db with spec_object_attribute :=
          db.spec_object_attribute ++ attrs.map (SQLiteAdapter.attrRowOf oid) } := by
  induction attrs generalizing db with
  | nil => simp
  | cons a as ih =>
      simp only [List.foldl_cons, SQLiteAdapter.attrStep, ih, List.map_cons]
      simp [List.append_assoc]

/-- The spec-object fold of write: the object table gets an INSERT OR
REPLACE pass, the attribute table gets every attribute row appended, and no
other table moves. -/
theorem objStep_fold_char (objs : List SpecObject) (db : Db) :
    objs.foldl SQLiteAdapter.objStep db =
      { db with
        spec_object := objs.foldl
          (fun t o => insRepBy SQLiteAdapter.objConflict t
            (SQLiteAdapter.objRowOf o)) db.spec_object
        spec_object_attribute := db.spec_object_attribute ++
          objs.flatMap
            (fun o => o.attributes.map
              (SQLiteAdapter.attrRowOf o.identifier)) } := by
  induction objs generalizing db with
  | nil => simp
  | cons o os ih =>
      simp only [List.foldl_cons, SQLiteAdapter.objStep, attrStep_fold_char, ih]
      simp [List.append_assoc, List.flatMap_cons]

/-- The hierarchy inner fold of write only passes over the hierarchy
table. -/
theorem hierStep_fold_char (hs : List SpecHierarchy) (spId : Option String)
    (db : Db) :
    hs.foldl (SQLiteAdapter.hierStep spId) db =
      { db with
        spec_hierarchy := hs.foldl
          (fun t h => insRepBy SQLiteAdapter.hierConflict t
            (SQLiteAdapter.hierRowOf spId h)) db.spec_hierarchy } := by
  induction hs generalizing db with
  | nil => simp
  | cons h hs ih =>
      simp only [List.foldl_cons, SQLiteAdapter.hierStep, ih]

/-- The specification fold of write: the specification table gets an INSERT
OR REPLACE pass, the hierarchy table a nested pass, nothing else moves. -/
theorem specStep_fold_char (specs : List Specification) (db : Db) :
    specs.foldl SQLiteAdapter.specStep db =
      { db with
        specification := specs.foldl
          (fun t sp => insRepBy SQLiteAdapter.specConflict t
            (SQLiteAdapter.specRowOf sp)) db.specification
        spec_hierarchy := specs.foldl
          (fun t sp => sp.spec_hierarchies.foldl
            (fun t2 h => insRepBy SQLiteAdapter.hierConflict t2
              (SQLiteAdapter.hierRowOf sp.identifier h)) t)
          db.spec_hierarchy } := by
  induction specs generalizing db with
  | nil => simp
  | cons sp sps ih =>
      simp only [List.foldl_cons, SQLiteAdapter.specStep, hierStep_fold_char, ih]

/-- The enum-value fold of write only passes over the enum_value table. -/
theorem enumStep_fold_char (evs : List EnumValue) (eid : Option String)
    (db : Db) :
    evs.foldl (SQLiteAdapter.enumStep eid) db =
      { db with
        enum_value := evs.foldl
          (fun t ev => insRepBy SQLiteAdapter.enumConflict t
            (SQLiteAdapter.enumRowOf eid ev)) db.enum_value } := by
  induction evs generalizing db with
  | nil => simp
  | cons ev evs ih =>
      simp only [List.foldl_cons, SQLiteAdapter.enumStep, ih]

/-- A fold over a concatenation-of-maps equals the nested fold. -/
theorem foldl_flatMap {α β γ : Type} (f : γ → List β) (g : α → β → α)
    (l : List γ) (init : α) :
    (l.flatMap f).foldl g init = l.foldl (fun a c => (f c).foldl g a) init := by
  induction l generalizing init with
  | nil => simp
  | cons c cs ih => simp [List.flatMap_cons, List.foldl_append, ih]

/-- SQLiteAdapter.write equals its per-table characterization. -/
theorem write_eq_writeChar (r : ReqIF) (db : Db) :
    SQLiteAdapter.write r db = SQLiteAdapter.writeChar r db := by
  obtain ⟨hd, ⟨⟨⟨dx, de, dbo, dda, din, dre, dst⟩, objs, specs⟩⟩, tool⟩ := r
  cases dx <;> cases de <;> cases dbo <;> cases dda <;> cases din <;>
    cases dre <;> cases dst <;> cases tool <;>
    simp only [SQLiteAdapter.write, SQLiteAdapter.writeChar,
      SQLiteAdapter.allAttrRows, objStep_fold_char, specStep_fold_char,
      enumStep_fold_char, List.foldl_map, foldl_flatMap] <;>
    first
    | rfl
    | (split_ifs <;> rfl)

/-- SQL equality is reflexive exactly on non-NULL values. -/
theorem sqlEq_self (o : Option String) (h : o.isSome = true) :
    sqlEq o o = true := by
  cases o with
  | none => cases h
  | some s => simp [sqlEq]

/-- C4 counterexample: a second identical relational write grows the
spec-object attribute table (plain INSERT, no primary key), so the claim
that no table grows is false at this concrete document. -/
theorem c4_attr_table_grows :
    (SQLiteAdapter.write exampleDoc
        (SQLiteAdapter.write exampleDoc emptyDb)).spec_object_attribute.length
      = 2 ∧
    (SQLiteAdapter.write exampleDoc emptyDb).spec_object_attribute.length
      = 1 := by
  constructor <;> decide

/-- C4 amended: re-running write with the same document leaves every table
with a primary key unchanged — provided the written identifiers are present
(a NULL key never conflicts) — while the spec_object_attribute table grows
by the document's attribute rows on every run. -/
theorem c4_relational_write_idempotent_amended (r : ReqIF) (db : Db)
    (h : WriteKeysPresent r = true) :
    SQLiteAdapter.write r (SQLiteAdapter.write r db) =
      { SQLiteAdapter.write r db with
        spec_object_attribute :=
          (SQLiteAdapter.write r db).spec_object_attribute ++
            SQLiteAdapter.allAttrRows r } := by
  rw [write_eq_writeChar, write_eq_writeChar]
  obtain ⟨hd, ⟨⟨⟨dx, de, dbo, dda, din, dre, dst⟩, objs, specs⟩⟩, tool⟩ := r
  simp only [WriteKeysPresent, Bool.and_eq_true] at h
  obtain ⟨⟨⟨⟨⟨⟨⟨⟨⟨h1, h2⟩, h3⟩, h4⟩, h5⟩, h6⟩, h7⟩, h8⟩, h9⟩, h10⟩ := h
  simp only [SQLiteAdapter.writeChar, SQLiteAdapter.allAttrRows]
  simp only [Db.mk.injEq]
  refine ⟨?_, ?_, ?_, ?_, ?_, ?_, ?_, ?_, ?_, ?_, ?_, ?_, ?_, ?_⟩
  · exact insRepBy_idem _ _ _
      (by simpa [SQLiteAdapter.hdrConflict, SQLiteAdapter.hdrRowOf] using
        sqlEq_self _ h1)
  · cases dx with
    | none => rfl
    | some x =>
        exact insRepBy_idem _ _ _
          (by simpa [SQLiteAdapter.dt3Conflict] using sqlEq_self _ h2)
  · cases de with
    | none => rfl
    | some e =>
        simp only [Bool.and_eq_true] at h3
        exact insRepBy_idem _ _ _
          (by simpa [SQLiteAdapter.dt3Conflict] using sqlEq_self _ h3.1)
  · cases de with
    | none => rfl
    | some e =>
        simp only [Bool.and_eq_true, List.all_eq_true] at h3
        refine foldl_insRepBy_idem _ _ _ ?_
        intro row hrow
        obtain ⟨ev, hev, rfl⟩ := List.mem_map.mp hrow
        simpa [SQLiteAdapter.enumConflict, SQLiteAdapter.enumRowOf] using
          sqlEq_self _ (h3.2 ev hev)
  · cases dbo with
    | none => rfl
    | some b =>
        exact insRepBy_idem _ _ _
          (by simpa [SQLiteAdapter.dt2Conflict] using sqlEq_self _ h4)
  · cases dda with
    | none => rfl
    | some b =>
        exact insRepBy_idem _ _ _
          (by simpa [SQLiteAdapter.dt2Conflict] using sqlEq_self _ h5)
  · cases din with
    | none => rfl
    | some b =>
        exact insRepBy_idem _ _ _
          (by simpa [SQLiteAdapter.dt2Conflict] using sqlEq_self _ h6)
  · cases dre with
    | none => rfl
    | some b =>
        exact insRepBy_idem _ _ _
          (by simpa [SQLiteAdapter.dt2Conflict] using sqlEq_self _ h7)
  · cases dst with
    | none => rfl
    | some b =>
        exact insRepBy_idem _ _ _
          (by simpa [SQLiteAdapter.dt2Conflict] using sqlEq_self _ h8)
  · simp only [List.all_eq_true] at h9
    refine foldl_insRepBy_idem _ _ _ ?_
    intro row hrow
    obtain ⟨o, ho, rfl⟩ := List.mem_map.mp hrow
    simpa [SQLiteAdapter.objConflict, SQLiteAdapter.objRowOf] using
      sqlEq_self _ (h9 o ho)
  · trivial
  · simp only [List.all_eq_true] at h10
    refine foldl_insRepBy_idem _ _ _ ?_
    intro row hrow
    obtain ⟨sp, hsp, rfl⟩ := List.mem_map.mp hrow
    have := h10 sp hsp
    simp only [Bool.and_eq_true] at this
    simpa [SQLiteAdapter.specConflict, SQLiteAdapter.specRowOf] using
      sqlEq_self _ this.1
  · simp only [List.all_eq_true] at h10
    refine foldl_insRepBy_idem _ _ _ ?_
    intro row hrow
    obtain ⟨sp, hsp, hrow2⟩ := List.mem_flatMap.mp hrow
    obtain ⟨hr, hhr, rfl⟩ := List.mem_map.mp hrow2
    have := h10 sp hsp
    simp only [Bool.and_eq_true, List.all_eq_true] at this
    simpa [SQLiteAdapter.hierConflict, SQLiteAdapter.hierRowOf] using
      sqlEq_self _ (this.2 hr hhr)
  · cases tool with
    | none => rfl
    | some s =>
        by_cases hs : s = ""
        · simp [hs]
        · simp only [hs, if_false]
          exact insRepBy_idem _ _ _ rfl

/-- Witness for the amended C4 theorem at a concrete document and the
fresh store. -/
theorem c4_relational_write_idempotent_amended_witness :
    WriteKeysPresent exampleDoc = true ∧
    SQLiteAdapter.write exampleDoc (SQLiteAdapter.write exampleDoc emptyDb) =
      { SQLiteAdapter.write exampleDoc emptyDb with
        spec_object_attribute :=
          (SQLiteAdapter.write exampleDoc emptyDb).spec_object_attribute ++
            SQLiteAdapter.allAttrRows exampleDoc } :=
  ⟨by decide,
   c4_relational_write_idempotent_amended exampleDoc emptyDb (by decide)⟩

/-- C10: every entity file but header.csv is optional — with only a
well-formed header.csv present, read succeeds with every collection empty
and tool extensions unset — while an absent header.csv makes read fail
(the subscript on the empty row list raises IndexError). -/
theorem c10_optional_entity_files :
    (∀ fs : CsvFolder, csvGetFile fs "header.csv" = none →
        CSVAdapter.read fs = Except.error PyErr.indexError) ∧
    (∀ (i ctS rep tid ver sid ttl : String) (ct : PyDateTime),
        fromisoformat ctS = Except.ok ct →
        CSVAdapter.read
          [("header.csv",
            { fieldnames := ["identifier", "creation_time", "repository_id",
                "reqif_tool_id", "reqif_version", "source_tool_id", "title"]
              rows := [[("identifier", i), ("creation_time", ctS),
                ("repository_id", rep), ("reqif_tool_id", tid),
                ("reqif_version", ver), ("source_tool_id", sid),
                ("title", ttl)]] })] =
          Except.ok
            { header := ⟨some i, ct, some rep, some tid, some ver, some sid,
                some ttl⟩
              core_content := ⟨⟨{}, [], []⟩⟩
              tool_extensions := none }) := by
  constructor
  · intro fs h
    simp [CSVAdapter.read, CSVAdapter.read_csv, h]
  · intro i ctS rep tid ver sid ttl ct hct
    simp [CSVAdapter.read, CSVAdapter.readDataTypes, CSVAdapter.dtXhtmlStep,
      CSVAdapter.dtEnumStep, CSVAdapter.dtBooleanStep, CSVAdapter.dtDateStep,
      CSVAdapter.dtIntegerStep, CSVAdapter.dtRealStep, CSVAdapter.dtStringStep,
      CSVAdapter.read_csv, csvGetFile, rowGet, hct, Bind.bind, Except.bind,
      List.mapM, List.mapM.loop, pure, Except.pure]

/-- Witness for C10 at the empty folder and a concrete header file. -/
theorem c10_optional_entity_files_witness :
    CSVAdapter.read [] = Except.error PyErr.indexError ∧
    CSVAdapter.read
        [("header.csv",
          { fieldnames := ["identifier", "creation_time", "repository_id",
              "reqif_tool_id", "reqif_version", "source_tool_id", "title"]
            rows := [[("identifier", "h1"),
              ("creation_time", "2020-01-02T03:04:05"),
              ("repository_id", "r"), ("reqif_tool_id", "t"),
              ("reqif_version", "1.0"), ("source_tool_id", "s"),
              ("title", "T")]] })] =
      Except.ok
        { header := ⟨some "h1", ⟨2020, 1, 2, 3, 4, 5, 0, none⟩, some "r",
            some "t", some "1.0", some "s", some "T"⟩
          core_content := ⟨⟨{}, [], []⟩⟩
          tool_extensions := none } :=
  ⟨c10_optional_entity_files.1 [] rfl,
   c10_optional_entity_files.2 "h1" "2020-01-02T03:04:05" "r" "t" "1.0" "s"
     "T" ⟨2020, 1, 2, 3, 4, 5, 0, none⟩ (by decide)⟩

/-- File lookup distributes over folder concatenation. -/
theorem csvGetFile_append (l1 l2 : CsvFolder) (name : String) :
    csvGetFile (l1 ++ l2) name =
      (csvGetFile l1 name).or (csvGetFile l2 name) := by
  simp only [csvGetFile, List.find?_append]
  cases List.find? (fun p => p.1 = name) l1 <;> simp

/-- headerFiles holds no file of another name. -/
theorem headerFiles_skip (r : ReqIF) (name : String)
    (h : ¬ "header.csv" = name) :
    csvGetFile (CSVAdapter.headerFiles r) name = none := by
  simp [CSVAdapter.headerFiles, csvGetFile, h]

/-- xhtmlFiles holds no file of another name. -/
theorem xhtmlFiles_skip (dt : DataTypes) (name : String)
    (h : ¬ "datatype_xhtml.csv" = name) :
    csvGetFile (CSVAdapter.xhtmlFiles dt) name = none := by
  cases hx : dt.xhtml <;> simp [CSVAdapter.xhtmlFiles, csvGetFile, hx, h]

/-- enumFiles holds no file of another name. -/
theorem enumFiles_skip (dt : DataTypes) (name : String)
    (h1 : ¬ "datatype_enumeration.csv" = name) (h2 : ¬ "enum_value.csv" = name) :
    csvGetFile (CSVAdapter.enumFiles dt) name = none := by
  cases hx : dt.enumeration <;>
    simp [CSVAdapter.enumFiles, csvGetFile, hx, h1, h2]

/-- dt2Files holds no file of another name. -/
theorem dt2Files_skip (fname : String)
    (o : Option (Option String × Option String)) (name : String)
    (h : ¬ fname = name) :
    csvGetFile (CSVAdapter.dt2Files fname o) name = none := by
  cases o <;> simp [CSVAdapter.dt2Files, csvGetFile, h]

/-- Lookup of header.csv over a written folder. -/
theorem rcw_header (r : ReqIF) :
    CSVAdapter.read_csv (CSVAdapter.write r) "header.csv" =
      [CSVAdapter.headerRow r.header] := by
  simp only [CSVAdapter.read_csv, CSVAdapter.write, csvGetFile_append]
  rw [xhtmlFiles_skip _ _ (by decide),
    enumFiles_skip _ _ (by decide) (by decide),
    dt2Files_skip "datatype_boolean.csv" _ _ (by decide),
    dt2Files_skip "datatype_date.csv" _ _ (by decide),
    dt2Files_skip "datatype_integer.csv" _ _ (by decide),
    dt2Files_skip "datatype_real.csv" _ _ (by decide),
    dt2Files_skip "datatype_string.csv" _ _ (by decide)]
  simp [CSVAdapter.headerFiles, csvGetFile]

/-- Lookup of datatype_xhtml.csv over a written folder. -/
theorem rcw_xhtml (r : ReqIF) :
    CSVAdapter.read_csv (CSVAdapter.write r) "datatype_xhtml.csv" =
      (match r.core_content.reqif_content.data_types.xhtml with
       | some x => [[("identifier", optCell x.identifier),
           ("last_change", lastChangeCell x.last_change),
           ("long_name", optCell x.long_name)]]
       | none => []) := by
  simp only [CSVAdapter.read_csv, CSVAdapter.write, csvGetFile_append]
  rw [headerFiles_skip _ _ (by decide),
    enumFiles_skip _ _ (by decide) (by decide),
    dt2Files_skip "datatype_boolean.csv" _ _ (by decide),
    dt2Files_skip "datatype_date.csv" _ _ (by decide),
    dt2Files_skip "datatype_integer.csv" _ _ (by decide),
    dt2Files_skip "datatype_real.csv" _ _ (by decide),
    dt2Files_skip "datatype_string.csv" _ _ (by decide)]
  cases hx : r.core_content.reqif_content.data_types.xhtml <;>
    simp [CSVAdapter.xhtmlFiles, CSVAdapter.mainFiles, csvGetFile, hx]

/-- Lookup of datatype_enumeration.csv over a written folder. -/
theorem rcw_enum_def (r : ReqIF) :
    CSVAdapter.read_csv (CSVAdapter.write r) "datatype_enumeration.csv" =
      (match r.core_content.reqif_content.data_types.enumeration with
       | some e => [[("identifier", optCell e.identifier),
           ("last_change", lastChangeCell e.last_change),
           ("long_name", optCell e.long_name)]]
       | none => []) := by
  simp only [CSVAdapter.read_csv, CSVAdapter.write, csvGetFile_append]
  rw [headerFiles_skip _ _ (by decide),
    xhtmlFiles_skip _ _ (by decide),
    dt2Files_skip "datatype_boolean.csv" _ _ (by decide),
    dt2Files_skip "datatype_date.csv" _ _ (by decide),
    dt2Files_skip "datatype_integer.csv" _ _ (by decide),
    dt2Files_skip "datatype_real.csv" _ _ (by decide),
    dt2Files_skip "datatype_string.csv" _ _ (by decide)]
  cases hx : r.core_content.reqif_content.data_types.enumeration <;>
    simp [CSVAdapter.enumFiles, CSVAdapter.mainFiles, csvGetFile, hx]

/-- Lookup of enum_value.csv over a written folder. -/
theorem rcw_enum_value (r : ReqIF) :
    CSVAdapter.read_csv (CSVAdapter.write r) "enum_value.csv" =
      (match r.core_content.reqif_content.data_types.enumeration with
       | some e => e.enum_values.map (CSVAdapter.enumValueRow e.identifier)
       | none => []) := by
  simp only [CSVAdapter.read_csv, CSVAdapter.write, csvGetFile_append]
  rw [headerFiles_skip _ _ (by decide),
    xhtmlFiles_skip _ _ (by decide),
    dt2Files_skip "datatype_boolean.csv" _ _ (by decide),
    dt2Files_skip "datatype_date.csv" _ _ (by decide),
    dt2Files_skip "datatype_integer.csv" _ _ (by decide),
    dt2Files_skip "datatype_real.csv" _ _ (by decide),
    dt2Files_skip "datatype_string.csv" _ _ (by decide)]
  cases hx : r.core_content.reqif_content.data_types.enumeration <;>
    simp [CSVAdapter.enumFiles, CSVAdapter.mainFiles, csvGetFile, hx]

/-- Lookup of datatype_boolean.csv over a written folder. -/
theorem rcw_dt_boolean (r : ReqIF) :
    CSVAdapter.read_csv (CSVAdapter.write r) "datatype_boolean.csv" =
      (match r.core_content.reqif_content.data_types.boolean with
       | some b => [[("identifier", optCell b.identifier),
           ("long_name", optCell b.long_name)]]
       | none => []) := by
  simp only [CSVAdapter.read_csv, CSVAdapter.write, csvGetFile_append]
  rw [headerFiles_skip _ _ (by decide),
    xhtmlFiles_skip _ _ (by decide),
    enumFiles_skip _ _ (by decide) (by decide),
    dt2Files_skip "datatype_date.csv" _ _ (by decide),
    dt2Files_skip "datatype_integer.csv" _ _ (by decide),
    dt2Files_skip "datatype_real.csv" _ _ (by decide),
    dt2Files_skip "datatype_string.csv" _ _ (by decide)]
  cases hx : r.core_content.reqif_content.data_types.boolean <;>
    simp [CSVAdapter.dt2Files, CSVAdapter.mainFiles, csvGetFile, hx]

/-- Lookup of datatype_date.csv over a written folder. -/
theorem rcw_dt_date (r : ReqIF) :
    CSVAdapter.read_csv (CSVAdapter.write r) "datatype_date.csv" =
      (match r.core_content.reqif_content.data_types.date with
       | some b => [[("identifier", optCell b.identifier),
           ("long_name", optCell b.long_name)]]
       | none => []) := by
  simp only [CSVAdapter.read_csv, CSVAdapter.write, csvGetFile_append]
  rw [headerFiles_skip _ _ (by decide),
    xhtmlFiles_skip _ _ (by decide),
    enumFiles_skip _ _ (by decide) (by decide),
    dt2Files_skip "datatype_boolean.csv" _ _ (by decide),
    dt2Files_skip "datatype_integer.csv" _ _ (by decide),
    dt2Files_skip "datatype_real.csv" _ _ (by decide),
    dt2Files_skip "datatype_string.csv" _ _ (by decide)]
  cases hx : r.core_content.reqif_content.data_types.date <;>
    simp [CSVAdapter.dt2Files, CSVAdapter.mainFiles, csvGetFile, hx]

/-- Lookup of datatype_integer.csv over a written folder. -/
theorem rcw_dt_integer (r : ReqIF) :
    CSVAdapter.read_csv (CSVAdapter.write r) "datatype_integer.csv" =
      (match r.core_content.reqif_content.data_types.integer with
       | some b => [[("identifier", optCell b.identifier),
           ("long_name", optCell b.long_name)]]
       | none => []) := by
  simp only [CSVAdapter.read_csv, CSVAdapter.write, csvGetFile_append]
  rw [headerFiles_skip _ _ (by decide),
    xhtmlFiles_skip _ _ (by decide),
    enumFiles_skip _ _ (by decide) (by decide),
    dt2Files_skip "datatype_boolean.csv" _ _ (by decide),
    dt2Files_skip "datatype_date.csv" _ _ (by decide),
    dt2Files_skip "datatype_real.csv" _ _ (by decide),
    dt2Files_skip "datatype_string.csv" _ _ (by decide)]
  cases hx : r.core_content.reqif_content.data_types.integer <;>
    simp [CSVAdapter.dt2Files, CSVAdapter.mainFiles, csvGetFile, hx]

/-- Lookup of datatype_real.csv over a written folder. -/
theorem rcw_dt_real (r : ReqIF) :
    CSVAdapter.read_csv (CSVAdapter.write r) "datatype_real.csv" =
      (match r.core_content.reqif_content.data_types.real with
       | some b => [[("identifier", optCell b.identifier),
           ("long_name", optCell b.long_name)]]
       | none => []) := by
  simp only [CSVAdapter.read_csv, CSVAdapter.write, csvGetFile_append]
  rw [headerFiles_skip _ _ (by decide),
    xhtmlFiles_skip _ _ (by decide),
    enumFiles_skip _ _ (by decide) (by decide),
    dt2Files_skip "datatype_boolean.csv" _ _ (by decide),
    dt2Files_skip "datatype_date.csv" _ _ (by decide),
    dt2Files_skip "datatype_integer.csv" _ _ (by decide),
    dt2Files_skip "datatype_string.csv" _ _ (by decide)]
  cases hx : r.core_content.reqif_content.data_types.real <;>
    simp [CSVAdapter.dt2Files, CSVAdapter.mainFiles, csvGetFile, hx]

/-- Lookup of datatype_string.csv over a written folder. -/
theorem rcw_dt_string (r : ReqIF) :
    CSVAdapter.read_csv (CSVAdapter.write r) "datatype_string.csv" =
      (match r.core_content.reqif_content.data_types.string with
       | some b => [[("identifier", optCell b.identifier),
           ("long_name", optCell b.long_name)]]
       | none => []) := by
  simp only [CSVAdapter.read_csv, CSVAdapter.write, csvGetFile_append]
  rw [headerFiles_skip _ _ (by decide),
    xhtmlFiles_skip _ _ (by decide),
    enumFiles_skip _ _ (by decide) (by decide),
    dt2Files_skip "datatype_boolean.csv" _ _ (by decide),
    dt2Files_skip "datatype_date.csv" _ _ (by decide),
    dt2Files_skip "datatype_integer.csv" _ _ (by decide),
    dt2Files_skip "datatype_real.csv" _ _ (by decide)]
  cases hx : r.core_content.reqif_content.data_types.string <;>
    simp [CSVAdapter.dt2Files, CSVAdapter.mainFiles, csvGetFile, hx]

/-- Lookup of spec_object.csv over a written folder. -/
theorem rcw_spec_object (r : ReqIF) :
    CSVAdapter.read_csv (CSVAdapter.write r) "spec_object.csv" =
      r.core_content.reqif_content.spec_objects.map CSVAdapter.specObjectRow := by
  simp only [CSVAdapter.read_csv, CSVAdapter.write, csvGetFile_append]
  rw [headerFiles_skip _ _ (by decide),
    xhtmlFiles_skip _ _ (by decide),
    enumFiles_skip _ _ (by decide) (by decide),
    dt2Files_skip "datatype_boolean.csv" _ _ (by decide),
    dt2Files_skip "datatype_date.csv" _ _ (by decide),
    dt2Files_skip "datatype_integer.csv" _ _ (by decide),
    dt2Files_skip "datatype_real.csv" _ _ (by decide),
    dt2Files_skip "datatype_string.csv" _ _ (by decide)]
  simp [CSVAdapter.mainFiles, csvGetFile]

/-- Lookup of spec_object_attribute.csv over a written folder. -/
theorem rcw_spec_object_attribute (r : ReqIF) :
    CSVAdapter.read_csv (CSVAdapter.write r) "spec_object_attribute.csv" =
      r.core_content.reqif_content.spec_objects.flatMap
        (fun o => o.attributes.map (CSVAdapter.specObjectAttrRow o.identifier)) := by
  simp only [CSVAdapter.read_csv, CSVAdapter.write, csvGetFile_append]
  rw [headerFiles_skip _ _ (by decide),
    xhtmlFiles_skip _ _ (by decide),
    enumFiles_skip _ _ (by decide) (by decide),
    dt2Files_skip "datatype_boolean.csv" _ _ (by decide),
    dt2Files_skip "datatype_date.csv" _ _ (by decide),
    dt2Files_skip "datatype_integer.csv" _ _ (by decide),
    dt2Files_skip "datatype_real.csv" _ _ (by decide),
    dt2Files_skip "datatype_string.csv" _ _ (by decide)]
  simp [CSVAdapter.mainFiles, csvGetFile]

/-- Lookup of specification.csv over a written folder. -/
theorem rcw_specification (r : ReqIF) :
    CSVAdapter.read_csv (CSVAdapter.write r) "specification.csv" =
      r.core_content.reqif_content.specifications.map CSVAdapter.specificationRow := by
  simp only [CSVAdapter.read_csv, CSVAdapter.write, csvGetFile_append]
  rw [headerFiles_skip _ _ (by decide),
    xhtmlFiles_skip _ _ (by decide),
    enumFiles_skip _ _ (by decide) (by decide),
    dt2Files_skip "datatype_boolean.csv" _ _ (by decide),
    dt2Files_skip "datatype_date.csv" _ _ (by decide),
    dt2Files_skip "datatype_integer.csv" _ _ (by decide),
    dt2Files_skip "datatype_real.csv" _ _ (by decide),
    dt2Files_skip "datatype_string.csv" _ _ (by decide)]
  simp [CSVAdapter.mainFiles, csvGetFile]

/-- Lookup of spec_hierarchy.csv over a written folder. -/
theorem rcw_spec_hierarchy (r : ReqIF) :
    CSVAdapter.read_csv (CSVAdapter.write r) "spec_hierarchy.csv" =
      r.core_content.reqif_content.specifications.flatMap
        (fun sp => sp.spec_hierarchies.map
          (CSVAdapter.specHierarchyRow sp.identifier)) := by
  simp only [CSVAdapter.read_csv, CSVAdapter.write, csvGetFile_append]
  rw [headerFiles_skip _ _ (by decide),
    xhtmlFiles_skip _ _ (by decide),
    enumFiles_skip _ _ (by decide) (by decide),
    dt2Files_skip "datatype_boolean.csv" _ _ (by decide),
    dt2Files_skip "datatype_date.csv" _ _ (by decide),
    dt2Files_skip "datatype_integer.csv" _ _ (by decide),
    dt2Files_skip "datatype_real.csv" _ _ (by decide),
    dt2Files_skip "datatype_string.csv" _ _ (by decide)]
  simp [CSVAdapter.mainFiles, csvGetFile]

/-- Lookup of tool_extensions.csv over a written folder. -/
theorem rcw_tool_extensions (r : ReqIF) :
    CSVAdapter.read_csv (CSVAdapter.write r) "tool_extensions.csv" =
      [[("id", "1"), ("content", optCell r.tool_extensions)]] := by
  simp only [CSVAdapter.read_csv, CSVAdapter.write, csvGetFile_append]
  rw [headerFiles_skip _ _ (by decide),
    xhtmlFiles_skip _ _ (by decide),
    enumFiles_skip _ _ (by decide) (by decide),
    dt2Files_skip "datatype_boolean.csv" _ _ (by decide),
    dt2Files_skip "datatype_date.csv" _ _ (by decide),
    dt2Files_skip "datatype_integer.csv" _ _ (by decide),
    dt2Files_skip "datatype_real.csv" _ _ (by decide),
    dt2Files_skip "datatype_string.csv" _ _ (by decide)]
  simp [CSVAdapter.mainFiles, csvGetFile]

/-- A None-free cell comes back as the original optional value. -/
theorem optCell_of_isSome (o : Option String) (h : o.isSome = true) :
    some (optCell o) = o := by
  cases o
  · cases h
  · rfl

/-- The empty string is not a parsable timestamp. -/
theorem fromisoformat_empty :
    fromisoformat "" = Except.error PyErr.valueError := by decide

/-- Reading back a written last-change cell restores the value whenever the
timestamp survives the isoformat round trip. -/
theorem parseOptDate_lastChangeCell (lc : Option PyDateTime)
    (h : lcOk lc = true) : parseOptDate (lastChangeCell lc) = Except.ok lc := by
  cases lc with
  | none => rfl
  | some t =>
      simp only [lcOk, dtRT, decide_eq_true_eq] at h
      simp only [lastChangeCell, parseOptDate]
      by_cases he : isoformatAuto t = ""
      · rw [he, fromisoformat_empty] at h
        cases h
      · rw [if_neg he, h]
        rfl

/-- One matching enum-value row reconstructs the original enum value. -/
theorem enumValueStep_accept (eid : Option String) (ev : EnumValue)
    (acc : List EnumValue) (h : evReady ev = true) :
    CSVAdapter.enumValueStep (optCell eid) acc
      (CSVAdapter.enumValueRow eid ev) = Except.ok (acc ++ [ev]) := by
  simp only [evReady, Bool.and_eq_true] at h
  obtain ⟨⟨⟨⟨hid, hln⟩, hk⟩, hoc⟩, hlc⟩ := h
  simp [CSVAdapter.enumValueStep, CSVAdapter.enumValueRow, rowGet,
    parseOptDate_lastChangeCell _ hlc, optCell_of_isSome _ hid,
    optCell_of_isSome _ hln, optCell_of_isSome _ hk, optCell_of_isSome _ hoc,
    Bind.bind, Except.bind, pure, Except.pure]

/-- The enum-value loop over the written rows restores the whole list. -/
theorem enumValueStep_map (eid : Option String) (evs : List EnumValue)
    (acc : List EnumValue) (h : evs.all evReady = true) :
    List.foldlM (CSVAdapter.enumValueStep (optCell eid)) acc
      (evs.map (CSVAdapter.enumValueRow eid)) = Except.ok (acc ++ evs) := by
  induction evs generalizing acc with
  | nil => simp [List.foldlM, pure, Except.pure]
  | cons ev evs ih =>
      simp only [List.all_cons, Bool.and_eq_true] at h
      simp only [List.map_cons, List.foldlM_cons,
        enumValueStep_accept eid ev acc h.1]
      rw [show ∀ x : List EnumValue,
          (Except.ok x : Except PyErr (List EnumValue)) >>= (fun y =>
            List.foldlM (CSVAdapter.enumValueStep (optCell eid)) y
              (evs.map (CSVAdapter.enumValueRow eid))) =
          List.foldlM (CSVAdapter.enumValueStep (optCell eid)) x
            (evs.map (CSVAdapter.enumValueRow eid)) from fun x => rfl]
      rw [ih _ h.2]
      simp

/-- One matching attribute row reconstructs the original attribute. -/
theorem objAttrStep_accept (oid : Option String) (a : AttributeValue)
    (acc : List AttributeValue) (h : attrReady a = true) :
    CSVAdapter.objAttrStep (optCell oid) acc
      (CSVAdapter.specObjectAttrRow oid a) = Except.ok (acc ++ [a]) := by
  simp only [attrReady, Bool.and_eq_true] at h
  simp [CSVAdapter.objAttrStep, CSVAdapter.specObjectAttrRow, rowGet,
    optCell_of_isSome _ h.1, optCell_of_isSome _ h.2,
    Bind.bind, Except.bind, pure, Except.pure]

/-- The attribute loop over one object's written rows appends exactly that
object's attributes. -/
theorem objAttrStep_accept_map (oid : Option String)
    (attrs : List AttributeValue) (acc : List AttributeValue)
    (h : attrs.all attrReady = true) :
    List.foldlM (CSVAdapter.objAttrStep (optCell oid)) acc
      (attrs.map (CSVAdapter.specObjectAttrRow oid)) =
      Except.ok (acc ++ attrs) := by
  induction attrs generalizing acc with
  | nil => simp [List.foldlM, pure, Except.pure]
  | cons a as ih =>
      simp only [List.all_cons, Bool.and_eq_true] at h
      simp only [List.map_cons, List.foldlM_cons,
        objAttrStep_accept oid a acc h.1]
      rw [show ∀ x : List AttributeValue,
          (Except.ok x : Except PyErr (List AttributeValue)) >>= (fun y =>
            List.foldlM (CSVAdapter.objAttrStep (optCell oid)) y
              (as.map (CSVAdapter.specObjectAttrRow oid))) =
          List.foldlM (CSVAdapter.objAttrStep (optCell oid)) x
            (as.map (CSVAdapter.specObjectAttrRow oid)) from fun x => rfl]
      rw [ih _ h.2]
      simp

/-- Attribute rows of another object are skipped. -/
theorem objAttrStep_skip_map (s : String) (oid : Option String)
    (attrs : List AttributeValue) (acc : List AttributeValue)
    (h : ¬ optCell oid = s) :
    List.foldlM (CSVAdapter.objAttrStep s) acc
      (attrs.map (CSVAdapter.specObjectAttrRow oid)) = Except.ok acc := by
  induction attrs generalizing acc with
  | nil => simp [List.foldlM, pure, Except.pure]
  | cons a as ih =>
      simp only [List.map_cons, List.foldlM_cons]
      rw [show CSVAdapter.objAttrStep s acc (CSVAdapter.specObjectAttrRow oid a)
          = Except.ok acc from by
        simp [CSVAdapter.objAttrStep, CSVAdapter.specObjectAttrRow, rowGet, h,
          Bind.bind, Except.bind, pure, Except.pure]]
      exact ih acc

/-- Attribute rows of a whole group of other objects are skipped. -/
theorem objAttrStep_skip_flatMap (s : String) (xs : List SpecObject)
    (acc : List AttributeValue)
    (h : ∀ x ∈ xs, ¬ optCell x.identifier = s) :
    List.foldlM (CSVAdapter.objAttrStep s) acc
      (xs.flatMap (fun x => x.attributes.map
        (CSVAdapter.specObjectAttrRow x.identifier))) = Except.ok acc := by
  induction xs generalizing acc with
  | nil => simp [List.foldlM, pure, Except.pure]
  | cons x xs ih =>
      simp only [List.flatMap_cons, List.foldlM_append]
      rw [objAttrStep_skip_map _ _ _ _ (h x (List.mem_cons_self x xs))]
      rw [show ∀ y : List AttributeValue,
          (Except.ok y : Except PyErr (List AttributeValue)) >>= (fun z =>
            List.foldlM (CSVAdapter.objAttrStep s) z
              (xs.flatMap (fun v => v.attributes.map
                (CSVAdapter.specObjectAttrRow v.identifier)))) =
          List.foldlM (CSVAdapter.objAttrStep s) y
            (xs.flatMap (fun v => v.attributes.map
              (CSVAdapter.specObjectAttrRow v.identifier))) from fun y => rfl]
      exact ih acc (fun y hy => h y (List.mem_cons_of_mem x hy))

/-- The attribute reconstruction for one object over the whole written
attribute file yields exactly that object's attributes, given distinct
object identifier cells. -/
theorem readObjAttrs_flatMap (objs : List SpecObject) (o : SpecObject)
    (hmem : o ∈ objs)
    (hnd : (objs.map (fun x => optCell x.identifier)).Nodup)
    (hready : objs.all objReady = true) :
    CSVAdapter.readObjAttrs
      (objs.flatMap (fun x => x.attributes.map
        (CSVAdapter.specObjectAttrRow x.identifier)))
      (optCell o.identifier) = Except.ok o.attributes := by
  have haux : ∀ acc, List.foldlM
      (CSVAdapter.objAttrStep (optCell o.identifier)) acc
      (objs.flatMap (fun x => x.attributes.map
        (CSVAdapter.specObjectAttrRow x.identifier))) =
      Except.ok (acc ++ o.attributes) := by
    induction objs with
    | nil => cases hmem
    | cons x xs ih =>
        intro acc
        simp only [List.map_cons, List.nodup_cons] at hnd
        simp only [List.all_cons, Bool.and_eq_true] at hready
        simp only [List.flatMap_cons, List.foldlM_append]
        rcases List.mem_cons.mp hmem with rfl | hmem2
        · rw [objAttrStep_accept_map _ _ _ (by
            simp only [objReady, Bool.and_eq_true] at hready
            exact hready.1.2)]
          rw [show ∀ y : List AttributeValue,
              (Except.ok y : Except PyErr (List AttributeValue)) >>= (fun z =>
                List.foldlM (CSVAdapter.objAttrStep (optCell o.identifier)) z
                  (xs.flatMap (fun v => v.attributes.map
                    (CSVAdapter.specObjectAttrRow v.identifier)))) =
              List.foldlM (CSVAdapter.objAttrStep (optCell o.identifier)) y
                (xs.flatMap (fun v => v.attributes.map
                  (CSVAdapter.specObjectAttrRow v.identifier)))
              from fun y => rfl]
          exact objAttrStep_skip_flatMap _ _ _ (fun y hy heq => hnd.1
            (heq ▸ List.mem_map_of_mem (fun v => optCell v.identifier) hy))
        · rw [objAttrStep_skip_map _ _ _ _ (fun heq => hnd.1
            (heq ▸ List.mem_map_of_mem (fun v => optCell v.identifier) hmem2))]
          rw [show ∀ y : List AttributeValue,
              (Except.ok y : Except PyErr (List AttributeValue)) >>= (fun z =>
                List.foldlM (CSVAdapter.objAttrStep (optCell o.identifier)) z
                  (xs.flatMap (fun v => v.attributes.map
                    (CSVAdapter.specObjectAttrRow v.identifier)))) =
              List.foldlM (CSVAdapter.objAttrStep (optCell o.identifier)) y
                (xs.flatMap (fun v => v.attributes.map
                  (CSVAdapter.specObjectAttrRow v.identifier)))
              from fun y => rfl]
          exact ih hmem2 hnd.2 hready.2 acc
  simpa using haux []

/-- One matching hierarchy row reconstructs the original flat record. -/
theorem specHierStep_accept (sid : Option String) (hr : SpecHierarchy)
    (acc : List SpecHierarchy) (h : hierReady hr = true) :
    CSVAdapter.specHierStep (optCell sid) acc
      (CSVAdapter.specHierarchyRow sid hr) = Except.ok (acc ++ [hr]) := by
  simp only [hierReady, Bool.and_eq_true] at h
  obtain ⟨⟨⟨hid, hln⟩, hor⟩, hlc⟩ := h
  cases hed : hr.is_editable <;>
  · simp [CSVAdapter.specHierStep, CSVAdapter.specHierarchyRow, rowGet,
      parseOptDate_lastChangeCell _ hlc, optCell_of_isSome _ hid,
      optCell_of_isSome _ hln, optCell_of_isSome _ hor, hed,
      Bind.bind, Except.bind, pure, Except.pure]
    rw [← hed]

/-- The hierarchy loop over one specification's written rows appends
exactly that specification's records. -/
theorem specHierStep_accept_map (sid : Option String)
    (hs : List SpecHierarchy) (acc : List SpecHierarchy)
    (h : hs.all hierReady = true) :
    List.foldlM (CSVAdapter.specHierStep (optCell sid)) acc
      (hs.map (CSVAdapter.specHierarchyRow sid)) = Except.ok (acc ++ hs) := by
  induction hs generalizing acc with
  | nil => simp [List.foldlM, pure, Except.pure]
  | cons hr hs ih =>
      simp only [List.all_cons, Bool.and_eq_true] at h
      simp only [List.map_cons, List.foldlM_cons,
        specHierStep_accept sid hr acc h.1]
      rw [show ∀ x : List SpecHierarchy,
          (Except.ok x : Except PyErr (List SpecHierarchy)) >>= (fun y =>
            List.foldlM (CSVAdapter.specHierStep (optCell sid)) y
              (hs.map (CSVAdapter.specHierarchyRow sid))) =
          List.foldlM (CSVAdapter.specHierStep (optCell sid)) x
            (hs.map (CSVAdapter.specHierarchyRow sid)) from fun x => rfl]
      rw [ih _ h.2]
      simp

/-- Hierarchy rows of another specification are skipped. -/
theorem specHierStep_skip_map (s : String) (sid : Option String)
    (hs : List SpecHierarchy) (acc : List SpecHierarchy)
    (h : ¬ optCell sid = s) :
    List.foldlM (CSVAdapter.specHierStep s) acc
      (hs.map (CSVAdapter.specHierarchyRow sid)) = Except.ok acc := by
  induction hs generalizing acc with
  | nil => simp [List.foldlM, pure, Except.pure]
  | cons hr hs ih =>
      simp only [List.map_cons, List.foldlM_cons]
      rw [show CSVAdapter.specHierStep s acc
          (CSVAdapter.specHierarchyRow sid hr) = Except.ok acc from by
        simp [CSVAdapter.specHierStep, CSVAdapter.specHierarchyRow, rowGet, h,
          Bind.bind, Except.bind, pure, Except.pure]]
      exact ih acc

/-- Hierarchy rows of a whole group of other specifications are skipped. -/
theorem specHierStep_skip_flatMap (s : String) (xs : List Specification)
    (acc : List SpecHierarchy)
    (h : ∀ x ∈ xs, ¬ optCell x.identifier = s) :
    List.foldlM (CSVAdapter.specHierStep s) acc
      (xs.flatMap (fun x => x.spec_hierarchies.map
        (CSVAdapter.specHierarchyRow x.identifier))) = Except.ok acc := by
  induction xs generalizing acc with
  | nil => simp [List.foldlM, pure, Except.pure]
  | cons x xs ih =>
      simp only [List.flatMap_cons, List.foldlM_append]
      rw [specHierStep_skip_map _ _ _ _ (h x (List.mem_cons_self x xs))]
      rw [show ∀ y : List SpecHierarchy,
          (Except.ok y : Except PyErr (List SpecHierarchy)) >>= (fun z =>
            List.foldlM (CSVAdapter.specHierStep s) z
              (xs.flatMap (fun v => v.spec_hierarchies.map
                (CSVAdapter.specHierarchyRow v.identifier)))) =
          List.foldlM (CSVAdapter.specHierStep s) y
            (xs.flatMap (fun v => v.spec_hierarchies.map
              (CSVAdapter.specHierarchyRow v.identifier))) from fun y => rfl]
      exact ih acc (fun y hy => h y (List.mem_cons_of_mem x hy))

/-- The hierarchy reconstruction for one specification over the whole
written hierarchy file yields exactly that specification's flat records in
row order, given distinct specification identifier cells. -/
theorem readSpecHiers_flatMap (specs : List Specification)
    (sp : Specification) (hmem : sp ∈ specs)
    (hnd : (specs.map (fun x => optCell x.identifier)).Nodup)
    (hready : specs.all specReady = true) :
    CSVAdapter.readSpecHiers
      (specs.flatMap (fun x => x.spec_hierarchies.map
        (CSVAdapter.specHierarchyRow x.identifier)))
      (optCell sp.identifier) = Except.ok sp.spec_hierarchies := by
  have haux : ∀ acc, List.foldlM
      (CSVAdapter.specHierStep (optCell sp.identifier)) acc
      (specs.flatMap (fun x => x.spec_hierarchies.map
        (CSVAdapter.specHierarchyRow x.identifier))) =
      Except.ok (acc ++ sp.spec_hierarchies) := by
    induction specs with
    | nil => cases hmem
    | cons x xs ih =>
        intro acc
        simp only [List.map_cons, List.nodup_cons] at hnd
        simp only [List.all_cons, Bool.and_eq_true] at hready
        simp only [List.flatMap_cons, List.foldlM_append]
        rcases List.mem_cons.mp hmem with rfl | hmem2
        · rw [specHierStep_accept_map _ _ _ (by
            simp only [specReady, Bool.and_eq_true] at hready
            exact hready.1.2)]
          rw [show ∀ y : List SpecHierarchy,
              (Except.ok y : Except PyErr (List SpecHierarchy)) >>= (fun z =>
                List.foldlM (CSVAdapter.specHierStep (optCell sp.identifier)) z
                  (xs.flatMap (fun v => v.spec_hierarchies.map
                    (CSVAdapter.specHierarchyRow v.identifier)))) =
              List.foldlM (CSVAdapter.specHierStep (optCell sp.identifier)) y
                (xs.flatMap (fun v => v.spec_hierarchies.map
                  (CSVAdapter.specHierarchyRow v.identifier)))
              from fun y => rfl]
          exact specHierStep_skip_flatMap _ _ _ (fun y hy heq => hnd.1
            (heq ▸ List.mem_map_of_mem (fun v => optCell v.identifier) hy))
        · rw [specHierStep_skip_map _ _ _ _ (fun heq => hnd.1
            (heq ▸ List.mem_map_of_mem (fun v => optCell v.identifier) hmem2))]
          rw [show ∀ y : List SpecHierarchy,
              (Except.ok y : Except PyErr (List SpecHierarchy)) >>= (fun z =>
                List.foldlM (CSVAdapter.specHierStep (optCell sp.identifier)) z
                  (xs.flatMap (fun v => v.spec_hierarchies.map
                    (CSVAdapter.specHierarchyRow v.identifier)))) =
              List.foldlM (CSVAdapter.specHierStep (optCell sp.identifier)) y
                (xs.flatMap (fun v => v.spec_hierarchies.map
                  (CSVAdapter.specHierarchyRow v.identifier)))
              from fun y => rfl]
          exact ih hmem2 hnd.2 hready.2 acc
  simpa using haux []

/-- The xhtml stage over a written folder restores the xhtml variant. -/
theorem dtXhtmlStep_write (r : ReqIF) (dt0 : DataTypes)
    (hd : dt0.xhtml = none) (h : dtReady r.core_content.reqif_content.data_types = true) :
    CSVAdapter.dtXhtmlStep (CSVAdapter.write r) dt0 = Except.ok
      { dt0 with xhtml := r.core_content.reqif_content.data_types.xhtml } := by
  simp only [dtReady, Bool.and_eq_true] at h
  obtain ⟨⟨⟨⟨⟨⟨h1, h2⟩, h3⟩, h4⟩, h5⟩, h6⟩, h7⟩ := h
  simp only [CSVAdapter.dtXhtmlStep, rcw_xhtml]
  cases hx : r.core_content.reqif_content.data_types.xhtml with
  | none =>
      conv_rhs => rw [← hd]
  | some x =>
      rw [hx] at h1
      simp only [Bool.and_eq_true] at h1
      obtain ⟨⟨hid, hln⟩, hlc⟩ := h1
      simp [rowGet, parseOptDate_lastChangeCell _ hlc,
        optCell_of_isSome _ hid, optCell_of_isSome _ hln,
        Bind.bind, Except.bind, pure, Except.pure]

/-- The enumeration stage over a written folder restores the enumeration
variant together with its enum values. -/
theorem dtEnumStep_write (r : ReqIF) (dt0 : DataTypes)
    (hd : dt0.enumeration = none) (h : dtReady r.core_content.reqif_content.data_types = true) :
    CSVAdapter.dtEnumStep (CSVAdapter.write r) dt0 = Except.ok
      { dt0 with enumeration :=
          r.core_content.reqif_content.data_types.enumeration } := by
  simp only [dtReady, Bool.and_eq_true] at h
  obtain ⟨⟨⟨⟨⟨⟨h1, h2⟩, h3⟩, h4⟩, h5⟩, h6⟩, h7⟩ := h
  simp only [CSVAdapter.dtEnumStep, rcw_enum_def, rcw_enum_value]
  cases hx : r.core_content.reqif_content.data_types.enumeration with
  | none =>
      conv_rhs => rw [← hd]
  | some e =>
      rw [hx] at h2
      simp only [Bool.and_eq_true] at h2
      obtain ⟨⟨⟨hid, hln⟩, hlc⟩, hevs⟩ := h2
      simp [rowGet, parseOptDate_lastChangeCell _ hlc,
        optCell_of_isSome _ hid, optCell_of_isSome _ hln,
        CSVAdapter.readEnumValues, enumValueStep_map e.identifier _ [] hevs,
        Bind.bind, Except.bind, pure, Except.pure]

/-- The boolean stage over a written folder restores the boolean variant. -/
theorem dtBooleanStep_write (r : ReqIF) (dt0 : DataTypes)
    (hd : dt0.boolean = none) (h : dtReady r.core_content.reqif_content.data_types = true) :
    CSVAdapter.dtBooleanStep (CSVAdapter.write r) dt0 = Except.ok
      { dt0 with boolean :=
          r.core_content.reqif_content.data_types.boolean } := by
  simp only [dtReady, Bool.and_eq_true] at h
  obtain ⟨⟨⟨⟨⟨⟨h1, h2⟩, h3⟩, h4⟩, h5⟩, h6⟩, h7⟩ := h
  simp only [CSVAdapter.dtBooleanStep, rcw_dt_boolean]
  cases hx : r.core_content.reqif_content.data_types.boolean with
  | none =>
      conv_rhs => rw [← hd]
  | some b =>
      rw [hx] at h3
      simp only [Bool.and_eq_true] at h3
      simp [rowGet, optCell_of_isSome _ h3.1, optCell_of_isSome _ h3.2,
        Bind.bind, Except.bind, pure, Except.pure]

/-- The date stage over a written folder restores the date variant. -/
theorem dtDateStep_write (r : ReqIF) (dt0 : DataTypes)
    (hd : dt0.date = none) (h : dtReady r.core_content.reqif_content.data_types = true) :
    CSVAdapter.dtDateStep (CSVAdapter.write r) dt0 = Except.ok
      { dt0 with date := r.core_content.reqif_content.data_types.date } := by
  simp only [dtReady, Bool.and_eq_true] at h
  obtain ⟨⟨⟨⟨⟨⟨h1, h2⟩, h3⟩, h4⟩, h5⟩, h6⟩, h7⟩ := h
  simp only [CSVAdapter.dtDateStep, rcw_dt_date]
  cases hx : r.core_content.reqif_content.data_types.date with
  | none =>
      conv_rhs => rw [← hd]
  | some b =>
      rw [hx] at h4
      simp only [Bool.and_eq_true] at h4
      simp [rowGet, optCell_of_isSome _ h4.1, optCell_of_isSome _ h4.2,
        Bind.bind, Except.bind, pure, Except.pure]

/-- The integer stage over a written folder restores the integer variant. -/
theorem dtIntegerStep_write (r : ReqIF) (dt0 : DataTypes)
    (hd : dt0.integer = none) (h : dtReady r.core_content.reqif_content.data_types = true) :
    CSVAdapter.dtIntegerStep (CSVAdapter.write r) dt0 = Except.ok
      { dt0 with integer :=
          r.core_content.reqif_content.data_types.integer } := by
  simp only [dtReady, Bool.and_eq_true] at h
  obtain ⟨⟨⟨⟨⟨⟨h1, h2⟩, h3⟩, h4⟩, h5⟩, h6⟩, h7⟩ := h
  simp only [CSVAdapter.dtIntegerStep, rcw_dt_integer]
  cases hx : r.core_content.reqif_content.data_types.integer with
  | none =>
      conv_rhs => rw [← hd]
  | some b =>
      rw [hx] at h5
      simp only [Bool.and_eq_true] at h5
      simp [rowGet, optCell_of_isSome _ h5.1, optCell_of_isSome _ h5.2,
        Bind.bind, Except.bind, pure, Except.pure]

/-- The real stage over a written folder restores the real variant. -/
theorem dtRealStep_write (r : ReqIF) (dt0 : DataTypes)
    (hd : dt0.real = none) (h : dtReady r.core_content.reqif_content.data_types = true) :
    CSVAdapter.dtRealStep (CSVAdapter.write r) dt0 = Except.ok
      { dt0 with real := r.core_content.reqif_content.data_types.real } := by
  simp only [dtReady, Bool.and_eq_true] at h
  obtain ⟨⟨⟨⟨⟨⟨h1, h2⟩, h3⟩, h4⟩, h5⟩, h6⟩, h7⟩ := h
  simp only [CSVAdapter.dtRealStep, rcw_dt_real]
  cases hx : r.core_content.reqif_content.data_types.real with
  | none =>
      conv_rhs => rw [← hd]
  | some b =>
      rw [hx] at h6
      simp only [Bool.and_eq_true] at h6
      simp [rowGet, optCell_of_isSome _ h6.1, optCell_of_isSome _ h6.2,
        Bind.bind, Except.bind, pure, Except.pure]

/-- The string stage over a written folder restores the string variant. -/
theorem dtStringStep_write (r : ReqIF) (dt0 : DataTypes)
    (hd : dt0.string = none) (h : dtReady r.core_content.reqif_content.data_types = true) :
    CSVAdapter.dtStringStep (CSVAdapter.write r) dt0 = Except.ok
      { dt0 with string :=
          r.core_content.reqif_content.data_types.string } := by
  simp only [dtReady, Bool.and_eq_true] at h
  obtain ⟨⟨⟨⟨⟨⟨h1, h2⟩, h3⟩, h4⟩, h5⟩, h6⟩, h7⟩ := h
  simp only [CSVAdapter.dtStringStep, rcw_dt_string]
  cases hx : r.core_content.reqif_content.data_types.string with
  | none =>
      conv_rhs => rw [← hd]
  | some b =>
      rw [hx] at h7
      simp only [Bool.and_eq_true] at h7
      simp [rowGet, optCell_of_isSome _ h7.1, optCell_of_isSome _ h7.2,
        Bind.bind, Except.bind, pure, Except.pure]

/-- The whole datatype chain over a written folder restores the catalog. -/
theorem readDataTypes_write (r : ReqIF)
    (h : dtReady r.core_content.reqif_content.data_types = true) :
    CSVAdapter.readDataTypes (CSVAdapter.write r) =
      Except.ok r.core_content.reqif_content.data_types := by
  simp only [CSVAdapter.readDataTypes]
  rw [dtXhtmlStep_write r _ rfl h]
  simp only [Bind.bind, Except.bind]
  rw [dtEnumStep_write r _ rfl h]
  simp only []
  rw [dtBooleanStep_write r _ rfl h]
  simp only []
  rw [dtDateStep_write r _ rfl h]
  simp only []
  rw [dtIntegerStep_write r _ rfl h]
  simp only []
  rw [dtRealStep_write r _ rfl h]
  simp only []
  rw [dtStringStep_write r _ rfl h]

/-- One written spec-object row, read back against the whole written
attribute file, reconstructs the original object. -/
theorem buildSpecObject_write (all : List SpecObject) (o : SpecObject)
    (hmem : o ∈ all)
    (hnd : (all.map (fun x => optCell x.identifier)).Nodup)
    (hready : all.all objReady = true) :
    CSVAdapter.buildSpecObject
      (all.flatMap (fun x => x.attributes.map
        (CSVAdapter.specObjectAttrRow x.identifier)))
      (CSVAdapter.specObjectRow o) = Except.ok o := by
  have hor : objReady o = true := List.all_eq_true.mp hready o hmem
  simp only [objReady, Bool.and_eq_true] at hor
  obtain ⟨⟨⟨⟨hid, hln⟩, htr⟩, hlc⟩, hattrs⟩ := hor
  simp [CSVAdapter.buildSpecObject, CSVAdapter.specObjectRow, rowGet,
    readObjAttrs_flatMap all o hmem hnd hready,
    parseOptDate_lastChangeCell _ hlc, optCell_of_isSome _ hid,
    optCell_of_isSome _ hln, optCell_of_isSome _ htr,
    Bind.bind, Except.bind, pure, Except.pure]

/-- The spec-object reconstruction over all written rows restores the
object list. -/
theorem mapM_buildSpecObject (all objs : List SpecObject)
    (hsub : ∀ x ∈ objs, x ∈ all)
    (hnd : (all.map (fun x => optCell x.identifier)).Nodup)
    (hready : all.all objReady = true) :
    (objs.map CSVAdapter.specObjectRow).mapM
      (CSVAdapter.buildSpecObject
        (all.flatMap (fun x => x.attributes.map
          (CSVAdapter.specObjectAttrRow x.identifier)))) = Except.ok objs := by
  induction objs with
  | nil => rfl
  | cons o os ih =>
      rw [List.map_cons, List.mapM_cons,
        buildSpecObject_write all o (hsub o (List.mem_cons_self o os)) hnd
          hready]
      simp only [Bind.bind, Except.bind]
      rw [ih (fun x hx => hsub x (List.mem_cons_of_mem o hx))]
      rfl

/-- One written specification row, read back against the whole written
hierarchy file, reconstructs the original specification. -/
theorem buildSpecification_write (all : List Specification)
    (sp : Specification) (hmem : sp ∈ all)
    (hnd : (all.map (fun x => optCell x.identifier)).Nodup)
    (hready : all.all specReady = true) :
    CSVAdapter.buildSpecification
      (all.flatMap (fun x => x.spec_hierarchies.map
        (CSVAdapter.specHierarchyRow x.identifier)))
      (CSVAdapter.specificationRow sp) = Except.ok sp := by
  have hor : specReady sp = true := List.all_eq_true.mp hready sp hmem
  simp only [specReady, Bool.and_eq_true] at hor
  obtain ⟨⟨⟨⟨hid, hln⟩, htr⟩, hlc⟩, hhiers⟩ := hor
  simp [CSVAdapter.buildSpecification, CSVAdapter.specificationRow, rowGet,
    readSpecHiers_flatMap all sp hmem hnd hready,
    parseOptDate_lastChangeCell _ hlc, optCell_of_isSome _ hid,
    optCell_of_isSome _ hln, optCell_of_isSome _ htr,
    Bind.bind, Except.bind, pure, Except.pure]

/-- The specification reconstruction over all written rows restores the
specification list with its flat hierarchy lists. -/
theorem mapM_buildSpecification (all specs : List Specification)
    (hsub : ∀ x ∈ specs, x ∈ all)
    (hnd : (all.map (fun x => optCell x.identifier)).Nodup)
    (hready : all.all specReady = true) :
    (specs.map CSVAdapter.specificationRow).mapM
      (CSVAdapter.buildSpecification
        (all.flatMap (fun x => x.spec_hierarchies.map
          (CSVAdapter.specHierarchyRow x.identifier)))) = Except.ok specs := by
  induction specs with
  | nil => rfl
  | cons sp sps ih =>
      rw [List.map_cons, List.mapM_cons,
        buildSpecification_write all sp (hsub sp (List.mem_cons_self sp sps))
          hnd hready]
      simp only [Bind.bind, Except.bind]
      rw [ih (fun x hx => hsub x (List.mem_cons_of_mem sp hx))]
      rfl

/-- The CSV folder round trip: reading back a written codec-ready document
restores it exactly, except that the tool-extensions cell comes back as a
present string (the None case having been written as the empty cell). -/
theorem csv_write_read_roundtrip (r : ReqIF) (h : CodecReady r = true) :
    CSVAdapter.read (CSVAdapter.write r) = Except.ok
      { r with tool_extensions := some (optCell r.tool_extensions) } := by
  simp only [CodecReady, Bool.and_eq_true] at h
  obtain ⟨⟨⟨⟨⟨⟨⟨⟨⟨⟨⟨h1, h2⟩, h3⟩, h4⟩, h5⟩, h6⟩, h7⟩, h8⟩, h9⟩, h10⟩,
    h11⟩, h12⟩ := h
  have hct : fromisoformat (isoformatAuto r.header.creation_time) =
      Except.ok r.header.creation_time := by
    simpa [dtRT] using h7
  have hnd1 : (r.core_content.reqif_content.spec_objects.map
      (fun o => optCell o.identifier)).Nodup := of_decide_eq_true h11
  have hnd2 : (r.core_content.reqif_content.specifications.map
      (fun sp => optCell sp.identifier)).Nodup := of_decide_eq_true h12
  simp only [CSVAdapter.read, rcw_header, rcw_spec_object,
    rcw_spec_object_attribute, rcw_specification, rcw_spec_hierarchy,
    rcw_tool_extensions]
  rw [mapM_buildSpecObject _ _ (fun x hx => hx) hnd1 h9,
    mapM_buildSpecification _ _ (fun x hx => hx) hnd2 h10]
  simp [CSVAdapter.headerRow, rowGet, hct, readDataTypes_write r h8,
    optCell_of_isSome _ h1, optCell_of_isSome _ h2, optCell_of_isSome _ h3,
    optCell_of_isSome _ h4, optCell_of_isSome _ h5, optCell_of_isSome _ h6,
    Bind.bind, Except.bind, pure, Except.pure]
  rfl

/-- An INSERT OR REPLACE pass into an empty table whose rows are pairwise
conflict-free inserts them all in order. -/
theorem foldl_insRepBy_nil_pairwise {α : Type} (conflict : α → α → Bool)
    (es : List α) (h : es.Pairwise (fun a b => conflict a b = false)) :
    es.foldl (insRepBy conflict) [] = es := by
  induction es with
  | nil => rfl
  | cons e es ih =>
      rw [List.pairwise_cons] at h
      simp only [List.foldl_cons]
      rw [show insRepBy conflict [] e = [e] ++ [] from by simp [insRepBy],
        foldl_insRepBy_append, ih h.2]
      have hall : es.all (fun y => !(conflict e y)) = true := by
        rw [List.all_eq_true]
        intro y hy
        rw [h.1 y hy]
        rfl
      simp [hall]

/-- Distinct written cells mean the underlying nullable values never
compare SQL-equal. -/
theorem sqlEq_false_of_cell_ne (p q : Option String)
    (h : ¬ optCell p = optCell q) : sqlEq p q = false := by
  cases p <;> cases q <;> simp [sqlEq, optCell] at h ⊢ <;> simp_all

/-- Rows whose identifier cells are distinct are pairwise free of primary
key conflicts. -/
theorem pairwise_sqlEq_false {α : Type} (f : α → Option String) (l : List α)
    (hnd : (l.map (fun x => optCell (f x))).Nodup) :
    l.Pairwise (fun a b => sqlEq (f a) (f b) = false) := by
  have hp := List.pairwise_map.mp hnd
  exact hp.imp (fun hab => sqlEq_false_of_cell_ne _ _ hab)

/-- Reading back a bound last-change column restores the value whenever the
timestamp survives the isoformat round trip. -/
theorem readOptDate_lastChangeSql (lc : Option PyDateTime)
    (h : lcOk lc = true) :
    SQLiteAdapter.readOptDate (lastChangeSql lc) = Except.ok lc := by
  cases lc with
  | none => rfl
  | some t =>
      simp only [lcOk, dtRT, decide_eq_true_eq] at h
      simp only [lastChangeSql, Option.map, SQLiteAdapter.readOptDate]
      by_cases he : isoformatAuto t = ""
      · rw [he, fromisoformat_empty] at h
        cases h
      · rw [if_neg he, h]
        rfl

/-- Mapping an attribute into its table row and back is the identity. -/
theorem attrRows_map_back (oid : Option String) (attrs : List AttributeValue) :
    (attrs.map (SQLiteAdapter.attrRowOf oid)).map
      (fun a => ({ definition_ref := a.definition_ref, value := a.value }
        : AttributeValue)) = attrs := by
  induction attrs with
  | nil => rfl
  | cons a as ih => simp [SQLiteAdapter.attrRowOf, ih]

/-- The attribute-row selection of read picks exactly the owning object's
rows, in insert order, given distinct object identifier cells. -/
theorem allAttrRows_filter (all : List SpecObject) (o : SpecObject)
    (hmem : o ∈ all)
    (hnd : (all.map (fun x => optCell x.identifier)).Nodup)
    (hids : all.all (fun x => x.identifier.isSome) = true) :
    (all.flatMap (fun x => x.attributes.map
      (SQLiteAdapter.attrRowOf x.identifier))).filter
      (fun a => sqlEq a.spec_object_id o.identifier) =
      o.attributes.map (SQLiteAdapter.attrRowOf o.identifier) := by
  induction all with
  | nil => cases hmem
  | cons x xs ih =>
      simp only [List.map_cons, List.nodup_cons] at hnd
      simp only [List.all_cons, Bool.and_eq_true] at hids
      simp only [List.flatMap_cons, List.filter_append]
      rcases List.mem_cons.mp hmem with rfl | hmem2
      · rw [List.filter_eq_self.mpr, List.filter_eq_nil_iff.mpr,
          List.append_nil]
        · intro a ha
          rcases List.mem_flatMap.mp ha with ⟨y, hy, hay⟩
          rcases List.mem_map.mp hay with ⟨av, _, rfl⟩
          have hcell : ¬ optCell y.identifier = optCell o.identifier :=
            fun heq => hnd.1 (heq ▸
              List.mem_map_of_mem (fun v => optCell v.identifier) hy)
          simp [SQLiteAdapter.attrRowOf,
            sqlEq_false_of_cell_ne _ _ (fun heq => hcell (heq.symm ▸ rfl))]
        · intro a ha
          rcases List.mem_map.mp ha with ⟨av, _, rfl⟩
          simp [SQLiteAdapter.attrRowOf, sqlEq_self _ hids.1]
      · rw [List.filter_eq_nil_iff.mpr, List.nil_append]
        · exact ih hmem2 hnd.2 hids.2
        · intro a ha
          rcases List.mem_map.mp ha with ⟨av, _, rfl⟩
          have hcell : ¬ optCell x.identifier = optCell o.identifier :=
            fun heq => hnd.1 (heq ▸
              List.mem_map_of_mem (fun v => optCell v.identifier) hmem2)
          simp [SQLiteAdapter.attrRowOf,
            sqlEq_false_of_cell_ne _ _ hcell]

/-- The hierarchy-row selection of read picks exactly the owning
specification's rows, given distinct specification identifier cells. -/
theorem hierRows_filter (all : List Specification) (sp : Specification)
    (hmem : sp ∈ all)
    (hnd : (all.map (fun x => optCell x.identifier)).Nodup)
    (hids : all.all (fun x => x.identifier.isSome) = true) :
    (all.flatMap (fun x => x.spec_hierarchies.map
      (SQLiteAdapter.hierRowOf x.identifier))).filter
      (fun hr => sqlEq hr.specification_id sp.identifier) =
      sp.spec_hierarchies.map (SQLiteAdapter.hierRowOf sp.identifier) := by
  induction all with
  | nil => cases hmem
  | cons x xs ih =>
      simp only [List.map_cons, List.nodup_cons] at hnd
      simp only [List.all_cons, Bool.and_eq_true] at hids
      simp only [List.flatMap_cons, List.filter_append]
      rcases List.mem_cons.mp hmem with rfl | hmem2
      · rw [List.filter_eq_self.mpr, List.filter_eq_nil_iff.mpr,
          List.append_nil]
        · intro a ha
          rcases List.mem_flatMap.mp ha with ⟨y, hy, hay⟩
          rcases List.mem_map.mp hay with ⟨hr, _, rfl⟩
          have hcell : ¬ optCell y.identifier = optCell sp.identifier :=
            fun heq => hnd.1 (heq ▸
              List.mem_map_of_mem (fun v => optCell v.identifier) hy)
          simp [SQLiteAdapter.hierRowOf, sqlEq_false_of_cell_ne _ _ hcell]
        · intro a ha
          rcases List.mem_map.mp ha with ⟨hr, _, rfl⟩
          simp [SQLiteAdapter.hierRowOf, sqlEq_self _ hids.1]
      · rw [List.filter_eq_nil_iff.mpr, List.nil_append]
        · exact ih hmem2 hnd.2 hids.2
        · intro a ha
          rcases List.mem_map.mp ha with ⟨hr, _, rfl⟩
          have hcell : ¬ optCell x.identifier = optCell sp.identifier :=
            fun heq => hnd.1 (heq ▸
              List.mem_map_of_mem (fun v => optCell v.identifier) hmem2)
          simp [SQLiteAdapter.hierRowOf, sqlEq_false_of_cell_ne _ _ hcell]

/-- One bound enum-value row reads back to the original enum value. -/
theorem buildEnumValue_row (eid : Option String) (ev : EnumValue)
    (h : lcOk ev.last_change = true) :
    SQLiteAdapter.buildEnumValue (SQLiteAdapter.enumRowOf eid ev) =
      Except.ok ev := by
  simp [SQLiteAdapter.buildEnumValue, SQLiteAdapter.enumRowOf,
    readOptDate_lastChangeSql _ h, Bind.bind, Except.bind, pure, Except.pure]

/-- The enum-value reconstruction over all bound rows restores the list. -/
theorem mapM_buildEnumValue (eid : Option String) (evs : List EnumValue)
    (h : evs.all evReady = true) :
    (evs.map (SQLiteAdapter.enumRowOf eid)).mapM
      SQLiteAdapter.buildEnumValue = Except.ok evs := by
  induction evs with
  | nil => rfl
  | cons ev evs ih =>
      simp only [List.all_cons, Bool.and_eq_true] at h
      have hlc : lcOk ev.last_change = true := by
        have := h.1
        simp only [evReady, Bool.and_eq_true] at this
        exact this.2
      rw [List.map_cons, List.mapM_cons, buildEnumValue_row eid ev hlc]
      simp only [Bind.bind, Except.bind]
      rw [ih h.2]
      rfl

/-- One bound hierarchy row reads back to the original flat record. -/
theorem buildHierRow_row (sid : Option String) (hr : SpecHierarchy)
    (h : lcOk hr.last_change = true) :
    SQLiteAdapter.buildHierRow (SQLiteAdapter.hierRowOf sid hr) =
      Except.ok hr := by
  cases hed : hr.is_editable <;>
  · simp [SQLiteAdapter.buildHierRow, SQLiteAdapter.hierRowOf,
      readOptDate_lastChangeSql _ h, hed,
      Bind.bind, Except.bind, pure, Except.pure]
    rw [← hed]

/-- The hierarchy reconstruction over one specification's bound rows
restores its flat list. -/
theorem mapM_buildHierRow (sid : Option String) (hs : List SpecHierarchy)
    (h : hs.all hierReady = true) :
    (hs.map (SQLiteAdapter.hierRowOf sid)).mapM
      SQLiteAdapter.buildHierRow = Except.ok hs := by
  induction hs with
  | nil => rfl
  | cons hr hs ih =>
      simp only [List.all_cons, Bool.and_eq_true] at h
      have hlc : lcOk hr.last_change = true := by
        have := h.1
        simp only [hierReady, Bool.and_eq_true] at this
        exact this.2
      rw [List.map_cons, List.mapM_cons, buildHierRow_row sid hr hlc]
      simp only [Bind.bind, Except.bind]
      rw [ih h.2]
      rfl

/-- One bound spec-object row, read against the whole bound attribute
table, reconstructs the original object. -/
theorem buildSpecObjectRow_write (r : ReqIF) (db : Db)
    (hdb : db.spec_object_attribute = SQLiteAdapter.allAttrRows r)
    (o : SpecObject) (hmem : o ∈ r.core_content.reqif_content.spec_objects)
    (hnd : (r.core_content.reqif_content.spec_objects.map
      (fun x => optCell x.identifier)).Nodup)
    (hids : r.core_content.reqif_content.spec_objects.all
      (fun x => x.identifier.isSome) = true)
    (hready : objReady o = true) :
    SQLiteAdapter.buildSpecObjectRow db (SQLiteAdapter.objRowOf o) =
      Except.ok o := by
  simp only [objReady, Bool.and_eq_true] at hready
  obtain ⟨⟨⟨⟨hid, hln⟩, htr⟩, hlc⟩, hattrs⟩ := hready
  simp only [SQLiteAdapter.buildSpecObjectRow, hdb, SQLiteAdapter.allAttrRows]
  rw [show (SQLiteAdapter.objRowOf o).identifier = o.identifier from rfl,
    allAttrRows_filter _ o hmem hnd hids, attrRows_map_back]
  simp [SQLiteAdapter.objRowOf, readOptDate_lastChangeSql _ hlc,
    Bind.bind, Except.bind, pure, Except.pure]

/-- The spec-object reconstruction over all bound rows restores the object
list. -/
theorem mapM_buildSpecObjectRow (r : ReqIF) (db : Db)
    (hdb : db.spec_object_attribute = SQLiteAdapter.allAttrRows r)
    (objs : List SpecObject)
    (hsub : ∀ x ∈ objs, x ∈ r.core_content.reqif_content.spec_objects)
    (hnd : (r.core_content.reqif_content.spec_objects.map
      (fun x => optCell x.identifier)).Nodup)
    (hids : r.core_content.reqif_content.spec_objects.all
      (fun x => x.identifier.isSome) = true)
    (hready : objs.all objReady = true) :
    (objs.map SQLiteAdapter.objRowOf).mapM
      (SQLiteAdapter.buildSpecObjectRow db) = Except.ok objs := by
  induction objs with
  | nil => rfl
  | cons o os ih =>
      simp only [List.all_cons, Bool.and_eq_true] at hready
      rw [List.map_cons, List.mapM_cons,
        buildSpecObjectRow_write r db hdb o
          (hsub o (List.mem_cons_self o os)) hnd hids hready.1]
      simp only [Bind.bind, Except.bind]
      rw [ih (fun x hx => hsub x (List.mem_cons_of_mem o hx)) hready.2]
      rfl

/-- One bound specification row, read against the whole bound hierarchy
table, reconstructs the original specification. -/
theorem buildSpecificationRow_write (r : ReqIF) (db : Db)
    (hdb : db.spec_hierarchy =
      r.core_content.reqif_content.specifications.flatMap
        (fun x => x.spec_hierarchies.map
          (SQLiteAdapter.hierRowOf x.identifier)))
    (sp : Specification)
    (hmem : sp ∈ r.core_content.reqif_content.specifications)
    (hnd : (r.core_content.reqif_content.specifications.map
      (fun x => optCell x.identifier)).Nodup)
    (hids : r.core_content.reqif_content.specifications.all
      (fun x => x.identifier.isSome) = true)
    (hready : specReady sp = true) :
    SQLiteAdapter.buildSpecificationRow db (SQLiteAdapter.specRowOf sp) =
      Except.ok sp := by
  simp only [specReady, Bool.and_eq_true] at hready
  obtain ⟨⟨⟨⟨hid, hln⟩, htr⟩, hlc⟩, hhiers⟩ := hready
  simp only [SQLiteAdapter.buildSpecificationRow, hdb]
  rw [show (SQLiteAdapter.specRowOf sp).identifier = sp.identifier from rfl,
    hierRows_filter _ sp hmem hnd hids, mapM_buildHierRow _ _ hhiers]
  simp [SQLiteAdapter.specRowOf, readOptDate_lastChangeSql _ hlc,
    Bind.bind, Except.bind, pure, Except.pure]

/-- The specification reconstruction over all bound rows restores the
specification list. -/
theorem mapM_buildSpecificationRow (r : ReqIF) (db : Db)
    (hdb : db.spec_hierarchy =
      r.core_content.reqif_content.specifications.flatMap
        (fun x => x.spec_hierarchies.map
          (SQLiteAdapter.hierRowOf x.identifier)))
    (specs : List Specification)
    (hsub : ∀ x ∈ specs, x ∈ r.core_content.reqif_content.specifications)
    (hnd : (r.core_content.reqif_content.specifications.map
      (fun x => optCell x.identifier)).Nodup)
    (hids : r.core_content.reqif_content.specifications.all
      (fun x => x.identifier.isSome) = true)
    (hready : specs.all specReady = true) :
    (specs.map SQLiteAdapter.specRowOf).mapM
      (SQLiteAdapter.buildSpecificationRow db) = Except.ok specs := by
  induction specs with
  | nil => rfl
  | cons sp sps ih =>
      simp only [List.all_cons, Bool.and_eq_true] at hready
      rw [List.map_cons, List.mapM_cons,
        buildSpecificationRow_write r db hdb sp
          (hsub sp (List.mem_cons_self sp sps)) hnd hids hready.1]
      simp only [Bind.bind, Except.bind]
      rw [ih (fun x hx => hsub x (List.mem_cons_of_mem sp hx)) hready.2]
      rfl

/-- The xhtml read stage over a table holding the written variant row. -/
theorem sqlDtXhtml_write (db : Db) (dtv : Option DataTypeDefinitionXHTML)
    (dt0 : DataTypes)
    (htbl : db.datatype_xhtml = optRow (fun x =>
      (⟨x.identifier, lastChangeSql x.last_change, x.long_name⟩ : Dt3Row)) dtv)
    (hv : optAll (fun x => lcOk x.last_change) dtv = true)
    (hd : dt0.xhtml = none) :
    SQLiteAdapter.sqlDtXhtml db dt0 = Except.ok { dt0 with xhtml := dtv } := by
  obtain ⟨x0, e0, b0, d0, i0, r0, s0⟩ := dt0
  have hx : x0 = none := hd
  subst hx
  cases dtv with
  | none => simp [SQLiteAdapter.sqlDtXhtml, htbl, optRow]
  | some x =>
      have hlc : lcOk x.last_change = true := hv
      simp [SQLiteAdapter.sqlDtXhtml, htbl, optRow,
        readOptDate_lastChangeSql _ hlc,
        Bind.bind, Except.bind, pure, Except.pure]

/-- The enumeration read stage over tables holding the written variant row
and its enum-value rows. -/
theorem sqlDtEnum_write (db : Db)
    (dtv : Option DataTypeDefinitionEnumeration) (dt0 : DataTypes)
    (htbl : db.datatype_enumeration = optRow (fun e =>
      (⟨e.identifier, lastChangeSql e.last_change, e.long_name⟩ : Dt3Row)) dtv)
    (htbl2 : db.enum_value = optTable (fun e =>
      e.enum_values.map (SQLiteAdapter.enumRowOf e.identifier)) dtv)
    (hv : optAll (fun e => e.identifier.isSome && lcOk e.last_change &&
      e.enum_values.all evReady) dtv = true)
    (hd : dt0.enumeration = none) :
    SQLiteAdapter.sqlDtEnum db dt0 =
      Except.ok { dt0 with enumeration := dtv } := by
  obtain ⟨x0, e0, b0, d0, i0, r0, s0⟩ := dt0
  have hx : e0 = none := hd
  subst hx
  cases dtv with
  | none => simp [SQLiteAdapter.sqlDtEnum, htbl, htbl2, optRow, optTable]
  | some e =>
      have hv' : (e.identifier.isSome && lcOk e.last_change &&
          e.enum_values.all evReady) = true := hv
      simp only [Bool.and_eq_true] at hv'
      obtain ⟨⟨hid, hlc⟩, hevs⟩ := hv'
      simp only [SQLiteAdapter.sqlDtEnum, htbl, htbl2, optRow, optTable,
        List.head?]
      rw [List.filter_eq_self.mpr (by
        intro a ha
        rcases List.mem_map.mp ha with ⟨ev, _, rfl⟩
        simpa [SQLiteAdapter.enumRowOf] using sqlEq_self _ hid),
        mapM_buildEnumValue e.identifier _ hevs]
      simp [readOptDate_lastChangeSql _ hlc,
        Bind.bind, Except.bind, pure, Except.pure]

/-- The boolean read stage over a table holding the written variant row. -/
theorem sqlDtBoolean_write (db : Db) (dtv : Option DataTypeDefinitionBoolean)
    (dt0 : DataTypes)
    (htbl : db.datatype_boolean = optRow (fun b =>
      (⟨b.identifier, b.long_name⟩ : Dt2Row)) dtv)
    (hd : dt0.boolean = none) :
    SQLiteAdapter.sqlDtBoolean db dt0 = { dt0 with boolean := dtv } := by
  obtain ⟨x0, e0, b0, d0, i0, r0, s0⟩ := dt0
  have hx : b0 = none := hd
  subst hx
  cases dtv <;> simp [SQLiteAdapter.sqlDtBoolean, htbl, optRow]

/-- The date read stage over a table holding the written variant row. -/
theorem sqlDtDate_write (db : Db) (dtv : Option DataTypeDefinitionDate)
    (dt0 : DataTypes)
    (htbl : db.datatype_date = optRow (fun b =>
      (⟨b.identifier, b.long_name⟩ : Dt2Row)) dtv)
    (hd : dt0.date = none) :
    SQLiteAdapter.sqlDtDate db dt0 = { dt0 with date := dtv } := by
  obtain ⟨x0, e0, b0, d0, i0, r0, s0⟩ := dt0
  have hx : d0 = none := hd
  subst hx
  cases dtv <;> simp [SQLiteAdapter.sqlDtDate, htbl, optRow]

/-- The integer read stage over a table holding the written variant row. -/
theorem sqlDtInteger_write (db : Db) (dtv : Option DataTypeDefinitionInteger)
    (dt0 : DataTypes)
    (htbl : db.datatype_integer = optRow (fun b =>
      (⟨b.identifier, b.long_name⟩ : Dt2Row)) dtv)
    (hd : dt0.integer = none) :
    SQLiteAdapter.sqlDtInteger db dt0 = { dt0 with integer := dtv } := by
  obtain ⟨x0, e0, b0, d0, i0, r0, s0⟩ := dt0
  have hx : i0 = none := hd
  subst hx
  cases dtv <;> simp [SQLiteAdapter.sqlDtInteger, htbl, optRow]

/-- The real read stage over a table holding the written variant row. -/
theorem sqlDtReal_write (db : Db) (dtv : Option DataTypeDefinitionReal)
    (dt0 : DataTypes)
    (htbl : db.datatype_real = optRow (fun b =>
      (⟨b.identifier, b.long_name⟩ : Dt2Row)) dtv)
    (hd : dt0.real = none) :
    SQLiteAdapter.sqlDtReal db dt0 = { dt0 with real := dtv } := by
  obtain ⟨x0, e0, b0, d0, i0, r0, s0⟩ := dt0
  have hx : r0 = none := hd
  subst hx
  cases dtv <;> simp [SQLiteAdapter.sqlDtReal, htbl, optRow]

/-- The string read stage over a table holding the written variant row. -/
theorem sqlDtString_write (db : Db) (dtv : Option DataTypeDefinitionString)
    (dt0 : DataTypes)
    (htbl : db.datatype_string = optRow (fun b =>
      (⟨b.identifier, b.long_name⟩ : Dt2Row)) dtv)
    (hd : dt0.string = none) :
    SQLiteAdapter.sqlDtString db dt0 = { dt0 with string := dtv } := by
  obtain ⟨x0, e0, b0, d0, i0, r0, s0⟩ := dt0
  have hx : s0 = none := hd
  subst hx
  cases dtv <;> simp [SQLiteAdapter.sqlDtString, htbl, optRow]

/-- The written hierarchy rows carry exactly the flattened hierarchy
identifier cells. -/
theorem hierRows_cells (specs : List Specification) :
    ((specs.flatMap (fun sp => sp.spec_hierarchies.map
      (SQLiteAdapter.hierRowOf sp.identifier))).map
        (fun hr => optCell hr.identifier)) =
      ((specs.flatMap (fun sp => sp.spec_hierarchies)).map
        (fun h => optCell h.identifier)) := by
  induction specs with
  | nil => rfl
  | cons sp sps ih =>
      simp [List.flatMap_cons, List.map_append, ih, List.map_map,
        Function.comp, SQLiteAdapter.hierRowOf]

/-- The relational round trip: reading back a written relationally-ready
document restores it exactly, except that tool extensions pass through the
writer's truthiness filter (None and the empty string come back as None). -/
theorem sqlite_write_read_roundtrip (r : ReqIF) (h : SqliteReady r = true) :
    SQLiteAdapter.read (SQLiteAdapter.write r emptyDb) =
      Except.ok { r with tool_extensions := sqliteToolNorm r.tool_extensions } := by
  simp only [SqliteReady, Bool.and_eq_true] at h
  obtain ⟨⟨hcr, henum⟩, hhier⟩ := h
  simp only [CodecReady, Bool.and_eq_true] at hcr
  obtain ⟨⟨⟨⟨⟨⟨⟨⟨⟨⟨⟨h1, h2⟩, h3⟩, h4⟩, h5⟩, h6⟩, h7⟩, h8⟩, h9⟩, h10⟩,
    h11⟩, h12⟩ := hcr
  have hct : fromisoformat (isoformatAuto r.header.creation_time) =
      Except.ok r.header.creation_time := by
    simpa [dtRT] using h7
  have hnd1 : (r.core_content.reqif_content.spec_objects.map
      (fun o => optCell o.identifier)).Nodup := of_decide_eq_true h11
  have hnd2 : (r.core_content.reqif_content.specifications.map
      (fun sp => optCell sp.identifier)).Nodup := of_decide_eq_true h12
  have hids1 : r.core_content.reqif_content.spec_objects.all
      (fun x => x.identifier.isSome) = true := by
    rw [List.all_eq_true] at h9 ⊢
    intro x hx
    have hx2 := h9 x hx
    simp only [objReady, Bool.and_eq_true] at hx2
    exact hx2.1.1.1.1
  have hids2 : r.core_content.reqif_content.specifications.all
      (fun x => x.identifier.isSome) = true := by
    rw [List.all_eq_true] at h10 ⊢
    intro x hx
    have hx2 := h10 x hx
    simp only [specReady, Bool.and_eq_true] at hx2
    exact hx2.1.1.1.1
  simp only [dtReady, Bool.and_eq_true] at h8
  obtain ⟨⟨⟨⟨⟨⟨m1, m2⟩, m3⟩, m4⟩, m5⟩, m6⟩, m7⟩ := h8
  have hv1 : optAll (fun x => lcOk x.last_change)
      r.core_content.reqif_content.data_types.xhtml = true := by
    cases hx : r.core_content.reqif_content.data_types.xhtml with
    | none => rfl
    | some x =>
        rw [hx] at m1
        have m1' : (x.identifier.isSome && x.long_name.isSome &&
            lcOk x.last_change) = true := m1
        simp only [Bool.and_eq_true] at m1'
        exact m1'.2
  have hv2 : optAll (fun e => e.identifier.isSome && lcOk e.last_change &&
      e.enum_values.all evReady)
      r.core_content.reqif_content.data_types.enumeration = true := by
    cases hx : r.core_content.reqif_content.data_types.enumeration with
    | none => rfl
    | some e =>
        rw [hx] at m2
        have m2' : (e.identifier.isSome && e.long_name.isSome &&
            lcOk e.last_change && e.enum_values.all evReady) = true := m2
        simp only [Bool.and_eq_true] at m2'
        show (e.identifier.isSome && lcOk e.last_change &&
          e.enum_values.all evReady) = true
        simp [m2'.1.1.1, m2'.1.2, m2'.2]
  rw [write_eq_writeChar]
  have htx : (SQLiteAdapter.writeChar r emptyDb).datatype_xhtml =
      optRow (fun x =>
        (⟨x.identifier, lastChangeSql x.last_change, x.long_name⟩ : Dt3Row))
        r.core_content.reqif_content.data_types.xhtml := by
    cases hx : r.core_content.reqif_content.data_types.xhtml <;>
      simp [SQLiteAdapter.writeChar, hx, optRow, insRepBy, emptyDb]
  have hte : (SQLiteAdapter.writeChar r emptyDb).datatype_enumeration =
      optRow (fun e =>
        (⟨e.identifier, lastChangeSql e.last_change, e.long_name⟩ : Dt3Row))
        r.core_content.reqif_content.data_types.enumeration := by
    cases hx : r.core_content.reqif_content.data_types.enumeration <;>
      simp [SQLiteAdapter.writeChar, hx, optRow, insRepBy, emptyDb]
  have htev : (SQLiteAdapter.writeChar r emptyDb).enum_value =
      optTable (fun e =>
        e.enum_values.map (SQLiteAdapter.enumRowOf e.identifier))
        r.core_content.reqif_content.data_types.enumeration := by
    cases hx : r.core_content.reqif_content.data_types.enumeration with
    | none => simp [SQLiteAdapter.writeChar, hx, optTable, emptyDb]
    | some e =>
        rw [hx] at henum
        have hnde : (e.enum_values.map
            (fun ev => optCell ev.identifier)).Nodup :=
          of_decide_eq_true henum
        have hpw : (e.enum_values.map
            (SQLiteAdapter.enumRowOf e.identifier)).Pairwise
            (fun a b => SQLiteAdapter.enumConflict a b = false) :=
          List.pairwise_map.mpr
            (pairwise_sqlEq_false (fun ev : EnumValue => ev.identifier) _ hnde)
        have hstep : (SQLiteAdapter.writeChar r emptyDb).enum_value =
            (e.enum_values.map (SQLiteAdapter.enumRowOf e.identifier)).foldl
              (insRepBy SQLiteAdapter.enumConflict) [] := by
          simp [SQLiteAdapter.writeChar, hx, emptyDb]
        rw [hstep, foldl_insRepBy_nil_pairwise _ _ hpw]
        rfl
  have htb : (SQLiteAdapter.writeChar r emptyDb).datatype_boolean =
      optRow (fun b => (⟨b.identifier, b.long_name⟩ : Dt2Row))
        r.core_content.reqif_content.data_types.boolean := by
    cases hx : r.core_content.reqif_content.data_types.boolean <;>
      simp [SQLiteAdapter.writeChar, hx, optRow, insRepBy, emptyDb]
  have htd : (SQLiteAdapter.writeChar r emptyDb).datatype_date =
      optRow (fun b => (⟨b.identifier, b.long_name⟩ : Dt2Row))
        r.core_content.reqif_content.data_types.date := by
    cases hx : r.core_content.reqif_content.data_types.date <;>
      simp [SQLiteAdapter.writeChar, hx, optRow, insRepBy, emptyDb]
  have hti : (SQLiteAdapter.writeChar r emptyDb).datatype_integer =
      optRow (fun b => (⟨b.identifier, b.long_name⟩ : Dt2Row))
        r.core_content.reqif_content.data_types.integer := by
    cases hx : r.core_content.reqif_content.data_types.integer <;>
      simp [SQLiteAdapter.writeChar, hx, optRow, insRepBy, emptyDb]
  have htr2 : (SQLiteAdapter.writeChar r emptyDb).datatype_real =
      optRow (fun b => (⟨b.identifier, b.long_name⟩ : Dt2Row))
        r.core_content.reqif_content.data_types.real := by
    cases hx : r.core_content.reqif_content.data_types.real <;>
      simp [SQLiteAdapter.writeChar, hx, optRow, insRepBy, emptyDb]
  have hts : (SQLiteAdapter.writeChar r emptyDb).datatype_string =
      optRow (fun b => (⟨b.identifier, b.long_name⟩ : Dt2Row))
        r.core_content.reqif_content.data_types.string := by
    cases hx : r.core_content.reqif_content.data_types.string <;>
      simp [SQLiteAdapter.writeChar, hx, optRow, insRepBy, emptyDb]
  have hhdr : (SQLiteAdapter.writeChar r emptyDb).reqif_header =
      [SQLiteAdapter.hdrRowOf r.header] := by
    simp [SQLiteAdapter.writeChar, insRepBy, emptyDb]
  have hpw1 : (r.core_content.reqif_content.spec_objects.map
      SQLiteAdapter.objRowOf).Pairwise
      (fun a b => SQLiteAdapter.objConflict a b = false) :=
    List.pairwise_map.mpr
      (pairwise_sqlEq_false (fun o : SpecObject => o.identifier) _ hnd1)
  have hobj : (SQLiteAdapter.writeChar r emptyDb).spec_object =
      r.core_content.reqif_content.spec_objects.map
        SQLiteAdapter.objRowOf := by
    have hstep : (SQLiteAdapter.writeChar r emptyDb).spec_object =
        (r.core_content.reqif_content.spec_objects.map
          SQLiteAdapter.objRowOf).foldl
            (insRepBy SQLiteAdapter.objConflict) [] := by
      simp [SQLiteAdapter.writeChar, emptyDb]
    rw [hstep, foldl_insRepBy_nil_pairwise _ _ hpw1]
  have hattr : (SQLiteAdapter.writeChar r emptyDb).spec_object_attribute =
      SQLiteAdapter.allAttrRows r := by
    simp [SQLiteAdapter.writeChar, emptyDb]
  have hpw2 : (r.core_content.reqif_content.specifications.map
      SQLiteAdapter.specRowOf).Pairwise
      (fun a b => SQLiteAdapter.specConflict a b = false) :=
    List.pairwise_map.mpr
      (pairwise_sqlEq_false (fun sp : Specification => sp.identifier) _ hnd2)
  have hspec : (SQLiteAdapter.writeChar r emptyDb).specification =
      r.core_content.reqif_content.specifications.map
        SQLiteAdapter.specRowOf := by
    have hstep : (SQLiteAdapter.writeChar r emptyDb).specification =
        (r.core_content.reqif_content.specifications.map
          SQLiteAdapter.specRowOf).foldl
            (insRepBy SQLiteAdapter.specConflict) [] := by
      simp [SQLiteAdapter.writeChar, emptyDb]
    rw [hstep, foldl_insRepBy_nil_pairwise _ _ hpw2]
  have hndh : ((r.core_content.reqif_content.specifications.flatMap
      (fun sp => sp.spec_hierarchies.map
        (SQLiteAdapter.hierRowOf sp.identifier))).map
        (fun hr => optCell hr.identifier)).Nodup := by
    rw [hierRows_cells]
    exact of_decide_eq_true hhier
  have hpwh : (r.core_content.reqif_content.specifications.flatMap
      (fun sp => sp.spec_hierarchies.map
        (SQLiteAdapter.hierRowOf sp.identifier))).Pairwise
      (fun a b => SQLiteAdapter.hierConflict a b = false) :=
    pairwise_sqlEq_false (fun hr : HierRow => hr.identifier) _ hndh
  have hhieq : (SQLiteAdapter.writeChar r emptyDb).spec_hierarchy =
      r.core_content.reqif_content.specifications.flatMap
        (fun sp => sp.spec_hierarchies.map
          (SQLiteAdapter.hierRowOf sp.identifier)) := by
    have hstep : (SQLiteAdapter.writeChar r emptyDb).spec_hierarchy =
        (r.core_content.reqif_content.specifications.flatMap
          (fun sp => sp.spec_hierarchies.map
            (SQLiteAdapter.hierRowOf sp.identifier))).foldl
              (insRepBy SQLiteAdapter.hierConflict) [] := by
      simp [SQLiteAdapter.writeChar, emptyDb]
    rw [hstep, foldl_insRepBy_nil_pairwise _ _ hpwh]
  have htool : (SQLiteAdapter.writeChar r emptyDb).tool_extensions =
      optTable (fun s => if s = "" then [] else [(⟨1, some s⟩ : ToolRow)])
        r.tool_extensions := by
    cases hx : r.tool_extensions with
    | none => simp [SQLiteAdapter.writeChar, hx, optTable, emptyDb]
    | some s =>
        by_cases hs : s = "" <;>
          simp [SQLiteAdapter.writeChar, hx, optTable, emptyDb, hs, insRepBy]
  simp only [SQLiteAdapter.read, hhdr, List.head?, SQLiteAdapter.hdrRowOf]
  rw [hct]
  simp only [Bind.bind, Except.bind]
  rw [sqlDtXhtml_write _ _ _ htx hv1 rfl]
  simp only [Bind.bind, Except.bind]
  rw [sqlDtEnum_write _ _ _ hte htev hv2 rfl]
  simp only [Bind.bind, Except.bind]
  rw [sqlDtBoolean_write _ _ _ htb rfl, sqlDtDate_write _ _ _ htd rfl,
    sqlDtInteger_write _ _ _ hti rfl, sqlDtReal_write _ _ _ htr2 rfl,
    sqlDtString_write _ _ _ hts rfl]
  rw [hobj, mapM_buildSpecObjectRow r _ hattr _ (fun x hx => hx) hnd1
    hids1 h9]
  simp only [Bind.bind, Except.bind]
  rw [hspec, mapM_buildSpecificationRow r _ hhieq _ (fun x hx => hx) hnd2
    hids2 h10]
  simp only [Bind.bind, Except.bind]
  rw [htool]
  cases hto : r.tool_extensions with
  | none => simp [optTable, sqliteToolNorm, List.filter, List.head?]
  | some s =>
      by_cases hs : s = "" <;>
        simp [optTable, sqliteToolNorm, hs, List.filter, List.head?]

/-- C2 counterexample: the repository's own tool-extensions-bearing example
document refutes the claim twice over — the markup codec's write raises for
it (so its round trip never completes), and the relational codec erases an
empty-string tool-extensions value (the writer skips falsy values). -/
theorem c2_tool_extensions_not_roundtripped :
    exampleDoc.tool_extensions = some "<EXT>x</EXT>" ∧
    (write exampleDoc).isOk = false ∧
    (SQLiteAdapter.read (SQLiteAdapter.write
      { exampleDoc with tool_extensions := some "" } emptyDb)).map
      (fun d => d.tool_extensions) = Except.ok none := by
  refine ⟨rfl, write_never_ok exampleDoc, ?_⟩
  decide

/-- C2 (amended): the markup codec's write raises for every document, so
its round trip never completes; the tabular codec round-trips a present
tool-extensions value byte-for-byte for codec-ready documents; the
relational codec round-trips it byte-for-byte exactly when it is non-empty
(a falsy value is skipped by the writer and comes back as None). -/
theorem c2_tool_extensions_amended :
    (∀ d : ReqIF, (write d).isOk = false) ∧
    (∀ (r : ReqIF) (s : String), CodecReady r = true →
      r.tool_extensions = some s →
      (CSVAdapter.read (CSVAdapter.write r)).map
        (fun d => d.tool_extensions) = Except.ok (some s)) ∧
    (∀ (r : ReqIF) (s : String), SqliteReady r = true →
      r.tool_extensions = some s → s ≠ "" →
      (SQLiteAdapter.read (SQLiteAdapter.write r emptyDb)).map
        (fun d => d.tool_extensions) = Except.ok (some s)) := by
  refine ⟨write_never_ok, ?_, ?_⟩
  · intro r s h hts
    rw [csv_write_read_roundtrip r h]
    simp [hts, optCell, Except.map]
  · intro r s h hts hs
    rw [sqlite_write_read_roundtrip r h]
    simp [hts, sqliteToolNorm, hs, Except.map]

/-- Witness for C2 at the example document. -/
theorem c2_tool_extensions_amended_witness :
    (write exampleDoc).isOk = false ∧
    (CSVAdapter.read (CSVAdapter.write exampleDoc)).map
      (fun d => d.tool_extensions) = Except.ok (some "<EXT>x</EXT>") ∧
    (SQLiteAdapter.read (SQLiteAdapter.write exampleDoc emptyDb)).map
      (fun d => d.tool_extensions) = Except.ok (some "<EXT>x</EXT>") :=
  ⟨c2_tool_extensions_amended.1 exampleDoc,
   c2_tool_extensions_amended.2.1 exampleDoc _ (by decide) rfl,
   c2_tool_extensions_amended.2.2 exampleDoc _ (by decide) rfl
     (by decide)⟩

/-- C3 counterexample: the written hierarchy file's column set has no
parent-node id column at all, and the two-row hierarchy of the example
document reads back as a flat two-element list attached directly to its
specification, in file row order — the source's SpecHierarchy dataclass has
no children list, so no nesting is ever reconstructed. -/
theorem c3_no_parent_column :
    (csvGetFile (CSVAdapter.write exampleDoc) "spec_hierarchy.csv").map
      (fun f => f.fieldnames) =
      some ["identifier", "specification_id", "last_change", "long_name",
        "is_editable", "object_ref"] ∧
    (CSVAdapter.read (CSVAdapter.write exampleDoc)).map
      (fun d => d.core_content.reqif_content.specifications.map
        (fun sp => sp.spec_hierarchies)) =
      Except.ok [[⟨some "hh1", none, some "H1", true, some "o1"⟩,
        ⟨some "hh2", none, some "H2", false, some "o1"⟩]] := by
  constructor
  · decide
  · rw [csv_write_read_roundtrip exampleDoc (by decide)]
    rfl

/-- C3 (amended): the tabular codec's hierarchy file carries exactly the
columns identifier, specification_id, last_change, long_name, is_editable
and object_ref — there is no parent-node id column — and for codec-ready
documents read rebuilds, for each specification, the flat list of hierarchy
records whose specification_id cell matches, in file row order; no
parent-child nesting exists in the adapter's model or its reconstruction. -/
theorem c3_tabular_hierarchy_amended :
    (∀ r : ReqIF,
      (csvGetFile (CSVAdapter.write r) "spec_hierarchy.csv").map
        (fun f => f.fieldnames) =
        some ["identifier", "specification_id", "last_change", "long_name",
          "is_editable", "object_ref"]) ∧
    (∀ r : ReqIF, CodecReady r = true →
      (CSVAdapter.read (CSVAdapter.write r)).map
        (fun d => d.core_content.reqif_content.specifications.map
          (fun sp => sp.spec_hierarchies)) =
        Except.ok (r.core_content.reqif_content.specifications.map
          (fun sp => sp.spec_hierarchies))) := by
  constructor
  · intro r
    simp only [CSVAdapter.write, csvGetFile_append]
    rw [headerFiles_skip _ _ (by decide),
      xhtmlFiles_skip _ _ (by decide),
      enumFiles_skip _ _ (by decide) (by decide),
      dt2Files_skip "datatype_boolean.csv" _ _ (by decide),
      dt2Files_skip "datatype_date.csv" _ _ (by decide),
      dt2Files_skip "datatype_integer.csv" _ _ (by decide),
      dt2Files_skip "datatype_real.csv" _ _ (by decide),
      dt2Files_skip "datatype_string.csv" _ _ (by decide)]
    simp [CSVAdapter.mainFiles, csvGetFile,
      CSVAdapter.specHierarchyFieldnames]
  · intro r h
    rw [csv_write_read_roundtrip r h]
    rfl

/-- Witness for C3 at the example document. -/
theorem c3_tabular_hierarchy_amended_witness :
    (csvGetFile (CSVAdapter.write exampleDoc) "spec_hierarchy.csv").map
      (fun f => f.fieldnames) =
      some ["identifier", "specification_id", "last_change", "long_name",
        "is_editable", "object_ref"] ∧
    (CSVAdapter.read (CSVAdapter.write exampleDoc)).map
      (fun d => d.core_content.reqif_content.specifications.map
        (fun sp => sp.spec_hierarchies)) =
      Except.ok [[⟨some "hh1", none, some "H1", true, some "o1"⟩,
        ⟨some "hh2", none, some "H2", false, some "o1"⟩]] :=
  ⟨c3_tabular_hierarchy_amended.1 exampleDoc,
   by rw [c3_tabular_hierarchy_amended.2 exampleDoc (by decide)]; rfl⟩

/-- Forest identifiers distribute over append. -/
theorem forestIds_append (a b : List SpecHierarchyNode) :
    forestIds (a ++ b) = forestIds a ++ forestIds b := by
  induction a with
  | nil => simp [forestIds]
  | cons x rest ih =>
      obtain ⟨i, o, cs⟩ := x
      simp [forestIds, ih, List.append_assoc]

/-- A root's identifier is among the forest's identifiers. -/
theorem root_id_mem_forestIds (F : List SpecHierarchyNode)
    (x : SpecHierarchyNode) (hx : x ∈ F) : x.hier_id ∈ forestIds F := by
  induction F with
  | nil => cases hx
  | cons y rest ih =>
      obtain ⟨i, o, cs⟩ := y
      rcases List.mem_cons.mp hx with rfl | h2
      · simp [forestIds, SpecHierarchyNode.hier_id]
      · simp only [forestIds, List.mem_cons, List.mem_append]
        exact Or.inr (Or.inr (ih h2))

/-- A root node is among the forest's nodes. -/
theorem root_mem_forestNodes (F : List SpecHierarchyNode)
    (x : SpecHierarchyNode) (hx : x ∈ F) : x ∈ forestNodes F := by
  induction F with
  | nil => cases hx
  | cons y rest ih =>
      obtain ⟨i, o, cs⟩ := y
      rcases List.mem_cons.mp hx with rfl | h2
      · simp [forestNodes]
      · simp only [forestNodes, List.mem_cons, List.mem_append]
        exact Or.inr (Or.inr (ih h2))

/-- A node's identifier is among the forest's identifiers. -/
theorem node_id_mem_forestIds : ∀ (F : List SpecHierarchyNode)
    (p : SpecHierarchyNode), p ∈ forestNodes F → p.hier_id ∈ forestIds F
  | [], p, hp => by simp [forestNodes] at hp
  | SpecHierarchyNode.mk i o cs :: rest, p, hp => by
      simp only [forestNodes, List.mem_cons, List.mem_append] at hp
      simp only [forestIds, List.mem_cons, List.mem_append]
      rcases hp with rfl | h2 | h2
      · exact Or.inl rfl
      · exact Or.inr (Or.inl (node_id_mem_forestIds cs p h2))
      · exact Or.inr (Or.inr (node_id_mem_forestIds rest p h2))
termination_by F _ _ => sizeOf F
decreasing_by
  all_goals simp_wf
  all_goals omega

/-- Children of a forest node are forest nodes. -/
theorem children_mem_forestNodes : ∀ (F : List SpecHierarchyNode)
    (p : SpecHierarchyNode), p ∈ forestNodes F →
    ∀ c ∈ p.children, c ∈ forestNodes F
  | [], p, hp => by simp [forestNodes] at hp
  | SpecHierarchyNode.mk i o cs :: rest, p, hp => by
      intro c hc
      simp only [forestNodes, List.mem_cons, List.mem_append] at hp
      simp only [forestNodes, List.mem_cons, List.mem_append]
      rcases hp with rfl | h2 | h2
      · simp only [SpecHierarchyNode.children] at hc
        exact Or.inr (Or.inl (root_mem_forestNodes cs c hc))
      · exact Or.inr (Or.inl (children_mem_forestNodes cs p h2 c hc))
      · exact Or.inr (Or.inr (children_mem_forestNodes rest p h2 c hc))
termination_by F _ _ => sizeOf F
decreasing_by
  all_goals simp_wf
  all_goals omega

/-- The search misses when the identifier is absent from the forest. -/
theorem search_none_of_not_mem : ∀ (F : List SpecHierarchyNode) (k : String)
    (par : Option SpecHierarchyNode), k ∉ forestIds F →
    search_hierarchy F k par = none
  | [], k, par, _ => by simp [search_hierarchy]
  | SpecHierarchyNode.mk i o cs :: rest, k, par, h => by
      simp only [forestIds, List.mem_cons, List.mem_append] at h
      push_neg at h
      simp only [search_hierarchy]
      rw [if_neg (fun he => h.1 he.symm)]
      rw [search_none_of_not_mem cs k _ h.2.1,
        search_none_of_not_mem rest k par h.2.2]
termination_by F _ _ _ => sizeOf F
decreasing_by
  all_goals simp_wf
  all_goals omega

/-- Searching an appended forest whose prefix misses the identifier. -/
theorem search_append_right : ∀ (a b : List SpecHierarchyNode) (k : String)
    (par : Option SpecHierarchyNode), k ∉ forestIds a →
    search_hierarchy (a ++ b) k par = search_hierarchy b k par
  | [], b, k, par, _ => by simp
  | SpecHierarchyNode.mk i o cs :: rest, b, k, par, h => by
      simp only [forestIds, List.mem_cons, List.mem_append] at h
      push_neg at h
      simp only [List.cons_append, search_hierarchy]
      rw [if_neg (fun he => h.1 he.symm)]
      rw [search_none_of_not_mem cs k _ h.2.1]
      exact search_append_right rest b k par h.2.2
termination_by a _ _ _ => sizeOf a
decreasing_by
  all_goals simp_wf
  all_goals omega

/-- Searching a forest headed by the sought node. -/
theorem search_cons_self (i o : String) (cs rest : List SpecHierarchyNode)
    (par : Option SpecHierarchyNode) :
    search_hierarchy (SpecHierarchyNode.mk i o cs :: rest) i par =
      some (SpecHierarchyNode.mk i o cs, par) := by
  simp [search_hierarchy]

/-- Root filtering by an absent identifier keeps the whole forest. -/
theorem filter_id_eq_self (F : List SpecHierarchyNode) (nid : String)
    (h : nid ∉ forestIds F) :
    F.filter (fun ch => ¬ ch.hier_id = nid) = F := by
  rw [List.filter_eq_self]
  intro x hx
  simp only [decide_eq_true_eq]
  intro he
  exact h (he ▸ root_id_mem_forestIds F x hx)

/-- The forest update misses when the identifier is absent. -/
theorem updForest_not_found : ∀ (F : List SpecHierarchyNode) (k : String)
    (f : List SpecHierarchyNode → List SpecHierarchyNode),
    k ∉ forestIds F → updForest F k f = (F, false)
  | [], k, f, _ => by simp [updForest]
  | SpecHierarchyNode.mk i o cs :: rest, k, f, h => by
      simp only [forestIds, List.mem_cons, List.mem_append] at h
      push_neg at h
      simp only [updForest]
      rw [if_neg (fun he => h.1 he.symm)]
      rw [updForest_not_found cs k f h.2.1, updForest_not_found rest k f h.2.2]
      simp
termination_by F _ _ _ => sizeOf F
decreasing_by
  all_goals simp_wf
  all_goals omega

/-- The forest update's found flag reports identifier membership. -/
theorem updForest_found_iff : ∀ (F : List SpecHierarchyNode) (k : String)
    (f : List SpecHierarchyNode → List SpecHierarchyNode),
    (updForest F k f).2 = true ↔ k ∈ forestIds F
  | [], k, f => by simp [updForest, forestIds]
  | SpecHierarchyNode.mk i o cs :: rest, k, f => by
      simp only [updForest, forestIds]
      by_cases hik : i = k
      · simp [hik]
      · simp only [if_neg hik]
        by_cases hin : (updForest cs k f).2 = true
        · simp only [hin, if_pos rfl]
          simp only [List.mem_cons, List.mem_append]
          have := (updForest_found_iff cs k f).mp hin
          simp [this]
        · simp only [Bool.not_eq_true] at hin
          have h1 := updForest_found_iff cs k f
          have h2 := updForest_found_iff rest k f
          rw [hin] at h1
          simp only [Bool.false_eq_true, false_iff] at h1
          simp only [hin, Bool.false_eq_true, if_false, List.mem_cons,
            List.mem_append]
          rw [h2]
          constructor
          · intro hk
            exact Or.inr (Or.inr hk)
          · rintro (rfl | hk | hk)
            · exact absurd rfl hik
            · exact absurd hk h1
            · exact hk
termination_by F _ _ => sizeOf F
decreasing_by
  all_goals simp_wf
  all_goals omega

/-- A found node carries the sought identifier. -/
theorem search_id : ∀ (F : List SpecHierarchyNode) (k : String)
    (par : Option SpecHierarchyNode) (nd : SpecHierarchyNode)
    (q : Option SpecHierarchyNode),
    search_hierarchy F k par = some (nd, q) → nd.hier_id = k
  | [], k, par, nd, q, h => by simp [search_hierarchy] at h
  | SpecHierarchyNode.mk i o cs :: rest, k, par, nd, q, h => by
      simp only [search_hierarchy] at h
      by_cases hik : i = k
      · rw [if_pos hik] at h
        cases h
        simp [SpecHierarchyNode.hier_id, hik]
      · rw [if_neg hik] at h
        cases hcs : search_hierarchy cs k (some (SpecHierarchyNode.mk i o cs))
          with
        | some r =>
            rw [hcs] at h
            simp only [Option.some.injEq] at h
            rw [h] at hcs
            exact search_id cs k _ nd q hcs
        | none =>
            rw [hcs] at h
            exact search_id rest k par nd q h
termination_by F _ _ _ _ _ => sizeOf F
decreasing_by
  all_goals simp_wf
  all_goals omega

/-- What a successful search says about the forest: the node is a root and
the reported parent is the caller's, or the reported parent is a forest
node holding the found node among its children. -/
theorem search_structure : ∀ (F : List SpecHierarchyNode) (k : String)
    (par : Option SpecHierarchyNode) (nd : SpecHierarchyNode)
    (q : Option SpecHierarchyNode),
    search_hierarchy F k par = some (nd, q) →
    (q = par ∧ nd ∈ F) ∨
      (∃ p, q = some p ∧ p ∈ forestNodes F ∧ nd ∈ p.children)
  | [], k, par, nd, q, h => by simp [search_hierarchy] at h
  | SpecHierarchyNode.mk i o cs :: rest, k, par, nd, q, h => by
      simp only [search_hierarchy] at h
      by_cases hik : i = k
      · rw [if_pos hik] at h
        cases h
        exact Or.inl ⟨rfl, List.mem_cons_self _ _⟩
      · rw [if_neg hik] at h
        cases hcs : search_hierarchy cs k (some (SpecHierarchyNode.mk i o cs))
          with
        | some r =>
            rw [hcs] at h
            simp only [Option.some.injEq] at h
            rw [h] at hcs
            rcases search_structure cs k _ nd q hcs with ⟨hq, hmem⟩ | hint
            · refine Or.inr ⟨SpecHierarchyNode.mk i o cs, hq, ?_, ?_⟩
              · simp [forestNodes]
              · simpa [SpecHierarchyNode.children] using hmem
            · obtain ⟨p, hq, hp, hch⟩ := hint
              refine Or.inr ⟨p, hq, ?_, hch⟩
              simp only [forestNodes, List.mem_cons, List.mem_append]
              exact Or.inr (Or.inl hp)
        | none =>
            rw [hcs] at h
            rcases search_structure rest k par nd q h with ⟨hq, hmem⟩ | hint
            · exact Or.inl ⟨hq, List.mem_cons_of_mem _ hmem⟩
            · obtain ⟨p, hq, hp, hch⟩ := hint
              refine Or.inr ⟨p, hq, ?_, hch⟩
              simp only [forestNodes, List.mem_cons, List.mem_append]
              exact Or.inr (Or.inr hp)
termination_by F _ _ _ _ _ => sizeOf F
decreasing_by
  all_goals simp_wf
  all_goals omega

/-- A present identifier is always found by the search. -/
theorem search_found_of_mem : ∀ (F : List SpecHierarchyNode) (k : String)
    (par : Option SpecHierarchyNode), k ∈ forestIds F →
    ∃ nd q, search_hierarchy F k par = some (nd, q)
  | [], k, par, h => by simp [forestIds] at h
  | SpecHierarchyNode.mk i o cs :: rest, k, par, h => by
      simp only [forestIds, List.mem_cons, List.mem_append] at h
      simp only [search_hierarchy]
      by_cases hik : i = k
      · rw [if_pos hik]
        exact ⟨_, _, rfl⟩
      · rw [if_neg hik]
        by_cases hkcs : k ∈ forestIds cs
        · obtain ⟨nd, q, hr⟩ := search_found_of_mem cs k
            (some (SpecHierarchyNode.mk i o cs)) hkcs
          rw [hr]
          exact ⟨nd, q, rfl⟩
        · rw [search_none_of_not_mem cs k _ hkcs]
          have hkr : k ∈ forestIds rest := by
            rcases h with rfl | hk | hk
            · exact absurd rfl hik
            · exact absurd hk hkcs
            · exact hk
          exact search_found_of_mem rest k par hkr
termination_by F _ _ _ => sizeOf F
decreasing_by
  all_goals simp_wf
  all_goals omega

/-- A child-appending forest update keeps every identifier present. -/
theorem ids_attach_mem : ∀ (F : List SpecHierarchyNode) (k k' : String)
    (n : SpecHierarchyNode), k' ∈ forestIds F →
    k' ∈ forestIds (updForest F k (fun cs => cs ++ [n])).1
  | [], k, k', n, h => by simp [forestIds] at h
  | SpecHierarchyNode.mk i o cs :: rest, k, k', n, h => by
      simp only [forestIds, List.mem_cons, List.mem_append] at h
      simp only [updForest]
      by_cases hik : i = k
      · rw [if_pos hik]
        simp only [forestIds, List.mem_cons, List.mem_append,
          forestIds_append]
        rcases h with rfl | hk | hk
        · exact Or.inl rfl
        · exact Or.inr (Or.inl (Or.inl hk))
        · exact Or.inr (Or.inr hk)
      · rw [if_neg hik]
        by_cases hin : (updForest cs k (fun cs => cs ++ [n])).2 = true
        · rw [if_pos hin]
          simp only [forestIds, List.mem_cons, List.mem_append]
          rcases h with rfl | hk | hk
          · exact Or.inl rfl
          · exact Or.inr (Or.inl (ids_attach_mem cs k k' n hk))
          · exact Or.inr (Or.inr hk)
        · simp only [Bool.not_eq_true] at hin
          rw [if_neg (by simp [hin])]
          simp only [forestIds, List.mem_cons, List.mem_append]
          rcases h with rfl | hk | hk
          · exact Or.inl rfl
          · exact Or.inr (Or.inl hk)
          · exact Or.inr (Or.inr (ids_attach_mem rest k k' n hk))
termination_by F _ _ _ _ => sizeOf F
decreasing_by
  all_goals simp_wf
  all_goals omega

/-- Searching a freshly attached node: appending n under the unique holder
of identifier k makes the search find n with a parent carrying k. -/
theorem search_attach : ∀ (F : List SpecHierarchyNode) (k nid : String)
    (n : SpecHierarchyNode) (par : Option SpecHierarchyNode),
    nid ∉ forestIds F → n.hier_id = nid → k ∈ forestIds F →
    ∃ p, search_hierarchy (updForest F k (fun cs => cs ++ [n])).1 nid par =
      some (n, some p) ∧ p.hier_id = k
  | [], k, nid, n, par, _, _, hk => by simp [forestIds] at hk
  | SpecHierarchyNode.mk i o cs :: rest, k, nid, n, par, hnid, hn, hk => by
      simp only [forestIds, List.mem_cons, List.mem_append] at hnid hk
      push_neg at hnid
      simp only [updForest]
      by_cases hik : i = k
      · rw [if_pos hik]
        refine ⟨SpecHierarchyNode.mk i o (cs ++ [n]), ?_, hik⟩
        simp only [search_hierarchy]
        rw [if_neg (fun he => hnid.1 he.symm)]
        rw [search_append_right cs [n] nid _ hnid.2.1]
        obtain ⟨ni, no, ncs⟩ := n
        have hni : ni = nid := hn
        subst hni
        rw [search_cons_self]
      · rw [if_neg hik]
        by_cases hin : (updForest cs k (fun cs => cs ++ [n])).2 = true
        · rw [if_pos hin]
          have hkcs : k ∈ forestIds cs :=
            (updForest_found_iff cs k _).mp hin
          obtain ⟨p, hs, hpk⟩ := search_attach cs k nid n
            (some (SpecHierarchyNode.mk i o
              (updForest cs k (fun cs => cs ++ [n])).1))
            hnid.2.1 hn hkcs
          refine ⟨p, ?_, hpk⟩
          simp only [search_hierarchy]
          rw [if_neg (fun he => hnid.1 he.symm), hs]
        · simp only [Bool.not_eq_true] at hin
          rw [if_neg (by simp [hin])]
          have hkcs : k ∉ forestIds cs := fun hm =>
            by rw [(updForest_found_iff cs k _).mpr hm] at hin; cases hin
          have hkr : k ∈ forestIds rest := by
            rcases hk with rfl | hm | hm
            · exact absurd rfl hik
            · exact absurd hm hkcs
            · exact hm
          obtain ⟨p, hs, hpk⟩ := search_attach rest k nid n par
            hnid.2.2 hn hkr
          refine ⟨p, ?_, hpk⟩
          simp only [search_hierarchy]
          rw [if_neg (fun he => hnid.1 he.symm)]
          rw [search_none_of_not_mem cs nid _ hnid.2.1, hs]
termination_by F _ _ _ _ _ _ _ => sizeOf F
decreasing_by
  all_goals simp_wf
  all_goals omega

/-- Detaching a freshly attached node restores the forest: appending n
under the k-node and then filtering n's identifier out of the k-node's
children is the identity when n's identifier was absent. -/
theorem attach_detach : ∀ (F : List SpecHierarchyNode) (k nid : String)
    (n : SpecHierarchyNode), nid ∉ forestIds F → n.hier_id = nid →
    (updForest (updForest F k (fun cs => cs ++ [n])).1 k
      (fun cs => cs.filter (fun ch => ¬ ch.hier_id = nid))).1 = F
  | [], k, nid, n, _, _ => by simp [updForest]
  | SpecHierarchyNode.mk i o cs :: rest, k, nid, n, hnid, hn => by
      simp only [forestIds, List.mem_cons, List.mem_append] at hnid
      push_neg at hnid
      simp only [updForest]
      by_cases hik : i = k
      · rw [if_pos hik]
        simp only [updForest]
        rw [if_pos hik]
        simp only [List.filter_append]
        rw [filter_id_eq_self cs nid hnid.2.1]
        have hnf : List.filter (fun ch => decide (¬ ch.hier_id = nid)) [n] =
            [] := by
          simp [hn]
        rw [hnf, List.append_nil]
      · rw [if_neg hik]
        by_cases hin : (updForest cs k (fun cs => cs ++ [n])).2 = true
        · rw [if_pos hin]
          simp only [updForest]
          rw [if_neg hik]
          have hkcs : k ∈ forestIds cs :=
            (updForest_found_iff cs k _).mp hin
          have hk2 : k ∈ forestIds
              (updForest cs k (fun cs => cs ++ [n])).1 :=
            ids_attach_mem cs k k n hkcs
          have hflag : (updForest
              (updForest cs k (fun cs => cs ++ [n])).1 k
              (fun cs => cs.filter (fun ch => ¬ ch.hier_id = nid))).2 =
              true :=
            (updForest_found_iff _ k _).mpr hk2
          rw [if_pos hflag]
          rw [attach_detach cs k nid n hnid.2.1 hn]
        · simp only [Bool.not_eq_true] at hin
          rw [if_neg (by simp [hin])]
          simp only [updForest]
          rw [if_neg hik]
          have hkcs : k ∉ forestIds cs := fun hm =>
            by rw [(updForest_found_iff cs k _).mpr hm] at hin; cases hin
          have hflag : (updForest cs k
              (fun cs => cs.filter (fun ch => ¬ ch.hier_id = nid))).2 =
              false := by
            cases hflag2 : (updForest cs k
              (fun cs => cs.filter (fun ch => ¬ ch.hier_id = nid))).2 with
            | false => rfl
            | true =>
                exact absurd ((updForest_found_iff cs k _).mp hflag2) hkcs
          rw [if_neg (by rw [hflag]; simp)]
          have h9 := attach_detach rest k nid n hnid.2.2 hn
          simpa using h9
termination_by F _ _ _ _ _ => sizeOf F
decreasing_by
  all_goals simp_wf
  all_goals omega

/-- Root filtering only removes identifiers. -/
theorem ids_filter_subset (F : List SpecHierarchyNode)
    (p : SpecHierarchyNode → Bool) :
    forestIds (F.filter p) ⊆ forestIds F := by
  induction F with
  | nil => simp
  | cons x rest ih =>
      obtain ⟨i, o, cs⟩ := x
      by_cases hp : p (SpecHierarchyNode.mk i o cs) = true
      · rw [List.filter_cons_of_pos hp]
        simp only [forestIds]
        intro a ha
        simp only [List.mem_cons, List.mem_append] at ha ⊢
        rcases ha with rfl | ha | ha
        · exact Or.inl rfl
        · exact Or.inr (Or.inl ha)
        · exact Or.inr (Or.inr (ih ha))
      · rw [List.filter_cons_of_neg (by simpa using hp)]
        intro a ha
        simp only [forestIds, List.mem_cons, List.mem_append]
        exact Or.inr (Or.inr (ih ha))

/-- A children-filtering forest update only removes identifiers. -/
theorem ids_updFilter_subset : ∀ (F : List SpecHierarchyNode) (k : String)
    (p : SpecHierarchyNode → Bool),
    forestIds (updForest F k (fun cs => cs.filter p)).1 ⊆ forestIds F
  | [], k, p => by simp [updForest]
  | SpecHierarchyNode.mk i o cs :: rest, k, p => by
      simp only [updForest]
      by_cases hik : i = k
      · rw [if_pos hik]
        simp only [forestIds]
        intro a ha
        simp only [List.mem_cons, List.mem_append] at ha ⊢
        rcases ha with rfl | ha | ha
        · exact Or.inl rfl
        · exact Or.inr (Or.inl (ids_filter_subset cs p ha))
        · exact Or.inr (Or.inr ha)
      · rw [if_neg hik]
        by_cases hin : (updForest cs k (fun cs => cs.filter p)).2 = true
        · rw [if_pos hin]
          simp only [forestIds]
          intro a ha
          simp only [List.mem_cons, List.mem_append] at ha ⊢
          rcases ha with rfl | ha | ha
          · exact Or.inl rfl
          · exact Or.inr (Or.inl (ids_updFilter_subset cs k p ha))
          · exact Or.inr (Or.inr ha)
        · rw [if_neg (by simpa using hin)]
          simp only [forestIds]
          intro a ha
          simp only [List.mem_cons, List.mem_append] at ha ⊢
          rcases ha with rfl | ha | ha
          · exact Or.inl rfl
          · exact Or.inr (Or.inl ha)
          · exact Or.inr (Or.inr (ids_updFilter_subset rest k p ha))
termination_by F _ _ => sizeOf F
decreasing_by
  all_goals simp_wf
  all_goals omega

/-- Detaching a root node by its identifier removes that identifier from
the forest, under distinct identifiers. -/
theorem detach_root (F : List SpecHierarchyNode) (n : SpecHierarchyNode)
    (nid : String) (hnd : (forestIds F).Nodup) (hn : n ∈ F)
    (hid : n.hier_id = nid) :
    nid ∉ forestIds (F.filter (fun ch => ¬ ch.hier_id = nid)) := by
  obtain ⟨A, B, rfl⟩ := List.append_of_mem hn
  obtain ⟨ni, no, ncs⟩ := n
  have hni : ni = nid := hid
  subst hni
  rw [forestIds_append] at hnd
  simp only [forestIds] at hnd
  rw [List.nodup_append] at hnd
  obtain ⟨ndA, ndR, disj⟩ := hnd
  rw [List.nodup_cons] at ndR
  have hA : ni ∉ forestIds A := fun hm => disj hm (List.mem_cons_self _ _)
  have hB : ni ∉ forestIds B := fun hm =>
    ndR.1 (List.mem_append.mpr (Or.inr hm))
  rw [List.filter_append, filter_id_eq_self A ni hA,
    List.filter_cons_of_neg (by simp [SpecHierarchyNode.hier_id]),
    filter_id_eq_self B ni hB, forestIds_append]
  intro hm
  rcases List.mem_append.mp hm with hm | hm
  · exact hA hm
  · exact hB hm

/-- Detaching a child node by its identifier from its parent's children
removes that identifier from the forest and keeps the parent's, under
distinct identifiers. -/
theorem detach_child : ∀ (F : List SpecHierarchyNode)
    (p n : SpecHierarchyNode) (nid : String),
    (forestIds F).Nodup → p ∈ forestNodes F → n ∈ p.children →
    n.hier_id = nid →
    nid ∉ forestIds ((updForest F p.hier_id
      (fun cs => cs.filter (fun ch => ¬ ch.hier_id = nid))).1) ∧
    p.hier_id ∈ forestIds ((updForest F p.hier_id
      (fun cs => cs.filter (fun ch => ¬ ch.hier_id = nid))).1)
  | [], p, n, nid, _, hp, _, _ => by simp [forestNodes] at hp
  | SpecHierarchyNode.mk i o cs :: rest, p, n, nid, hnd, hp, hn, hid => by
      simp only [forestIds, List.nodup_cons, List.nodup_append] at hnd
      obtain ⟨hi, ndcs, ndrest, disj⟩ := hnd
      simp only [forestNodes, List.mem_cons, List.mem_append] at hp
      simp only [updForest]
      rcases hp with rfl | hp2 | hp2
      · have hncs : n ∈ cs := hn
        rw [if_pos (show i = (SpecHierarchyNode.mk i o cs).hier_id from rfl)]
        have hnidcs : nid ∈ forestIds cs :=
          hid ▸ root_id_mem_forestIds cs n hncs
        have hnidi : ¬ nid = i := fun he =>
          hi (he ▸ List.mem_append.mpr (Or.inl hnidcs))
        constructor
        · simp only [forestIds, List.mem_cons, List.mem_append]
          rintro (he | hm | hm)
          · exact hnidi he
          · exact detach_root cs n nid ndcs hncs hid hm
          · exact disj hnidcs hm
        · simp [forestIds, SpecHierarchyNode.hier_id]
      · have hpid : p.hier_id ∈ forestIds cs :=
          node_id_mem_forestIds cs p hp2
        have hip : ¬ i = p.hier_id := fun he =>
          hi (he ▸ List.mem_append.mpr (Or.inl hpid))
        rw [if_neg hip]
        have hflag : (updForest cs p.hier_id
            (fun cs => cs.filter (fun ch => ¬ ch.hier_id = nid))).2 =
            true := (updForest_found_iff _ _ _).mpr hpid
        rw [if_pos hflag]
        obtain ⟨ha, hb⟩ := detach_child cs p n nid ndcs hp2 hn hid
        have hnidcs : nid ∈ forestIds cs := by
          have hnn : n ∈ forestNodes cs :=
            children_mem_forestNodes cs p hp2 n hn
          exact hid ▸ node_id_mem_forestIds cs n hnn
        have hnidi : ¬ nid = i := fun he =>
          hi (he ▸ List.mem_append.mpr (Or.inl hnidcs))
        constructor
        · simp only [forestIds, List.mem_cons, List.mem_append]
          rintro (he | hm | hm)
          · exact hnidi he
          · exact ha hm
          · exact disj hnidcs hm
        · simp only [forestIds, List.mem_cons, List.mem_append]
          exact Or.inr (Or.inl hb)
      · have hpid : p.hier_id ∈ forestIds rest :=
          node_id_mem_forestIds rest p hp2
        have hip : ¬ i = p.hier_id := fun he =>
          hi (he ▸ List.mem_append.mpr (Or.inr hpid))
        rw [if_neg hip]
        have hpcs : p.hier_id ∉ forestIds cs := fun hm => disj hm hpid
        rw [updForest_not_found cs p.hier_id _ hpcs]
        simp only [Bool.false_eq_true, if_false]
        obtain ⟨ha, hb⟩ := detach_child rest p n nid ndrest hp2 hn hid
        have hnidrest : nid ∈ forestIds rest := by
          have hnn : n ∈ forestNodes rest :=
            children_mem_forestNodes rest p hp2 n hn
          exact hid ▸ node_id_mem_forestIds rest n hnn
        have hnidi : ¬ nid = i := fun he =>
          hi (he ▸ List.mem_append.mpr (Or.inr hnidrest))
        constructor
        · simp only [forestIds, List.mem_cons, List.mem_append]
          rintro (he | hm | hm)
          · exact hnidi he
          · exact disj hm hnidrest
          · exact ha hm
        · simp only [forestIds, List.mem_cons, List.mem_append]
          exact Or.inr (Or.inr hb)
termination_by F _ _ _ => sizeOf F
decreasing_by
  all_goals simp_wf
  all_goals omega

/-- C5 counterexample: moving the only node under a nonexistent parent
fails, but the document comes out with the node already detached — an empty
forest — while the stacks stay untouched. -/
theorem c5_failed_move_loses_node :
    execute_command ⟨[], []⟩ d5doc
      (.moveNode "H1" (some "MISSING") none none) =
      (some PyErr.valueError,
        ⟨[], []⟩,
        { d5doc with spec_hierarchies := [] }) := by
  simp [execute_command, execCmd, d5doc, search_hierarchy, optTruthy,
    SpecHierarchyNode.hier_id]

/-- C5 (amended): a failing execute leaves the manager's stacks untouched
and propagates the exception, but MoveNodeCommand detaches the node before
validating the new parent: when the node exists, the new-parent id is
truthy and nowhere in the forest, execution raises ValueError with the node
already removed from the document's forest. -/
theorem c5_move_failure_amended :
    (∀ (m : CommandManager) (d : ReqIFDocument) (c : Cmd) (e : PyErr)
        (c2 : Cmd) (d2 : ReqIFDocument),
        execCmd c d = (some e, c2, d2) →
        execute_command m d c = (some e, m, d2)) ∧
    (∀ (d : ReqIFDocument) (nid pid : String)
        (a : Option SpecHierarchyNode) (b : Option (Option String)),
        (forestIds d.spec_hierarchies).Nodup →
        nid ∈ forestIds d.spec_hierarchies →
        ¬ pid = "" → pid ∉ forestIds d.spec_hierarchies →
        (execCmd (.moveNode nid (some pid) a b) d).1 =
          some PyErr.valueError ∧
        nid ∉ forestIds
          (execCmd (.moveNode nid (some pid) a b) d).2.2.spec_hierarchies) := by
  constructor
  · intro m d c e c2 d2 h
    simp [execute_command, h]
  · intro d nid pid a b hnd hmem hpne hpid
    obtain ⟨n, q, hs⟩ :=
      search_found_of_mem d.spec_hierarchies nid none hmem
    have hnid : n.hier_id = nid := search_id _ _ _ _ _ hs
    simp only [execCmd, hs]
    rcases search_structure _ _ _ _ _ hs with ⟨rfl, hroot⟩ | hint
    · have hd : nid ∉ forestIds (d.spec_hierarchies.filter
          (fun ch => ¬ ch.hier_id = nid)) :=
        detach_root _ n nid hnd hroot hnid
      have hp1 : pid ∉ forestIds (d.spec_hierarchies.filter
          (fun ch => ¬ ch.hier_id = nid)) :=
        fun hm => hpid (ids_filter_subset _ _ hm)
      rw [show optTruthy (some pid) = true from by simp [optTruthy, hpne]]
      simp only [if_true, Option.getD]
      rw [search_none_of_not_mem _ pid _ hp1]
      exact ⟨rfl, hd⟩
    · obtain ⟨p, rfl, hpF, hch⟩ := hint
      obtain ⟨hd, _⟩ := detach_child d.spec_hierarchies p n nid hnd hpF
        hch hnid
      have hp1 : pid ∉ forestIds ((updForest d.spec_hierarchies p.hier_id
          (fun cs => cs.filter (fun ch => ¬ ch.hier_id = nid))).1) :=
        fun hm => hpid (ids_updFilter_subset _ _ _ hm)
      rw [show optTruthy (some pid) = true from by simp [optTruthy, hpne]]
      simp only [if_true, Option.getD]
      rw [search_none_of_not_mem _ pid _ hp1]
      exact ⟨rfl, hd⟩

/-- Witness for C5 at the one-node document. -/
theorem c5_move_failure_amended_witness :
    execute_command ⟨[], []⟩ d5doc
        (.moveNode "H1" (some "MISSING")
          (some (SpecHierarchyNode.mk "X" "Y" [])) none) =
      (some PyErr.valueError, ⟨[], []⟩,
        { d5doc with spec_hierarchies := [] }) ∧
    (execCmd (.moveNode "H1" (some "MISSING") none none) d5doc).1 =
      some PyErr.valueError ∧
    "H1" ∉ forestIds (execCmd
      (.moveNode "H1" (some "MISSING") none none) d5doc).2.2.spec_hierarchies :=
  ⟨c5_move_failure_amended.1 ⟨[], []⟩ d5doc
      (.moveNode "H1" (some "MISSING")
        (some (SpecHierarchyNode.mk "X" "Y" [])) none)
      PyErr.valueError
      (.moveNode "H1" (some "MISSING")
        (some (SpecHierarchyNode.mk "H1" "O1" [])) (some none))
      { d5doc with spec_hierarchies := [] }
      (by simp [execCmd, d5doc, search_hierarchy, optTruthy,
        SpecHierarchyNode.hier_id]),
   (c5_move_failure_amended.2 d5doc "H1" "MISSING" none none
      (by simp [d5doc, forestIds])
      (by simp [d5doc, forestIds])
      (by decide)
      (by simp [d5doc, forestIds])).1,
   (c5_move_failure_amended.2 d5doc "H1" "MISSING" none none
      (by simp [d5doc, forestIds])
      (by simp [d5doc, forestIds])
      (by decide)
      (by simp [d5doc, forestIds])).2⟩

/-- Splitting a list at its first match. -/
theorem find?_split {α : Type} (p : α → Bool) :
    ∀ (l : List α) (a : α), l.find? p = some a →
    p a = true ∧ ∃ A B, l = A ++ a :: B ∧ ∀ x ∈ A, p x = false
  | [], a, h => by simp at h
  | x :: xs, a, h => by
      by_cases hx : p x = true
      · rw [List.find?_cons_of_pos _ hx] at h
        cases h
        exact ⟨hx, [], xs, rfl, by simp⟩
      · rw [List.find?_cons_of_neg _ (by simpa using hx)] at h
        obtain ⟨ha, A, B, rfl, hA⟩ := find?_split p xs a h
        refine ⟨ha, x :: A, B, rfl, ?_⟩
        intro y hy
        rcases List.mem_cons.mp hy with rfl | hy2
        · simpa using hx
        · exact hA y hy2

/-- An updated requirement keeps its identifier. -/
theorem applyUpd_req_id (nt nd : Option String) (r : Requirement) :
    (applyUpd nt nd r).req_id = r.req_id := by
  cases nt <;> cases nd <;> simp [applyUpd]

/-- Undo then redo of a successful AddRequirementCommand restores the
post-execute document exactly. -/
theorem undo_redo_addReq (d : ReqIFDocument) (r : Requirement)
    (c1 : Cmd) (d1 : ReqIFDocument)
    (h : execCmd (.addReq r) d = (none, c1, d1)) :
    undoCmd c1 d1 = (none, d) ∧ execCmd c1 d = (none, c1, d1) := by
  simp only [execCmd, ReqIFDocument.add_requirement] at h
  by_cases hany : d.requirements.any (fun x => x.req_id = r.req_id) = true
  · rw [if_pos hany] at h
    cases h
  · rw [if_neg hany] at h
    obtain ⟨rfl, rfl⟩ := (Prod.mk.injEq _ _ _ _).mp
      ((Prod.mk.injEq _ _ _ _).mp h).2
    have hf : (d.requirements ++ [r]).filter
        (fun x => ¬ x.req_id = r.req_id) = d.requirements := by
      rw [List.filter_append, List.filter_eq_self.mpr, show
        (List.filter (fun x => ¬ x.req_id = r.req_id) [r]
          : List Requirement) = [] from by simp, List.append_nil]
      intro x hx
      simp only [decide_eq_true_eq]
      intro he
      exact hany (List.any_eq_true.mpr ⟨x, hx, by simp [he]⟩)
    constructor
    · simp only [undoCmd, ReqIFDocument.remove_requirement]
      rw [if_pos (by simp)]
      dsimp only
      rw [Prod.mk.injEq]
      refine ⟨rfl, ?_⟩
      rw [hf]
    · simp only [execCmd, ReqIFDocument.add_requirement]
      rw [if_neg hany]

/-- Undo then redo of a successful RemoveRequirementCommand restores the
post-execute document exactly. -/
theorem undo_redo_removeReq (d : ReqIFDocument) (rid : String)
    (a0 : Option Requirement) (c1 : Cmd) (d1 : ReqIFDocument)
    (h : execCmd (.removeReq rid a0) d = (none, c1, d1)) :
    ∃ d0, undoCmd c1 d1 = (none, d0) ∧ execCmd c1 d0 = (none, c1, d1) := by
  simp only [execCmd, ReqIFDocument.get_requirement] at h
  cases hf : d.requirements.find? (fun x => x.req_id = rid) with
  | none => rw [hf] at h; cases h
  | some r0 =>
      rw [hf] at h
      simp only [ReqIFDocument.remove_requirement] at h
      by_cases hany : d.requirements.any (fun x => x.req_id = rid) = true
      · rw [if_pos hany] at h
        obtain ⟨rfl, rfl⟩ := (Prod.mk.injEq _ _ _ _).mp
          ((Prod.mk.injEq _ _ _ _).mp h).2
        have hr0 : r0.req_id = rid := by
          simpa using List.find?_some hf
        have hnone : ((d.requirements.filter
            (fun x => ¬ x.req_id = rid)).any
            (fun x => x.req_id = r0.req_id)) = false := by
          rw [Bool.eq_false_iff]
          intro hx
          obtain ⟨y, hy, hyid⟩ := List.any_eq_true.mp hx
          have hy2 := (List.mem_filter.mp hy).2
          simp only [decide_eq_true_eq] at hy2 hyid
          exact hy2 (hr0 ▸ hyid)
        refine ⟨{ d with requirements :=
          d.requirements.filter (fun x => ¬ x.req_id = rid) ++ [r0] },
          ?_, ?_⟩
        · simp only [undoCmd, ReqIFDocument.add_requirement]
          rw [if_neg (by simp only [hnone]; simp)]
        · simp only [execCmd, ReqIFDocument.get_requirement]
          have hff : ((d.requirements.filter
              (fun x => ¬ x.req_id = rid)) ++ [r0]).find?
              (fun x => x.req_id = rid) = some r0 := by
            rw [List.find?_append, List.find?_eq_none.mpr, Option.none_or]
            · simp [hr0]
            · intro x hx
              have hx2 := (List.mem_filter.mp hx).2
              simpa using hx2
          rw [hff]
          simp only [ReqIFDocument.remove_requirement]
          rw [if_pos (by
            rw [List.any_eq_true]
            exact ⟨r0, by simp, by simp [hr0]⟩)]
          have hff2 : ((d.requirements.filter
              (fun x => ¬ x.req_id = rid)) ++ [r0]).filter
              (fun x => ¬ x.req_id = rid) =
              d.requirements.filter (fun x => ¬ x.req_id = rid) := by
            rw [List.filter_append, show (List.filter
              (fun x => ¬ x.req_id = rid) [r0] : List Requirement) = []
              from by simp [hr0], List.append_nil, List.filter_filter]
            apply List.filter_congr
            intro x _
            simp
          dsimp only
          rw [Prod.mk.injEq]
          refine ⟨rfl, ?_⟩
          rw [Prod.mk.injEq]
          refine ⟨rfl, ?_⟩
          rw [hff2]
      · rw [if_neg hany] at h
        cases h

/-- The in-place update rewrites exactly the first identifier match. -/
theorem updateFirstReq_append (A B : List Requirement) (r0 : Requirement)
    (rid : String) (f : Requirement → Requirement)
    (hA : ∀ x ∈ A, ¬ x.req_id = rid) (hr : r0.req_id = rid) :
    updateFirstReq (A ++ r0 :: B) rid f = A ++ f r0 :: B := by
  induction A with
  | nil => simp [updateFirstReq, hr]
  | cons x xs ih =>
      simp only [List.cons_append, updateFirstReq]
      rw [if_neg (hA x (List.mem_cons_self x xs))]
      exact congrArg (fun l => x :: l)
        (ih (fun y hy => hA y (List.mem_cons_of_mem x hy)))

/-- Undo then redo of a successful UpdateRequirementCommand restores the
requirement's values but moves it to the end of the list. -/
theorem undo_redo_updateReq (d : ReqIFDocument) (rid : String)
    (nt nd : Option String) (a0 : Option Requirement) (c1 : Cmd)
    (d1 : ReqIFDocument)
    (hnd : (d.requirements.map (fun x => x.req_id)).Nodup)
    (h : execCmd (.updateReq rid nt nd a0) d = (none, c1, d1)) :
    ∃ r0 d0, c1 = .updateReq rid nt nd (some r0) ∧
      undoCmd c1 d1 = (none, d0) ∧
      execCmd c1 d0 = (none, c1,
        { d1 with requirements :=
            d1.requirements.filter (fun x => ¬ x.req_id = rid) ++
              [applyUpd nt nd r0] }) := by
  simp only [execCmd, ReqIFDocument.get_requirement] at h
  cases hf : d.requirements.find? (fun x => x.req_id = rid) with
  | none => rw [hf] at h; cases h
  | some r0 =>
      rw [hf] at h
      obtain ⟨rfl, rfl⟩ := (Prod.mk.injEq _ _ _ _).mp
        ((Prod.mk.injEq _ _ _ _).mp h).2
      obtain ⟨hp, A, B, hAB, hA⟩ := find?_split _ _ _ hf
      simp only [decide_eq_true_eq] at hp
      have hA' : ∀ x ∈ A, ¬ x.req_id = rid := by
        intro x hx
        have := hA x hx
        simpa using this
      rw [hAB] at hnd
      simp only [List.map_append, List.map_cons] at hnd
      rw [List.nodup_append] at hnd
      obtain ⟨ndA, ndR, disj⟩ := hnd
      rw [List.nodup_cons] at ndR
      have hB : ∀ x ∈ B, ¬ x.req_id = rid := by
        intro x hx he
        exact ndR.1 (hp ▸ he ▸
          List.mem_map_of_mem (fun y => y.req_id) hx)
      have hupd : updateFirstReq d.requirements rid (applyUpd nt nd) =
          A ++ applyUpd nt nd r0 :: B := by
        rw [hAB]
        exact updateFirstReq_append A B r0 rid _ hA' hp
      have hfilter : (A ++ applyUpd nt nd r0 :: B).filter
          (fun x => ¬ x.req_id = rid) = A ++ B := by
        rw [List.filter_append, List.filter_cons_of_neg (by
          simp [applyUpd_req_id, hp])]
        rw [List.filter_eq_self.mpr (by
          intro x hx
          simpa using hA' x hx)]
        rw [List.filter_eq_self.mpr (by
          intro x hx
          simpa using hB x hx)]
      have hanyAB : ((A ++ B).any (fun x => x.req_id = r0.req_id)) =
          false := by
        rw [Bool.eq_false_iff]
        intro hx
        obtain ⟨y, hy, hyid⟩ := List.any_eq_true.mp hx
        simp only [decide_eq_true_eq] at hyid
        rcases List.mem_append.mp hy with hy2 | hy2
        · exact hA' y hy2 (hp ▸ hyid)
        · exact hB y hy2 (hp ▸ hyid)
      have hfind2 : ((A ++ B) ++ [r0]).find?
          (fun x => x.req_id = rid) = some r0 := by
        rw [List.find?_append, List.find?_eq_none.mpr, Option.none_or]
        · simp [hp]
        · intro x hx
          simp only [decide_eq_true_eq]
          rcases List.mem_append.mp hx with hy2 | hy2
          · exact hA' x hy2
          · exact hB x hy2
      refine ⟨r0, { d with requirements := (A ++ B) ++ [r0] }, rfl, ?_, ?_⟩
      · simp only [undoCmd, ReqIFDocument.remove_requirement]
        rw [hupd]
        rw [if_pos (by
          rw [List.any_eq_true]
          exact ⟨applyUpd nt nd r0, by simp,
            by simp [applyUpd_req_id, hp]⟩)]
        rw [hfilter]
        simp only [ReqIFDocument.add_requirement]
        rw [if_neg (by simp only [hanyAB]; simp)]
      · simp only [execCmd, ReqIFDocument.get_requirement]
        rw [hfind2]
        rw [Prod.mk.injEq]
        refine ⟨rfl, ?_⟩
        rw [Prod.mk.injEq]
        refine ⟨rfl, ?_⟩
        rw [hupd, hfilter,
          updateFirstReq_append (A ++ B) [] r0 rid _ (by
            intro x hx
            rcases List.mem_append.mp hx with hy2 | hy2
            · exact hA' x hy2
            · exact hB x hy2) hp]

/-- Undo then redo of AddNodeRelationshipCommand with a fresh relation
identifier restores the post-execute document exactly. -/
theorem undo_redo_addRel (d : ReqIFDocument) (rel : SpecRelation)
    (a0 : Bool) (c1 : Cmd) (d1 : ReqIFDocument)
    (hfresh : (d.spec_relations.any
      (fun x => x.relation_id = rel.relation_id)) = false)
    (h : execCmd (.addRel rel a0) d = (none, c1, d1)) :
    undoCmd c1 d1 = (none, d) ∧ execCmd c1 d = (none, c1, d1) := by
  simp only [execCmd] at h
  obtain ⟨rfl, rfl⟩ := (Prod.mk.injEq _ _ _ _).mp
    ((Prod.mk.injEq _ _ _ _).mp h).2
  have hf : (d.spec_relations ++ [rel]).filter
      (fun x => ¬ x.relation_id = rel.relation_id) = d.spec_relations := by
    rw [List.filter_append, List.filter_eq_self.mpr, show
      (List.filter (fun x => ¬ x.relation_id = rel.relation_id) [rel]
        : List SpecRelation) = [] from by simp, List.append_nil]
    intro x hx
    simp only [decide_eq_true_eq]
    intro he
    rw [Bool.eq_false_iff] at hfresh
    exact hfresh (List.any_eq_true.mpr ⟨x, hx, by simp [he]⟩)
  constructor
  · simp only [undoCmd]
    rw [if_pos trivial, hf]
  · simp only [execCmd]

/-- Undo then redo of a successful RemoveNodeRelationshipCommand restores
the post-execute document exactly. -/
theorem undo_redo_removeRel (d : ReqIFDocument) (rid : String)
    (a0 : Option SpecRelation) (c1 : Cmd) (d1 : ReqIFDocument)
    (h : execCmd (.removeRel rid a0) d = (none, c1, d1)) :
    ∃ d0, undoCmd c1 d1 = (none, d0) ∧ execCmd c1 d0 = (none, c1, d1) := by
  simp only [execCmd] at h
  cases hf : d.spec_relations.find? (fun x => x.relation_id = rid) with
  | none => rw [hf] at h; cases h
  | some r0 =>
      rw [hf] at h
      obtain ⟨rfl, rfl⟩ := (Prod.mk.injEq _ _ _ _).mp
        ((Prod.mk.injEq _ _ _ _).mp h).2
      have hr0 : r0.relation_id = rid := by
        simpa using List.find?_some hf
      have hff : ((d.spec_relations.filter
          (fun x => ¬ x.relation_id = rid)) ++ [r0]).find?
          (fun x => x.relation_id = rid) = some r0 := by
        rw [List.find?_append, List.find?_eq_none.mpr, Option.none_or]
        · simp [hr0]
        · intro x hx
          have hx2 := (List.mem_filter.mp hx).2
          simpa using hx2
      have hff2 : ((d.spec_relations.filter
          (fun x => ¬ x.relation_id = rid)) ++ [r0]).filter
          (fun x => ¬ x.relation_id = rid) =
          d.spec_relations.filter (fun x => ¬ x.relation_id = rid) := by
        rw [List.filter_append, show (List.filter
          (fun x => ¬ x.relation_id = rid) [r0] : List SpecRelation) = []
          from by simp [hr0], List.append_nil, List.filter_filter]
        apply List.filter_congr
        intro x _
        simp
      refine ⟨{ d with spec_relations :=
        d.spec_relations.filter (fun x => ¬ x.relation_id = rid) ++ [r0] },
        ?_, ?_⟩
      · simp only [undoCmd]
      · simp only [execCmd]
        rw [hff]
        rw [Prod.mk.injEq]
        refine ⟨rfl, ?_⟩
        rw [Prod.mk.injEq]
        refine ⟨rfl, ?_⟩
        rw [hff2]

/-- A successful search means the identifier is in the forest. -/
theorem search_mem_ids (F : List SpecHierarchyNode) (k : String)
    (par : Option SpecHierarchyNode) (nd : SpecHierarchyNode)
    (q : Option SpecHierarchyNode)
    (h : search_hierarchy F k par = some (nd, q)) : k ∈ forestIds F := by
  have hid : nd.hier_id = k := search_id F k par nd q h
  rcases search_structure F k par nd q h with ⟨_, hmem⟩ | ⟨p, _, hp, hch⟩
  · exact hid ▸ root_id_mem_forestIds F nd hmem
  · exact hid ▸ node_id_mem_forestIds F nd
      (children_mem_forestNodes F p hp nd hch)

/-- Undo then redo of a successful MoveNodeCommand restores the
post-execute document exactly, under distinct node identifiers. -/
theorem undo_redo_moveNode (d : ReqIFDocument) (nid : String)
    (pid : Option String) (a0 : Option SpecHierarchyNode)
    (b0 : Option (Option String)) (c1 : Cmd) (d1 : ReqIFDocument)
    (hnd : (forestIds d.spec_hierarchies).Nodup)
    (h : execCmd (.moveNode nid pid a0 b0) d = (none, c1, d1)) :
    ∃ d0, undoCmd c1 d1 = (none, d0) ∧ execCmd c1 d0 = (none, c1, d1) := by
  simp only [execCmd] at h
  cases hs : search_hierarchy d.spec_hierarchies nid none with
  | none => rw [hs] at h; cases h
  | some r =>
      obtain ⟨n, par⟩ := r
      rw [hs] at h
      have hnid : n.hier_id = nid := search_id _ _ _ _ _ hs
      obtain ⟨ni, no, ncs⟩ := n
      have hni : nid = ni := Eq.symm hnid
      subst hni
      dsimp only at h
      cases par with
      | none =>
          have hroot : SpecHierarchyNode.mk nid no ncs ∈
              d.spec_hierarchies := by
            rcases search_structure _ _ _ _ _ hs with ⟨_, hmem⟩ |
              ⟨p, hq, _, _⟩
            · exact hmem
            · cases hq
          have hF1 : nid ∉ forestIds (d.spec_hierarchies.filter
              (fun ch => ¬ ch.hier_id = nid)) :=
            detach_root _ _ nid hnd hroot hnid
          cases hop : optTruthy pid with
          | true =>
              rw [if_pos hop] at h
              cases hs2 : search_hierarchy (d.spec_hierarchies.filter
                  (fun ch => ¬ ch.hier_id = nid)) (pid.getD "") none with
              | none => rw [hs2] at h; cases h
              | some r2 =>
                  obtain ⟨q, w⟩ := r2
                  rw [hs2] at h
                  obtain ⟨rfl, rfl⟩ := (Prod.mk.injEq _ _ _ _).mp
                    ((Prod.mk.injEq _ _ _ _).mp h).2
                  dsimp only
                  have hqid : q.hier_id = pid.getD "" :=
                    search_id _ _ _ _ _ hs2
                  have hpidm : pid.getD "" ∈ forestIds
                      (d.spec_hierarchies.filter
                        (fun ch => ¬ ch.hier_id = nid)) :=
                    search_mem_ids _ _ _ _ _ hs2
                  have hpidm2 : pid.getD "" ∈ forestIds
                      ((updForest (d.spec_hierarchies.filter
                        (fun ch => ¬ ch.hier_id = nid)) q.hier_id
                        (fun cs => cs ++
                          [SpecHierarchyNode.mk nid no ncs])).1) := by
                    rw [hqid]
                    exact ids_attach_mem _ _ _ _ hpidm
                  obtain ⟨q2, w2, hs3⟩ := search_found_of_mem _
                    (pid.getD "") none hpidm2
                  have hq2id : q2.hier_id = pid.getD "" :=
                    search_id _ _ _ _ _ hs3
                  refine ⟨{ d with spec_hierarchies :=
                    (d.spec_hierarchies.filter
                      (fun ch => ¬ ch.hier_id = nid)) ++
                      [SpecHierarchyNode.mk nid no ncs] }, ?_, ?_⟩
                  · simp only [undoCmd]
                    rw [if_pos hop, hs3]
                    dsimp only
                    rw [hq2id, hqid, attach_detach _ _ nid _ hF1 hnid]
                    simp
                  · simp only [execCmd]
                    rw [search_append_right _ _ nid none hF1,
                      search_cons_self nid no ncs [] none]
                    dsimp only
                    have hfil : ((d.spec_hierarchies.filter
                        (fun ch => ¬ ch.hier_id = nid)) ++
                        [SpecHierarchyNode.mk nid no ncs]).filter
                        (fun ch => ¬ ch.hier_id = nid) =
                        d.spec_hierarchies.filter
                          (fun ch => ¬ ch.hier_id = nid) := by
                      rw [List.filter_append, filter_id_eq_self _ nid hF1,
                        show List.filter (fun ch => decide
                          (¬ ch.hier_id = nid))
                          [SpecHierarchyNode.mk nid no ncs] = [] from by
                            simp [hnid], List.append_nil]
                    rw [if_pos hop, hfil, hs2]
          | false =>
              rw [if_neg (by simp [hop])] at h
              obtain ⟨rfl, rfl⟩ := (Prod.mk.injEq _ _ _ _).mp
                ((Prod.mk.injEq _ _ _ _).mp h).2
              dsimp only
              refine ⟨{ d with spec_hierarchies :=
                (d.spec_hierarchies.filter
                  (fun ch => ¬ ch.hier_id = nid)) ++
                  [SpecHierarchyNode.mk nid no ncs] }, ?_, ?_⟩
              · simp only [undoCmd]
                rw [if_neg (by simp [hop])]
                dsimp only
                have hfil : ((d.spec_hierarchies.filter
                    (fun ch => ¬ ch.hier_id = nid)) ++
                    [SpecHierarchyNode.mk nid no ncs]).filter
                    (fun ch => ¬ ch.hier_id = nid) =
                    d.spec_hierarchies.filter
                      (fun ch => ¬ ch.hier_id = nid) := by
                  rw [List.filter_append, filter_id_eq_self _ nid hF1,
                    show List.filter (fun ch => decide
                      (¬ ch.hier_id = nid))
                      [SpecHierarchyNode.mk nid no ncs] = [] from by
                        simp [hnid], List.append_nil]
                rw [hfil]
                simp
              · simp only [execCmd]
                rw [search_append_right _ _ nid none hF1,
                  search_cons_self nid no ncs [] none]
                dsimp only
                have hfil : ((d.spec_hierarchies.filter
                    (fun ch => ¬ ch.hier_id = nid)) ++
                    [SpecHierarchyNode.mk nid no ncs]).filter
                    (fun ch => ¬ ch.hier_id = nid) =
                    d.spec_hierarchies.filter
                      (fun ch => ¬ ch.hier_id = nid) := by
                  rw [List.filter_append, filter_id_eq_self _ nid hF1,
                    show List.filter (fun ch => decide
                      (¬ ch.hier_id = nid))
                      [SpecHierarchyNode.mk nid no ncs] = [] from by
                        simp [hnid], List.append_nil]
                rw [if_neg (by simp [hop]), hfil]
      | some p =>
          have hint : p ∈ forestNodes d.spec_hierarchies ∧
              SpecHierarchyNode.mk nid no ncs ∈ p.children := by
            rcases search_structure _ _ _ _ _ hs with ⟨hq, _⟩ |
              ⟨p2, hq, hp2, hch⟩
            · cases hq
            · cases hq
              exact ⟨hp2, hch⟩
          obtain ⟨hF1, hpmem⟩ := detach_child d.spec_hierarchies p _ nid
            hnd hint.1 hint.2 hnid
          cases hop : optTruthy pid with
          | true =>
              rw [if_pos hop] at h
              cases hs2 : search_hierarchy ((updForest d.spec_hierarchies
                  p.hier_id (fun cs => cs.filter
                    (fun ch => ¬ ch.hier_id = nid))).1)
                  (pid.getD "") none with
              | none => rw [hs2] at h; cases h
              | some r2 =>
                  obtain ⟨q, w⟩ := r2
                  rw [hs2] at h
                  obtain ⟨rfl, rfl⟩ := (Prod.mk.injEq _ _ _ _).mp
                    ((Prod.mk.injEq _ _ _ _).mp h).2
                  dsimp only
                  have hqid : q.hier_id = pid.getD "" :=
                    search_id _ _ _ _ _ hs2
                  have hpidm : pid.getD "" ∈ forestIds
                      ((updForest d.spec_hierarchies p.hier_id
                        (fun cs => cs.filter
                          (fun ch => ¬ ch.hier_id = nid))).1) :=
                    search_mem_ids _ _ _ _ _ hs2
                  have hpidm2 : pid.getD "" ∈ forestIds
                      ((updForest ((updForest d.spec_hierarchies p.hier_id
                        (fun cs => cs.filter
                          (fun ch => ¬ ch.hier_id = nid))).1) q.hier_id
                        (fun cs => cs ++
                          [SpecHierarchyNode.mk nid no ncs])).1) := by
                    rw [hqid]
                    exact ids_attach_mem _ _ _ _ hpidm
                  obtain ⟨q2, w2, hs3⟩ := search_found_of_mem _
                    (pid.getD "") none hpidm2
                  have hq2id : q2.hier_id = pid.getD "" :=
                    search_id _ _ _ _ _ hs3
                  obtain ⟨p4, hs4, hp4id⟩ := search_attach
                    ((updForest d.spec_hierarchies p.hier_id
                      (fun cs => cs.filter
                        (fun ch => ¬ ch.hier_id = nid))).1)
                    p.hier_id nid (SpecHierarchyNode.mk nid no ncs) none
                    hF1 hnid hpmem
                  refine ⟨{ d with spec_hierarchies :=
                    (updForest ((updForest d.spec_hierarchies p.hier_id
                      (fun cs => cs.filter
                        (fun ch => ¬ ch.hier_id = nid))).1) p.hier_id
                      (fun cs => cs ++
                        [SpecHierarchyNode.mk nid no ncs])).1 }, ?_, ?_⟩
                  · simp only [undoCmd]
                    rw [if_pos hop, hs3]
                    dsimp only
                    rw [hq2id, hqid, attach_detach _ _ nid _ hF1 hnid]
                    simp
                  · simp only [execCmd]
                    rw [hs4]
                    dsimp only
                    rw [hp4id, attach_detach _ _ nid _ hF1 hnid]
                    rw [if_pos hop, hs2]
                    simp [hp4id]
          | false =>
              rw [if_neg (by simp [hop])] at h
              obtain ⟨rfl, rfl⟩ := (Prod.mk.injEq _ _ _ _).mp
                ((Prod.mk.injEq _ _ _ _).mp h).2
              dsimp only
              obtain ⟨p4, hs4, hp4id⟩ := search_attach
                ((updForest d.spec_hierarchies p.hier_id
                  (fun cs => cs.filter
                    (fun ch => ¬ ch.hier_id = nid))).1)
                p.hier_id nid (SpecHierarchyNode.mk nid no ncs) none
                hF1 hnid hpmem
              refine ⟨{ d with spec_hierarchies :=
                (updForest ((updForest d.spec_hierarchies p.hier_id
                  (fun cs => cs.filter
                    (fun ch => ¬ ch.hier_id = nid))).1) p.hier_id
                  (fun cs => cs ++
                    [SpecHierarchyNode.mk nid no ncs])).1 }, ?_, ?_⟩
              · simp only [undoCmd]
                rw [if_neg (by simp [hop])]
                dsimp only
                have hfil : (((updForest d.spec_hierarchies p.hier_id
                    (fun cs => cs.filter
                      (fun ch => ¬ ch.hier_id = nid))).1) ++
                    [SpecHierarchyNode.mk nid no ncs]).filter
                    (fun ch => ¬ ch.hier_id = nid) =
                    (updForest d.spec_hierarchies p.hier_id
                      (fun cs => cs.filter
                        (fun ch => ¬ ch.hier_id = nid))).1 := by
                  rw [List.filter_append, filter_id_eq_self _ nid hF1,
                    show List.filter (fun ch => decide
                      (¬ ch.hier_id = nid))
                      [SpecHierarchyNode.mk nid no ncs] = [] from by
                        simp [hnid], List.append_nil]
                rw [hfil]
                simp
              · simp only [execCmd]
                rw [hs4]
                dsimp only
                rw [hp4id, attach_detach _ _ nid _ hF1 hnid]
                rw [if_neg (by simp [hop])]
                simp [hp4id]

/-- The manager bookkeeping around a successful execute, undo, redo
sequence. -/
theorem manager_exec_undo_redo (m : CommandManager) (d : ReqIFDocument)
    (c c1 : Cmd) (d1 : ReqIFDocument)
    (h1 : execCmd c d = (none, c1, d1))
    (d0 : ReqIFDocument) (h2 : undoCmd c1 d1 = (none, d0))
    (c2 : Cmd) (d2 : ReqIFDocument) (h3 : execCmd c1 d0 = (none, c2, d2)) :
    execute_command m d c = (none, ⟨m.undo_stack ++ [c1], []⟩, d1) ∧
    managerUndo ⟨m.undo_stack ++ [c1], []⟩ d1 =
      (none, ⟨m.undo_stack, [c1]⟩, d0) ∧
    managerRedo ⟨m.undo_stack, [c1]⟩ d0 =
      (none, ⟨m.undo_stack ++ [c2], []⟩, d2) := by
  refine ⟨?_, ?_, ?_⟩
  · simp [execute_command, h1]
  · simp only [managerUndo]
    rw [List.getLast?_concat]
    dsimp only
    rw [List.dropLast_concat, h2]
    simp
  · simp only [managerRedo]
    rw [show ([c1] : List Cmd).getLast? = some c1 from rfl]
    dsimp only
    rw [show ([c1] : List Cmd).dropLast = [] from rfl, h3]

/-- C6 counterexample: updating requirement A of a two-requirement
document, then undoing and redoing through the manager, reorders the
list — the final document differs from the post-execute one. -/
theorem c6_update_undo_redo_moves_requirement :
    c6Step1.1 = none ∧
    c6Step1.2.2.requirements =
      [⟨"A", "T2", "dA"⟩, ⟨"B", "tB", "dB"⟩] ∧
    c6Step2.1 = none ∧ c6Step3.1 = none ∧
    c6Step3.2.2.requirements =
      [⟨"B", "tB", "dB"⟩, ⟨"A", "T2", "dA"⟩] ∧
    ¬ c6Step3.2.2 = c6Step1.2.2 := by
  decide

/-- C6 (amended): through the manager, undo followed by redo restores the
document to its post-execute state exactly for add-requirement,
remove-requirement, move-node (under distinct node identifiers),
add-relationship (under a fresh relation identifier) and
remove-relationship commands; for update-requirement it restores the
updated values but moves the updated requirement to the end of the list. -/
theorem c6_undo_redo_amended :
    (∀ (m : CommandManager) (d : ReqIFDocument) (r : Requirement)
        (c1 : Cmd) (d1 : ReqIFDocument),
        execCmd (.addReq r) d = (none, c1, d1) →
        managerUndo ⟨m.undo_stack ++ [c1], []⟩ d1 =
          (none, ⟨m.undo_stack, [c1]⟩, d) ∧
        managerRedo ⟨m.undo_stack, [c1]⟩ d =
          (none, ⟨m.undo_stack ++ [c1], []⟩, d1)) ∧
    (∀ (m : CommandManager) (d : ReqIFDocument) (rid : String)
        (a0 : Option Requirement) (c1 : Cmd) (d1 : ReqIFDocument),
        execCmd (.removeReq rid a0) d = (none, c1, d1) →
        ∃ d0, managerUndo ⟨m.undo_stack ++ [c1], []⟩ d1 =
          (none, ⟨m.undo_stack, [c1]⟩, d0) ∧
        managerRedo ⟨m.undo_stack, [c1]⟩ d0 =
          (none, ⟨m.undo_stack ++ [c1], []⟩, d1)) ∧
    (∀ (m : CommandManager) (d : ReqIFDocument) (rid : String)
        (nt nd : Option String) (a0 : Option Requirement)
        (c1 : Cmd) (d1 : ReqIFDocument),
        (d.requirements.map (fun x => x.req_id)).Nodup →
        execCmd (.updateReq rid nt nd a0) d = (none, c1, d1) →
        ∃ r0 d0, c1 = .updateReq rid nt nd (some r0) ∧
          managerUndo ⟨m.undo_stack ++ [c1], []⟩ d1 =
            (none, ⟨m.undo_stack, [c1]⟩, d0) ∧
          managerRedo ⟨m.undo_stack, [c1]⟩ d0 =
            (none, ⟨m.undo_stack ++ [c1], []⟩,
              { d1 with requirements :=
                  d1.requirements.filter (fun x => ¬ x.req_id = rid) ++
                    [applyUpd nt nd r0] })) ∧
    (∀ (m : CommandManager) (d : ReqIFDocument) (nid : String)
        (pid : Option String) (a0 : Option SpecHierarchyNode)
        (b0 : Option (Option String)) (c1 : Cmd) (d1 : ReqIFDocument),
        (forestIds d.spec_hierarchies).Nodup →
        execCmd (.moveNode nid pid a0 b0) d = (none, c1, d1) →
        ∃ d0, managerUndo ⟨m.undo_stack ++ [c1], []⟩ d1 =
          (none, ⟨m.undo_stack, [c1]⟩, d0) ∧
        managerRedo ⟨m.undo_stack, [c1]⟩ d0 =
          (none, ⟨m.undo_stack ++ [c1], []⟩, d1)) ∧
    (∀ (m : CommandManager) (d : ReqIFDocument) (rel : SpecRelation)
        (a0 : Bool) (c1 : Cmd) (d1 : ReqIFDocument),
        (d.spec_relations.any
          (fun x => x.relation_id = rel.relation_id)) = false →
        execCmd (.addRel rel a0) d = (none, c1, d1) →
        managerUndo ⟨m.undo_stack ++ [c1], []⟩ d1 =
          (none, ⟨m.undo_stack, [c1]⟩, d) ∧
        managerRedo ⟨m.undo_stack, [c1]⟩ d =
          (none, ⟨m.undo_stack ++ [c1], []⟩, d1)) ∧
    (∀ (m : CommandManager) (d : ReqIFDocument) (rid : String)
        (a0 : Option SpecRelation) (c1 : Cmd) (d1 : ReqIFDocument),
        execCmd (.removeRel rid a0) d = (none, c1, d1) →
        ∃ d0, managerUndo ⟨m.undo_stack ++ [c1], []⟩ d1 =
          (none, ⟨m.undo_stack, [c1]⟩, d0) ∧
        managerRedo ⟨m.undo_stack, [c1]⟩ d0 =
          (none, ⟨m.undo_stack ++ [c1], []⟩, d1)) := by
  refine ⟨?_, ?_, ?_, ?_, ?_, ?_⟩
  · intro m d r c1 d1 h
    obtain ⟨h2, h3⟩ := undo_redo_addReq d r c1 d1 h
    have hm := manager_exec_undo_redo m d (.addReq r) c1 d1 h d h2 c1 d1 h3
    exact ⟨hm.2.1, hm.2.2⟩
  · intro m d rid a0 c1 d1 h
    obtain ⟨d0, h2, h3⟩ := undo_redo_removeReq d rid a0 c1 d1 h
    have hm := manager_exec_undo_redo m d (.removeReq rid a0) c1 d1 h
      d0 h2 c1 d1 h3
    exact ⟨d0, hm.2.1, hm.2.2⟩
  · intro m d rid nt nd a0 c1 d1 hnd h
    obtain ⟨r0, d0, hc1, h2, h3⟩ := undo_redo_updateReq d rid nt nd a0
      c1 d1 hnd h
    have hm := manager_exec_undo_redo m d (.updateReq rid nt nd a0) c1 d1 h
      d0 h2 c1 _ h3
    exact ⟨r0, d0, hc1, hm.2.1, hm.2.2⟩
  · intro m d nid pid a0 b0 c1 d1 hnd h
    obtain ⟨d0, h2, h3⟩ := undo_redo_moveNode d nid pid a0 b0 c1 d1 hnd h
    have hm := manager_exec_undo_redo m d (.moveNode nid pid a0 b0) c1 d1 h
      d0 h2 c1 d1 h3
    exact ⟨d0, hm.2.1, hm.2.2⟩
  · intro m d rel a0 c1 d1 hfresh h
    obtain ⟨h2, h3⟩ := undo_redo_addRel d rel a0 c1 d1 hfresh h
    have hm := manager_exec_undo_redo m d (.addRel rel a0) c1 d1 h d h2
      c1 d1 h3
    exact ⟨hm.2.1, hm.2.2⟩
  · intro m d rid a0 c1 d1 h
    obtain ⟨d0, h2, h3⟩ := undo_redo_removeRel d rid a0 c1 d1 h
    have hm := manager_exec_undo_redo m d (.removeRel rid a0) c1 d1 h
      d0 h2 c1 d1 h3
    exact ⟨d0, hm.2.1, hm.2.2⟩

/-- Witness for C6: one concrete run of every command type. -/
theorem c6_undo_redo_amended_witness :
    (managerUndo ⟨[] ++ [.addReq ⟨"A", "t", "dd"⟩], []⟩
        { requirements := [⟨"A", "t", "dd"⟩] } =
      (none, ⟨[], [.addReq ⟨"A", "t", "dd"⟩]⟩, ({} : ReqIFDocument)) ∧
      managerRedo ⟨[], [.addReq ⟨"A", "t", "dd"⟩]⟩ ({} : ReqIFDocument) =
      (none, ⟨[] ++ [.addReq ⟨"A", "t", "dd"⟩], []⟩,
        { requirements := [⟨"A", "t", "dd"⟩] })) ∧
    (∃ d0, managerUndo
        ⟨[] ++ [.removeReq "A" (some ⟨"A", "t", "dd"⟩)], []⟩
        { requirements := [] } =
      (none, ⟨[], [.removeReq "A" (some ⟨"A", "t", "dd"⟩)]⟩, d0) ∧
      managerRedo ⟨[], [.removeReq "A" (some ⟨"A", "t", "dd"⟩)]⟩ d0 =
      (none, ⟨[] ++ [.removeReq "A" (some ⟨"A", "t", "dd"⟩)], []⟩,
        { requirements := [] })) ∧
    (∃ r0 d0, (Cmd.updateReq "A" (some "T2") none
        (some ⟨"A", "tA", "dA"⟩)) = .updateReq "A" (some "T2") none
        (some r0) ∧
      managerUndo ⟨[] ++ [.updateReq "A" (some "T2") none
          (some ⟨"A", "tA", "dA"⟩)], []⟩
        { requirements := [⟨"A", "T2", "dA"⟩, ⟨"B", "tB", "dB"⟩] } =
      (none, ⟨[], [.updateReq "A" (some "T2") none
        (some ⟨"A", "tA", "dA"⟩)]⟩, d0) ∧
      managerRedo ⟨[], [.updateReq "A" (some "T2") none
          (some ⟨"A", "tA", "dA"⟩)]⟩ d0 =
      (none, ⟨[] ++ [.updateReq "A" (some "T2") none
          (some ⟨"A", "tA", "dA"⟩)], []⟩,
        ({ requirements :=
            ([⟨"A", "T2", "dA"⟩, ⟨"B", "tB", "dB"⟩]
              : List Requirement).filter
                (fun x => ¬ x.req_id = "A") ++
              [applyUpd (some "T2") none r0] } : ReqIFDocument))) ∧
    (∃ d0, managerUndo ⟨[] ++ [.moveNode "H1" (some "H2")
        (some (SpecHierarchyNode.mk "H1" "O1" [])) (some none)], []⟩
        { spec_hierarchies :=
            [SpecHierarchyNode.mk "H2" "O2"
              [SpecHierarchyNode.mk "H1" "O1" []]] } =
      (none, ⟨[], [.moveNode "H1" (some "H2")
        (some (SpecHierarchyNode.mk "H1" "O1" [])) (some none)]⟩, d0) ∧
      managerRedo ⟨[], [.moveNode "H1" (some "H2")
          (some (SpecHierarchyNode.mk "H1" "O1" [])) (some none)]⟩ d0 =
      (none, ⟨[] ++ [.moveNode "H1" (some "H2")
          (some (SpecHierarchyNode.mk "H1" "O1" [])) (some none)], []⟩,
        { spec_hierarchies :=
            [SpecHierarchyNode.mk "H2" "O2"
              [SpecHierarchyNode.mk "H1" "O1" []]] })) ∧
    (managerUndo ⟨[] ++ [.addRel ⟨"R", "s", "t", "ty", []⟩ true], []⟩
        { spec_relations := [⟨"R", "s", "t", "ty", []⟩] } =
      (none, ⟨[], [.addRel ⟨"R", "s", "t", "ty", []⟩ true]⟩,
        ({} : ReqIFDocument)) ∧
      managerRedo ⟨[], [.addRel ⟨"R", "s", "t", "ty", []⟩ true]⟩
        ({} : ReqIFDocument) =
      (none, ⟨[] ++ [.addRel ⟨"R", "s", "t", "ty", []⟩ true], []⟩,
        { spec_relations := [⟨"R", "s", "t", "ty", []⟩] })) ∧
    (∃ d0, managerUndo
        ⟨[] ++ [.removeRel "R" (some ⟨"R", "s", "t", "ty", []⟩)], []⟩
        { spec_relations := [] } =
      (none, ⟨[], [.removeRel "R" (some ⟨"R", "s", "t", "ty", []⟩)]⟩,
        d0) ∧
      managerRedo ⟨[], [.removeRel "R" (some ⟨"R", "s", "t", "ty", []⟩)]⟩
        d0 =
      (none, ⟨[] ++ [.removeRel "R" (some ⟨"R", "s", "t", "ty", []⟩)],
        []⟩, { spec_relations := [] })) :=
  ⟨c6_undo_redo_amended.1 ⟨[], []⟩ ({} : ReqIFDocument) ⟨"A", "t", "dd"⟩
      (.addReq ⟨"A", "t", "dd"⟩) { requirements := [⟨"A", "t", "dd"⟩] }
      (by decide),
   c6_undo_redo_amended.2.1 ⟨[], []⟩
      { requirements := [⟨"A", "t", "dd"⟩] } "A" none
      (.removeReq "A" (some ⟨"A", "t", "dd"⟩)) { requirements := [] }
      (by decide),
   c6_undo_redo_amended.2.2.1 ⟨[], []⟩ c6Doc "A" (some "T2") none none
      (.updateReq "A" (some "T2") none (some ⟨"A", "tA", "dA"⟩))
      { requirements := [⟨"A", "T2", "dA"⟩, ⟨"B", "tB", "dB"⟩] }
      (by decide) (by decide),
   c6_undo_redo_amended.2.2.2.1 ⟨[], []⟩
      { spec_hierarchies := [SpecHierarchyNode.mk "H1" "O1" [],
          SpecHierarchyNode.mk "H2" "O2" []] }
      "H1" (some "H2") none none
      (.moveNode "H1" (some "H2")
        (some (SpecHierarchyNode.mk "H1" "O1" [])) (some none))
      { spec_hierarchies := [SpecHierarchyNode.mk "H2" "O2"
          [SpecHierarchyNode.mk "H1" "O1" []]] }
      (by simp [forestIds])
      (by simp [execCmd, search_hierarchy, optTruthy, updForest,
        SpecHierarchyNode.hier_id]),
   c6_undo_redo_amended.2.2.2.2.1 ⟨[], []⟩ ({} : ReqIFDocument)
      ⟨"R", "s", "t", "ty", []⟩ false
      (.addRel ⟨"R", "s", "t", "ty", []⟩ true)
      { spec_relations := [⟨"R", "s", "t", "ty", []⟩] }
      (by decide) (by decide),
   c6_undo_redo_amended.2.2.2.2.2 ⟨[], []⟩
      { spec_relations := [⟨"R", "s", "t", "ty", []⟩] } "R" none
      (.removeRel "R" (some ⟨"R", "s", "t", "ty", []⟩))
      { spec_relations := [] } (by decide)⟩
